import Mathlib

/-!
# kafka-rest-go: a verification development

A shallow embedding of the Go package `kafka` (files `kafka.go`, `topic.go`,
`partition.go`, `consumer.go`) and theorems about it.

Conventions of the embedding

* Go `int`, `int64` and `time.Duration` are `Int`; `json.RawMessage` and `string` are `String`;
  a slice is a `List` (the nil slice and the empty slice are both `[]`).
* A Go return `(v, err)` of the package is a pair whose components are `Option`s where the Go
  value may be nil: `none` is Go's `nil`. A call into the standard library returns an `Except`.
* Every method that talks to the REST proxy returns a `Call`: the Go return values together
  with the list of requests it handed to `client.Do`, in order.
* What the Go standard library does (`net/url`, `net/http`, `encoding/json`) is not part of the
  repository. It is gathered in `Env`, and the theorems hold for every `Env`, except where they
  say which one. Spelled out are the control flow of `json.Decoder.Decode` that the package
  relies on (`Decode`), `path.Join`, and `url.Parse` and `String` on plain URLs (`urlParse`,
  `urlString`), which the theorems on `URLJoin` ask of the `Env`.
-/

set_option linter.dupNamespace false
set_option linter.unusedVariables false
set_option maxRecDepth 4000

namespace KafkaRest

/-! ## Errors -/

/-- Go `error` values. `EOF` is the sentinel `io.EOF`; `lib` is any other error value made by the
standard library; `new` is `errors.New` / `fmt.Errorf`; `wrap` is `errors.Wrap` of pkg/errors. -/
inductive Error where
  | EOF : Error
  | lib (text : String) : Error
  | new (text : String) : Error
  | wrap (cause : Error) (message : String) : Error
  deriving DecidableEq, Repr

/-- The `Error()` text. For `errors.Wrap(cause, message)` it is `message + ": " + cause.Error()`. -/
def Error.text : Error → String
  | .EOF => "EOF"
  | .lib t => t
  | .new t => t
  | .wrap cause message => message ++ ": " ++ cause.text

/-- Substring test used to say that an error text contains a message. -/
def contains (text part : String) : Prop := part.data <:+: text.data

instance (text part : String) : Decidable (contains text part) := by
  unfold contains; infer_instance

/-! ## Data model (`kafka.go`, `topic.go`, `partition.go`, `consumer.go`) -/

/-- A Go slice. The structs below have a field called `List`, so the methods name the type of
lists through this abbreviation. -/
abbrev Slice (α : Type) : Type := List α

abbrev Format := String
abbrev Offset := String
abbrev Version := String

def JSON : Format := "json"
def Binary : Format := "binary"
def Avro : Format := "avro"
def Earliest : Offset := "earliest"
def Latest : Offset := "latest"
def Smallest : Offset := "smallest"
def Largest : Offset := "largest"
def V2 : Version := "v2"
def V1 : Version := "v1"

/-- The struct `Kafka`: a Kafka REST API. `Timeout` is a `time.Duration` in nanoseconds. -/
structure Kafka where
  URL : String
  Timeout : Int
  Accept : String
  ContentType : String
  Format : Format
  Offset : Offset
  Version : Version
  deriving DecidableEq, Repr

structure Broker where
  Brokers : List Int := []
  deriving DecidableEq, Repr

structure ErrorMessage where
  ErrorCode : Int := 0
  Message : String := ""
  deriving DecidableEq, Repr

structure Replica where
  Broker : Int := 0
  Leader : Bool := false
  InSync : Bool := false
  deriving DecidableEq, Repr

structure Partition where
  Partition : Int := 0
  Leader : Int := 0
  Replicas : List Replica := []
  deriving DecidableEq, Repr

structure Topic where
  Name : String := ""
  Configs : String := ""
  Partitions : List Partition := []
  deriving DecidableEq, Repr

structure Topics where
  Kafka : Kafka
  List : List Topic
  deriving DecidableEq, Repr

abbrev TopicNames := List String

structure ProducerRecord where
  Key : String := ""
  Value : String := ""
  Partition : Int := 0
  deriving DecidableEq, Repr

structure ProducerMessage where
  KeySchema : String := ""
  KeySchemaID : Int := 0
  ValueSchema : String := ""
  ValueSchemaID : Int := 0
  Records : List ProducerRecord := []
  deriving DecidableEq, Repr

structure ProducerOffsets where
  Partition : Int := 0
  Offset : Int := 0
  ErrorCode : Int := 0
  Error : String := ""
  deriving DecidableEq, Repr

structure ProducerResponse where
  KeySchemaID : Int := 0
  ValueSchemaID : Int := 0
  Offsets : List ProducerOffsets := []
  deriving DecidableEq, Repr

/-- The struct `Partitions`; `Topic` is a pointer that may be nil. -/
structure Partitions where
  Kafka : Kafka
  Topic : Option Topic
  List : Option (List Partition)
  deriving DecidableEq, Repr

structure ConsumerRequest where
  Format : Format := ""
  Offset : Offset := ""
  AutoCommit : String := ""
  Name : String := ""
  deriving DecidableEq, Repr

structure ConsumerInstance where
  ConsumerName : String := ""
  BaseURI : String := ""
  deriving DecidableEq, Repr

structure Consumers where
  Kafka : Kafka
  ConsumerGroup : String := ""
  List : List ConsumerInstance := []
  deriving DecidableEq, Repr

structure ConsumerOffset where
  Partition : Int := 0
  Offset : Int := 0
  Topic : String := ""
  Metadata : String := ""
  deriving DecidableEq, Repr

structure ConsumerOffsets where
  Offsets : List ConsumerOffset := []
  deriving DecidableEq, Repr

structure ConsumerPartitions where
  Partition : Int := 0
  Topic : String := ""
  deriving DecidableEq, Repr

structure ConsumerOffsetsPartitions where
  Partitions : List ConsumerPartitions := []
  deriving DecidableEq, Repr

structure TopicsSubscription where
  Topics : List String := []
  deriving DecidableEq, Repr

structure TopicPatternSubscription where
  TopicPattern : String := ""
  deriving DecidableEq, Repr

/-- The struct `TopicSubscription`: two pointers, each may be nil. -/
structure TopicSubscription where
  Topics : Option TopicsSubscription := none
  TopicPattern : Option TopicPatternSubscription := none
  deriving DecidableEq, Repr

structure Message where
  Topic : String := ""
  Key : String := ""
  Value : String := ""
  Partition : Int := 0
  Offset : Int := 0
  deriving DecidableEq, Repr

/-- The struct `Argument`: the argument of both `Records` and `Messages`. -/
structure Argument where
  Timeout : Int := 0
  TopicName : String := ""
  MaxBytes : Int := 0
  ConsumerName : String := ""
  ConsumerGroup : String := ""
  deriving DecidableEq, Repr

/-! ## HTTP and the standard library -/

/-- The Go value that `json.NewEncoder(b).Encode` writes into the request body. -/
inductive Payload where
  | none : Payload
  | producerMessage (m : ProducerMessage) : Payload
  | consumerRequest (r : ConsumerRequest) : Payload
  | consumerOffsets (o : ConsumerOffsets) : Payload
  | consumerOffsetsPartitions (p : ConsumerOffsetsPartitions) : Payload
  | topics (t : Option TopicsSubscription) : Payload
  | topicPattern (t : Option TopicPatternSubscription) : Payload
  deriving DecidableEq, Repr

/-- An `http.Request`: method, the URL string given to `http.NewRequest`, the headers set with
`Header.Set`, the query parameters added with `q.Add` (in the order of the calls), the body. -/
structure Request where
  Method : String
  URL : String
  Header : List (String × String) := []
  Query : List (String × String) := []
  Body : Payload := .none
  deriving DecidableEq, Repr

/-- An `http.Response`: `StatusCode`, `Status` (such as "404 Not Found") and the whole body. -/
structure Response where
  StatusCode : Int
  Status : String := ""
  Body : String := ""
  deriving DecidableEq, Repr

/-- The fields of `url.URL`. -/
structure URL where
  Scheme : String := ""
  Opaque : String := ""
  User : String := ""
  Host : String := ""
  Path : String := ""
  RawPath : String := ""
  RawQuery : String := ""
  Fragment : String := ""
  deriving DecidableEq, Repr

/-- The behaviour of the standard library and of the network, which the package takes as given.

* `urlParse` is `url.Parse`, `urlString` is `(*url.URL).String`;
* `Do` is `client.Do`: the REST proxy's answer to a request, or a transport error;
* `readValue` is the scan `json.Decoder` makes of a body that has a non-blank byte: the text of
  its first JSON value, or the text of the syntax error;
* `unread` is what is left to read in the body stream once the decoder has reported an error;
* the `unmarshal…` functions are `json.Unmarshal` of one JSON value into a non-nil pointer to a
  value of the type: the stored value, or the text of the error. -/
structure Env where
  urlParse : String → Except Error URL
  urlString : URL → String
  Do : Request → Except Error Response
  readValue : String → Except String String
  unread : String → String
  unmarshalErrorMessage : String → ErrorMessage → Except String ErrorMessage
  unmarshalBroker : String → Broker → Except String Broker
  unmarshalTopicNames : String → TopicNames → Except String TopicNames
  unmarshalTopic : String → Topic → Except String Topic
  unmarshalPartitions : String → List Partition → Except String (List Partition)
  unmarshalPartition : String → Partition → Except String Partition
  unmarshalProducerResponse : String → ProducerResponse → Except String ProducerResponse
  unmarshalConsumerInstance : String → ConsumerInstance → Except String ConsumerInstance
  unmarshalConsumerOffsets : String → ConsumerOffsets → Except String ConsumerOffsets
  unmarshalTopicsSubscription : String → TopicsSubscription → Except String TopicsSubscription
  unmarshalConsumerOffsetsPartitions :
    String → ConsumerOffsetsPartitions → Except String ConsumerOffsetsPartitions
  unmarshalMessages : String → List Message → Except String (List Message)

/-- The Go return values of a method and the requests it handed to `client.Do`. -/
structure Call (α : Type) where
  ret : α
  sent : List Request

def StatusOK : Int := 200
def StatusNoContent : Int := 204

/-- The bytes `encoding/json` skips between values. -/
def isSpace (c : Char) : Bool := c = ' ' || c = '\t' || c = '\r' || c = '\n'

/-- The call `json.NewDecoder(body).Decode(v)` on a fresh decoder.

`pointer` says whether `v` is a non-nil pointer, `target` is the value `v` holds (or points to)
before the call. The result is the value after the call and the error returned:

* a body with no non-blank byte gives `io.EOF` and leaves the target alone;
* otherwise the decoder reads one JSON value, and a syntax error is returned as it is;
* `unmarshal` then refuses a `v` that is not a non-nil pointer (`InvalidUnmarshalError`, whose
  Go text also names the type of `v`);
* otherwise the value is stored through the pointer; when that fails the package never looks at
  the target again, so it is returned as it was. -/
def Decode {α : Type} (env : Env) (unmarshal : String → α → Except String α) (pointer : Bool)
    (body : String) (target : α) : α × Option Error :=
  if body.data.all isSpace then (target, some .EOF)
  else
    match env.readValue body with
    | .error e => (target, some (.lib e))
    | .ok value =>
      if !pointer then (target, some (.lib "json: Unmarshal(non-pointer)"))
      else
        match unmarshal value target with
        | .error e => (target, some (.lib e))
        | .ok v => (v, none)

/-! ## `kafka.go` -/

/-- The function `validateStatusCode`. -/
def validateStatusCode (env : Env) (res : Response) (expectedStatusCode : List Int) :
    Option Error :=
  let code := match expectedStatusCode with
    | [] => StatusOK
    | c :: _ => c
  if res.StatusCode ≠ code then
    let (errMsg, err) := Decode env env.unmarshalErrorMessage true res.Body {}
    if err ≠ none ∧ err ≠ some .EOF then
      some (.wrap (.new "API Error") (env.unread res.Body))
    else
      some (.wrap (.new "API Error")
        ("StatusCode " ++ toString res.StatusCode ++ " " ++ res.Status ++
          " ErrorCode " ++ toString errMsg.ErrorCode ++ " " ++ errMsg.Message))
  else none

/-- The function `getConsumerGroup`. -/
def getConsumerGroup (cs : Consumers) (consumerGroup : List String) : String × Option Error :=
  match consumerGroup with
  | g :: _ => (g, none)
  | [] =>
    if cs.ConsumerGroup ≠ "" then (cs.ConsumerGroup, none)
    else ("", some (.new "Error: empty consumerGroup"))

/-- The function `getTopicName`. -/
def getTopicName (t : Option Topic) (topicName : List String) : String × Option Error :=
  match topicName with
  | n :: _ => (n, none)
  | [] =>
    match t with
    | some t => (t.Name, none)
    | none => ("", some (.new "Error: empty topicName"))

/-- Split a path at every slash. -/
def splitSlash : List Char → List (List Char)
  | [] => [[]]
  | c :: cs =>
    match splitSlash cs with
    | [] => [[]]
    | seg :: rest => if c = '/' then [] :: seg :: rest else (c :: seg) :: rest

/-- One element of a path handed to `path.Clean`, given the elements kept so far (last first):
empty elements and `.` are dropped; `..` removes the element before it, is dropped at the root
and is kept otherwise. -/
def cleanStep (rooted : Bool) (kept : List (List Char)) (seg : List Char) : List (List Char) :=
  if seg = [] ∨ seg = ['.'] then kept
  else if seg = ['.', '.'] then
    match kept with
    | top :: rest => if top = ['.', '.'] then seg :: kept else rest
    | [] => if rooted then [] else [seg]
  else seg :: kept

/-- The function `path.Clean`. -/
def pathClean (p : String) : String :=
  let rooted := p.data.head? = some '/'
  let kept := ((splitSlash p.data).foldl (cleanStep rooted) []).reverse
  let body := String.intercalate "/" (kept.map String.mk)
  if rooted then "/" ++ body else if body = "" then "." else body

/-- The function `path.Join` of two elements. -/
def pathJoin (a b : String) : String :=
  if a = "" ∧ b = "" then ""
  else if a = "" then pathClean b
  else pathClean (a ++ "/" ++ b)

/-- The function `URLJoin`: joins url with path and returns the whole url string. -/
def URLJoin (env : Env) (urlstr : String) (pathstrs : List String) : String × Option Error :=
  match env.urlParse urlstr with
  | .error err => ("", some err)
  | .ok u =>
    let str := String.intercalate "/" pathstrs
    let u := { u with Path := pathJoin u.Path str }
    (env.urlString u, none)

/-- The function `http.NewRequest` for the constant methods used here: it parses the URL and
fails when that fails. -/
def NewRequest (env : Env) (method url : String) (body : Payload) : Except Error Request :=
  match env.urlParse url with
  | .error err => .error err
  | .ok _ => .ok { Method := method, URL := url, Body := body }

/-- The call `req.Header.Set(key, value)`. -/
def Request.setHeader (req : Request) (key value : String) : Request :=
  { req with Header := (req.Header.filter (fun kv => kv.1 ≠ key)) ++ [(key, value)] }

/-- The call `q.Add(key, value)` on the query of the request. -/
def Request.addQuery (req : Request) (key value : String) : Request :=
  { req with Query := req.Query ++ [(key, value)] }

/-! ## Configuration (`kafka.go`) -/

/-- The variable `Defaults`; `60 * time.Second` is 60 000 000 000 ns. -/
def Defaults : Kafka :=
  { URL := "http://localhost:8082"
    Timeout := 60 * 1000000000
    Accept := "application/vnd.kafka+json, application/json"
    ContentType := "application/vnd.kafka+json"
    Format := Binary
    Offset := Largest
    Version := V1 }

/-- An option function `func(*Kafka) error`: the Kafka after the call and the error returned. -/
abbrev KafkaOption := Kafka → Kafka × Option Error

def EarliestOffset : KafkaOption := fun k => ({ k with Offset := Earliest }, none)
def LatestOffset : KafkaOption := fun k => ({ k with Offset := Latest }, none)
def SmallestOffset : KafkaOption := fun k => ({ k with Offset := Smallest }, none)
def LargestOffset : KafkaOption := fun k => ({ k with Offset := Largest }, none)
def BinaryFormat : KafkaOption := fun k => ({ k with Format := Binary }, none)
def V1Version : KafkaOption := fun k => ({ k with Version := V1 }, none)
def V2Version : KafkaOption := fun k => ({ k with Version := V2 }, none)
def JSONFormat : KafkaOption := fun k => ({ k with Format := JSON }, none)
def AvroFormat : KafkaOption := fun k => ({ k with Format := Avro }, none)
def SetTimeout (timeout : Int) : KafkaOption := fun k => ({ k with Timeout := timeout }, none)
def SetURL (url : String) : KafkaOption := fun k => ({ k with URL := url }, none)
def SetAccept (accept : String) : KafkaOption := fun k => ({ k with Accept := accept }, none)
def SetContentType (contentType : String) : KafkaOption :=
  fun k => ({ k with ContentType := contentType }, none)

/-- The method `(*Kafka).SetOption`: applies the options in order, stops at the first error. -/
def Kafka.SetOption (k : Kafka) : List KafkaOption → Kafka × Option Error
  | [] => (k, none)
  | opt :: options =>
    match opt k with
    | (k1, some err) => (k1, some err)
    | (k1, none) => Kafka.SetOption k1 options

/-- The function `applyDefaults`. -/
def applyDefaults (k : Kafka) : Kafka :=
  { k with
    URL := Defaults.URL
    Timeout := Defaults.Timeout
    Accept := Defaults.Accept
    ContentType := Defaults.ContentType
    Format := Defaults.Format
    Offset := Defaults.Offset
    Version := Defaults.Version }

/-- The function `New`: returns a Kafka instance with default setting. `var k Kafka` is the
zero value. -/
def New (options : List KafkaOption) : Option Kafka × Option Error :=
  let k : Kafka :=
    { URL := "", Timeout := 0, Accept := "", ContentType := "", Format := "", Offset := "",
      Version := "" }
  let k := applyDefaults k
  match k.SetOption options with
  | (_, some err) => (none, some err)
  | (k, none) => (some k, none)

/-- The method `(*Kafka).NewTopics`. -/
def Kafka.NewTopics (k : Kafka) : Topics := { Kafka := k, List := [] }

/-- The method `(*Kafka).NewConsumers`. -/
def Kafka.NewConsumers (k : Kafka) (consumerGroup : List String) : Consumers :=
  let cs : Consumers := { Kafka := k }
  match consumerGroup with
  | g :: _ => { cs with ConsumerGroup := g }
  | [] => cs

/-- The method `(*Topics).NewPartitions`. -/
def Topics.NewPartitions (ts : Topics) (t : Slice Topic) : Partitions :=
  let ps : Partitions := { Kafka := ts.Kafka, Topic := none, List := none }
  match t with
  | t0 :: _ => { ps with Topic := some t0 }
  | [] => ps

/-- The function `doRequest`. `captured` is the state the two closures share (in `NewConsumer`,
the `ConsumerInstance` the response hook decodes into). -/
def doRequest {σ : Type} (env : Env) (method url : String) (b : Payload)
    (requestHooker : Request → Request) (responseHooker : Response → σ → σ × Option Error)
    (captured : σ) : Call (σ × Option Error) :=
  match NewRequest env method url b with
  | .error err => ⟨(captured, some err), []⟩
  | .ok req =>
    let req := requestHooker req
    match env.Do req with
    | .error err => ⟨(captured, some err), [req]⟩
    | .ok res =>
      match responseHooker res captured with
      | (captured, some err) => ⟨(captured, some err), [req]⟩
      | (captured, none) => ⟨(captured, none), [req]⟩

/-! ## Brokers, topics and partitions -/

/-- The method `(*Kafka).Broker`: returns the brokers. -/
def Kafka.Broker (env : Env) (k : Kafka) : Call (Option Broker × Option Error) :=
  match URLJoin env k.URL ["brokers"] with
  | (_, some err) => ⟨(none, some err), []⟩
  | (url, none) =>
    match NewRequest env "GET" url .none with
    | .error err => ⟨(none, some err), []⟩
    | .ok req =>
      let req := req.setHeader "Accept" k.Accept
      match env.Do req with
      | .error err => ⟨(none, some err), [req]⟩
      | .ok res =>
        match validateStatusCode env res [] with
        | some err => ⟨(none, some err), [req]⟩
        | none =>
          let (b, err) := Decode env env.unmarshalBroker true res.Body {}
          if err ≠ none ∧ err ≠ some .EOF then ⟨(none, err), [req]⟩
          else ⟨(some b, none), [req]⟩

/-- The method `(*Topics).Names`: lists all topic names. -/
def Topics.Names (env : Env) (ts : Topics) : Call (TopicNames × Option Error) :=
  match URLJoin env ts.Kafka.URL ["topics"] with
  | (_, some err) => ⟨([], some err), []⟩
  | (url, none) =>
    match NewRequest env "GET" url .none with
    | .error err => ⟨([], some err), []⟩
    | .ok req =>
      let req := req.setHeader "Accept" ts.Kafka.Accept
      match env.Do req with
      | .error err => ⟨([], some err), [req]⟩
      | .ok res =>
        match validateStatusCode env res [] with
        | some err => ⟨([], some err), [req]⟩
        | none =>
          let (tn, err) := Decode env env.unmarshalTopicNames true res.Body []
          if err ≠ none ∧ err ≠ some .EOF then ⟨([], err), [req]⟩
          else ⟨(tn, none), [req]⟩

/-- The method `(*Topics).Topic`: returns the Topic with provided topicName. -/
def Topics.Topic (env : Env) (ts : KafkaRest.Topics) (topicName : String) :
    Call (KafkaRest.Topic × Option Error) :=
  match URLJoin env ts.Kafka.URL ["topics", topicName] with
  | (_, some err) => ⟨({}, some err), []⟩
  | (url, none) =>
    match NewRequest env "GET" url .none with
    | .error err => ⟨({}, some err), []⟩
    | .ok req =>
      let req := req.setHeader "Accept" ts.Kafka.Accept
      match env.Do req with
      | .error err => ⟨({}, some err), [req]⟩
      | .ok res =>
        match validateStatusCode env res [] with
        | some err => ⟨({}, some err), [req]⟩
        | none =>
          let (t, err) := Decode env env.unmarshalTopic true res.Body {}
          if err ≠ none ∧ err ≠ some .EOF then ⟨({}, err), [req]⟩
          else ⟨(t, none), [req]⟩

/-- The loop `for _, n := range ns` of `(*Topics).Topics`: the returned values, the Topics
after the loop (its `List` grows by one Topic per name fetched) and the requests sent. -/
def Topics.topicsLoop (env : Env) (ts : KafkaRest.Topics) :
    Slice String → Call ((Slice KafkaRest.Topic × Option Error) × KafkaRest.Topics)
  | [] => ⟨((ts.List, none), ts), []⟩
  | n :: ns =>
    let c := Topics.Topic env ts n
    match c.ret with
    | (_, some err) => ⟨((ts.List, some err), ts), c.sent⟩
    | (t, none) =>
      let ts1 : KafkaRest.Topics := { ts with List := ts.List ++ [t] }
      let r := Topics.topicsLoop env ts1 ns
      ⟨r.ret, c.sent ++ r.sent⟩

/-- The method `(*Topics).Topics`: lists all topics. Besides the Go return values the result
holds the receiver after the call, whose `List` the method appends to. -/
def Topics.Topics (env : Env) (ts : KafkaRest.Topics) :
    Call ((Slice KafkaRest.Topic × Option Error) × KafkaRest.Topics) :=
  let c := Topics.Names env ts
  match c.ret with
  | (_, some err) => ⟨(([], some err), ts), c.sent⟩
  | (ns, none) =>
    let r := Topics.topicsLoop env ts ns
    ⟨r.ret, c.sent ++ r.sent⟩

/-- The method `(*Partitions).Partitions`: lists partitions for the topic. -/
def Partitions.Partitions (env : Env) (ps : KafkaRest.Partitions) (topicName : Slice String) :
    Call (Option (Slice KafkaRest.Partition) × Option Error) :=
  match getTopicName ps.Topic topicName with
  | (_, some err) => ⟨(none, some err), []⟩
  | (tn, none) =>
    match URLJoin env ps.Kafka.URL ["topics", tn, "partitions"] with
    | (_, some err) => ⟨(none, some err), []⟩
    | (url, none) =>
      match NewRequest env "GET" url .none with
      | .error err => ⟨(none, some err), []⟩
      | .ok req =>
        let req := req.setHeader "Accept" ps.Kafka.Accept
        match env.Do req with
        | .error err => ⟨(none, some err), [req]⟩
        | .ok res =>
          match validateStatusCode env res [] with
          | some err => ⟨(none, some err), [req]⟩
          | none =>
            let (pss, err) := Decode env env.unmarshalPartitions true res.Body []
            if err ≠ none then ⟨(none, err), [req]⟩
            else ⟨(some pss, none), [req]⟩

/-- The method `(*Partitions).Partition`: returns the Partition with provided partitionID. -/
def Partitions.Partition (env : Env) (ps : KafkaRest.Partitions) (partitionID : Int)
    (topicName : Slice String) : Call (Option KafkaRest.Partition × Option Error) :=
  match getTopicName ps.Topic topicName with
  | (_, some err) => ⟨(none, some err), []⟩
  | (tn, none) =>
    match URLJoin env ps.Kafka.URL ["topics", tn, "partitions", toString partitionID] with
    | (_, some err) => ⟨(none, some err), []⟩
    | (url, none) =>
      match NewRequest env "GET" url .none with
      | .error err => ⟨(none, some err), []⟩
      | .ok req =>
        let req := req.setHeader "Accept" ps.Kafka.Accept
        match env.Do req with
        | .error err => ⟨(none, some err), [req]⟩
        | .ok res =>
          match validateStatusCode env res [] with
          | some err => ⟨(none, some err), [req]⟩
          | none =>
            let (p, err) := Decode env env.unmarshalPartition true res.Body {}
            if err ≠ none then ⟨(none, err), [req]⟩
            else ⟨(some p, none), [req]⟩

/-! ## Consumers (`consumer.go`) -/

/-- The method `(*Consumers).NewConsumer`: creates a new consumer instance in the consumer
group. -/
def Consumers.NewConsumer (env : Env) (cs : Consumers) (consumerRequest : ConsumerRequest)
    (consumerGroup : Slice String) : Call (Option ConsumerInstance × Option Error) :=
  match getConsumerGroup cs consumerGroup with
  | (_, some err) => ⟨(none, some err), []⟩
  | (cg, none) =>
    match URLJoin env cs.Kafka.URL ["consumers", cg] with
    | (_, some err) => ⟨(none, some err), []⟩
    | (url, none) =>
      let requestHooker := fun (req : Request) =>
        (req.setHeader "Accept" cs.Kafka.Accept).setHeader "Content-Type" cs.Kafka.ContentType
      let responseHooker := fun (res : Response) (ci : ConsumerInstance) =>
        match validateStatusCode env res [] with
        | some err => (ci, some err)
        | none =>
          let (ci, err) := Decode env env.unmarshalConsumerInstance true res.Body ci
          if err ≠ none ∧ err ≠ some .EOF then (ci, err)
          else (ci, none)
      let c := doRequest env "POST" url (.consumerRequest consumerRequest) requestHooker
        responseHooker {}
      match c.ret with
      | (_, some err) => ⟨(none, some err), c.sent⟩
      | (ci, none) => ⟨(some ci, none), c.sent⟩

/-- The method `(*Consumers).DeleteConsumer`: destroy the consumer instance. -/
def Consumers.DeleteConsumer (env : Env) (cs : Consumers) (consumerName : String)
    (consumerGroup : Slice String) : Call (Option Error) :=
  match getConsumerGroup cs consumerGroup with
  | (_, some err) => ⟨some err, []⟩
  | (cg, none) =>
    match URLJoin env cs.Kafka.URL ["consumers", cg, "instances", consumerName] with
    | (_, some err) => ⟨some err, []⟩
    | (url, none) =>
      match NewRequest env "DELETE" url .none with
      | .error err => ⟨some err, []⟩
      | .ok req =>
        let req := (req.setHeader "Accept" cs.Kafka.Accept).setHeader "Content-Type"
          cs.Kafka.ContentType
        match env.Do req with
        | .error err => ⟨some err, [req]⟩
        | .ok res =>
          match validateStatusCode env res [StatusNoContent] with
          | some err => ⟨some err, [req]⟩
          | none => ⟨none, [req]⟩

/-- The method `(*Consumers).CommitOffsets`: commits a list of offsets for the consumer. -/
def Consumers.CommitOffsets (env : Env) (cs : Consumers) (consumerOffsets : ConsumerOffsets)
    (consumerName : String)
    (consumerGroup : Slice String) : Call (Option Error) :=
  match getConsumerGroup cs consumerGroup with
  | (_, some err) => ⟨some err, []⟩
  | (cg, none) =>
    match URLJoin env cs.Kafka.URL ["consumers", cg, "instances", consumerName, "offsets"] with
    | (_, some err) => ⟨some err, []⟩
    | (url, none) =>
      match NewRequest env "POST" url (.consumerOffsets consumerOffsets) with
      | .error err => ⟨some err, []⟩
      | .ok req =>
        let req := (req.setHeader "Accept" cs.Kafka.Accept).setHeader "Content-Type"
          cs.Kafka.ContentType
        match env.Do req with
        | .error err => ⟨some err, [req]⟩
        | .ok res =>
          match validateStatusCode env res [] with
          | some err => ⟨some err, [req]⟩
          | none => ⟨none, [req]⟩

/-- The method `(*Consumers).Offsets`: get the last committed offsets for the given partitions. -/
def Consumers.Offsets (env : Env) (cs : Consumers) (consumerOffsetsPartitions : ConsumerOffsetsPartitions)
    (consumerName : String)
    (consumerGroup : Slice String) : Call (Option ConsumerOffsets × Option Error) :=
  match getConsumerGroup cs consumerGroup with
  | (_, some err) => ⟨(none, some err), []⟩
  | (cg, none) =>
    match URLJoin env cs.Kafka.URL ["consumers", cg, "instances", consumerName, "offsets"] with
    | (_, some err) => ⟨(none, some err), []⟩
    | (url, none) =>
      match NewRequest env "GET" url (.consumerOffsetsPartitions consumerOffsetsPartitions) with
      | .error err => ⟨(none, some err), []⟩
      | .ok req =>
        let req := req.setHeader "Accept" cs.Kafka.Accept
        match env.Do req with
        | .error err => ⟨(none, some err), [req]⟩
        | .ok res =>
          match validateStatusCode env res [] with
          | some err => ⟨(none, some err), [req]⟩
          | none =>
            let (cresp, err) := Decode env env.unmarshalConsumerOffsets true res.Body {}
            if err ≠ none ∧ err ≠ some .EOF then ⟨(none, err), [req]⟩
            else ⟨(some cresp, none), [req]⟩

/-- The method `(*Consumers).Subscribe`: subscribe to the given list of topics or a topic pattern. -/
def Consumers.Subscribe (env : Env) (cs : Consumers) (topicSubscription : TopicSubscription)
    (useTopicPattern : Bool) (consumerName : String)
    (consumerGroup : Slice String) : Call (Option Error) :=
  match getConsumerGroup cs consumerGroup with
  | (_, some err) => ⟨some err, []⟩
  | (cg, none) =>
    match URLJoin env cs.Kafka.URL ["consumers", cg, "instances", consumerName, "subscription"] with
    | (_, some err) => ⟨some err, []⟩
    | (url, none) =>
      match NewRequest env "POST" url (if useTopicPattern then .topicPattern topicSubscription.TopicPattern
          else .topics topicSubscription.Topics) with
      | .error err => ⟨some err, []⟩
      | .ok req =>
        let req := (req.setHeader "Accept" cs.Kafka.Accept).setHeader "Content-Type"
          cs.Kafka.ContentType
        match env.Do req with
        | .error err => ⟨some err, [req]⟩
        | .ok res =>
          match validateStatusCode env res [StatusNoContent] with
          | some err => ⟨some err, [req]⟩
          | none => ⟨none, [req]⟩

/-- The method `(*Consumers).Subscriptions`: get the current subscribed list of topics. -/
def Consumers.Subscriptions (env : Env) (cs : Consumers) (consumerName : String)
    (consumerGroup : Slice String) : Call (Option TopicsSubscription × Option Error) :=
  match getConsumerGroup cs consumerGroup with
  | (_, some err) => ⟨(none, some err), []⟩
  | (cg, none) =>
    match URLJoin env cs.Kafka.URL ["consumers", cg, "instances", consumerName, "subscription"] with
    | (_, some err) => ⟨(none, some err), []⟩
    | (url, none) =>
      match NewRequest env "GET" url .none with
      | .error err => ⟨(none, some err), []⟩
      | .ok req =>
        let req := req.setHeader "Accept" cs.Kafka.Accept
        match env.Do req with
        | .error err => ⟨(none, some err), [req]⟩
        | .ok res =>
          match validateStatusCode env res [StatusOK] with
          | some err => ⟨(none, some err), [req]⟩
          | none =>
            let (tsub, err) := Decode env env.unmarshalTopicsSubscription true res.Body {}
            if err ≠ none ∧ err ≠ some .EOF then ⟨(none, err), [req]⟩
            else ⟨(some tsub, none), [req]⟩

/-- The method `(*Consumers).Unsubscribe`: unsubscribe from topics currently subscribed. -/
def Consumers.Unsubscribe (env : Env) (cs : Consumers) (consumerName : String)
    (consumerGroup : Slice String) : Call (Option Error) :=
  match getConsumerGroup cs consumerGroup with
  | (_, some err) => ⟨some err, []⟩
  | (cg, none) =>
    match URLJoin env cs.Kafka.URL ["consumers", cg, "instances", consumerName, "subscription"] with
    | (_, some err) => ⟨some err, []⟩
    | (url, none) =>
      match NewRequest env "DELETE" url .none with
      | .error err => ⟨some err, []⟩
      | .ok req =>
        let req := req.setHeader "Accept" cs.Kafka.Accept
        match env.Do req with
        | .error err => ⟨some err, [req]⟩
        | .ok res =>
          match validateStatusCode env res [StatusNoContent] with
          | some err => ⟨some err, [req]⟩
          | none => ⟨none, [req]⟩

/-- The method `(*Consumers).Assign`: manually assign a list of partitions to this consumer. -/
def Consumers.Assign (env : Env) (cs : Consumers) (consumerOffsetsPartitions : ConsumerOffsetsPartitions)
    (consumerName : String)
    (consumerGroup : Slice String) : Call (Option Error) :=
  match getConsumerGroup cs consumerGroup with
  | (_, some err) => ⟨some err, []⟩
  | (cg, none) =>
    match URLJoin env cs.Kafka.URL ["consumers", cg, "instances", consumerName, "assignments"] with
    | (_, some err) => ⟨some err, []⟩
    | (url, none) =>
      match NewRequest env "POST" url (.consumerOffsetsPartitions consumerOffsetsPartitions) with
      | .error err => ⟨some err, []⟩
      | .ok req =>
        let req := (req.setHeader "Accept" cs.Kafka.Accept).setHeader "Content-Type"
          cs.Kafka.ContentType
        match env.Do req with
        | .error err => ⟨some err, [req]⟩
        | .ok res =>
          match validateStatusCode env res [StatusNoContent] with
          | some err => ⟨some err, [req]⟩
          | none => ⟨none, [req]⟩

/-- The method `(*Consumers).Assignments`: get the list of partitions currently manually assigned to this consumer. -/
def Consumers.Assignments (env : Env) (cs : Consumers) (consumerName : String)
    (consumerGroup : Slice String) : Call (Option ConsumerOffsetsPartitions × Option Error) :=
  match getConsumerGroup cs consumerGroup with
  | (_, some err) => ⟨(none, some err), []⟩
  | (cg, none) =>
    match URLJoin env cs.Kafka.URL ["consumers", cg, "instances", consumerName, "assignments"] with
    | (_, some err) => ⟨(none, some err), []⟩
    | (url, none) =>
      match NewRequest env "GET" url .none with
      | .error err => ⟨(none, some err), []⟩
      | .ok req =>
        let req := req.setHeader "Accept" cs.Kafka.Accept
        match env.Do req with
        | .error err => ⟨(none, some err), [req]⟩
        | .ok res =>
          match validateStatusCode env res [] with
          | some err => ⟨(none, some err), [req]⟩
          | none =>
            let (cofp, err) := Decode env env.unmarshalConsumerOffsetsPartitions true res.Body {}
            if err ≠ none ∧ err ≠ some .EOF then ⟨(none, err), [req]⟩
            else ⟨(some cofp, none), [req]⟩

/-- The method `(*Consumers).Seek`: overrides the fetch offsets that the consumer will use for the next set of records
to fetch. -/
def Consumers.Seek (env : Env) (cs : Consumers) (consumerOffsets : ConsumerOffsets)
    (consumerName : String)
    (consumerGroup : Slice String) : Call (Option Error) :=
  match getConsumerGroup cs consumerGroup with
  | (_, some err) => ⟨some err, []⟩
  | (cg, none) =>
    match URLJoin env cs.Kafka.URL ["consumers", cg, "instances", consumerName, "positions"] with
    | (_, some err) => ⟨some err, []⟩
    | (url, none) =>
      match NewRequest env "POST" url (.consumerOffsets consumerOffsets) with
      | .error err => ⟨some err, []⟩
      | .ok req =>
        let req := (req.setHeader "Accept" cs.Kafka.Accept).setHeader "Content-Type"
          cs.Kafka.ContentType
        match env.Do req with
        | .error err => ⟨some err, [req]⟩
        | .ok res =>
          match validateStatusCode env res [StatusNoContent] with
          | some err => ⟨some err, [req]⟩
          | none => ⟨none, [req]⟩

/-- The method `(*Consumers).SeekToBeginning`: seek to the first offset for each of the given partitions. -/
def Consumers.SeekToBeginning (env : Env) (cs : Consumers) (consumerOffsetsPartitions : ConsumerOffsetsPartitions)
    (consumerName : String)
    (consumerGroup : Slice String) : Call (Option Error) :=
  match getConsumerGroup cs consumerGroup with
  | (_, some err) => ⟨some err, []⟩
  | (cg, none) =>
    match URLJoin env cs.Kafka.URL ["consumers", cg, "instances", consumerName, "positions", "beginning"] with
    | (_, some err) => ⟨some err, []⟩
    | (url, none) =>
      match NewRequest env "POST" url (.consumerOffsetsPartitions consumerOffsetsPartitions) with
      | .error err => ⟨some err, []⟩
      | .ok req =>
        let req := (req.setHeader "Accept" cs.Kafka.Accept).setHeader "Content-Type"
          cs.Kafka.ContentType
        match env.Do req with
        | .error err => ⟨some err, [req]⟩
        | .ok res =>
          match validateStatusCode env res [StatusNoContent] with
          | some err => ⟨some err, [req]⟩
          | none => ⟨none, [req]⟩

/-- The method `(*Consumers).SeekToEnd`: seek to the last offset for each of the given partitions. -/
def Consumers.SeekToEnd (env : Env) (cs : Consumers) (consumerOffsetsPartitions : ConsumerOffsetsPartitions)
    (consumerName : String)
    (consumerGroup : Slice String) : Call (Option Error) :=
  match getConsumerGroup cs consumerGroup with
  | (_, some err) => ⟨some err, []⟩
  | (cg, none) =>
    match URLJoin env cs.Kafka.URL ["consumers", cg, "instances", consumerName, "positions", "end"] with
    | (_, some err) => ⟨some err, []⟩
    | (url, none) =>
      match NewRequest env "POST" url (.consumerOffsetsPartitions consumerOffsetsPartitions) with
      | .error err => ⟨some err, []⟩
      | .ok req =>
        let req := (req.setHeader "Accept" cs.Kafka.Accept).setHeader "Content-Type"
          cs.Kafka.ContentType
        match env.Do req with
        | .error err => ⟨some err, [req]⟩
        | .ok res =>
          match validateStatusCode env res [StatusNoContent] with
          | some err => ⟨some err, [req]⟩
          | none => ⟨none, [req]⟩

/-- The method `(*Consumers).Records`: fetch message for the topics or partitions specified via
API v2. The decoder is handed `m`, a slice, not a pointer to it. -/
def Consumers.Records (env : Env) (cs : Consumers) (recordsArg : Argument) :
    Call (Slice Message × Option Error) :=
  let timeout := recordsArg.Timeout
  let maxBytes := recordsArg.MaxBytes
  let consumerName := recordsArg.ConsumerName
  let consumerGroup := [recordsArg.ConsumerGroup]
  if consumerName = "" then ⟨([], some (.new "Error: empty ConsumerName")), []⟩
  else
    match getConsumerGroup cs consumerGroup with
    | (_, some err) => ⟨([], some err), []⟩
    | (cg, none) =>
      match URLJoin env cs.Kafka.URL ["consumers", cg, "instances", consumerName, "records"] with
      | (_, some err) => ⟨([], some err), []⟩
      | (url, none) =>
        match NewRequest env "GET" url .none with
        | .error err => ⟨([], some err), []⟩
        | .ok req =>
          let req := req.setHeader "Accept" cs.Kafka.Accept
          let req :=
            if ¬ (timeout = 0 ∧ maxBytes = 0) then
              let q := if timeout ≠ 0 then req.addQuery "timeout" (toString timeout) else req
              if maxBytes ≠ 0 then q.addQuery "max_bytes" (toString maxBytes) else q
            else req
          match env.Do req with
          | .error err => ⟨([], some err), [req]⟩
          | .ok res =>
            match validateStatusCode env res [] with
            | some err => ⟨([], some err), [req]⟩
            | none =>
              let (m, err) := Decode env env.unmarshalMessages false res.Body []
              if err ≠ none ∧ err ≠ some .EOF then ⟨([], err), [req]⟩
              else ⟨(m, none), [req]⟩

/-- The method `(*Consumers).Messages`: consume messages from a topic via API v1. The decoder is
handed `m`, a slice, not a pointer to it. -/
def Consumers.Messages (env : Env) (cs : Consumers) (messagesArg : Argument) :
    Call (Slice Message × Option Error) :=
  let topicName := messagesArg.TopicName
  let maxBytes := messagesArg.MaxBytes
  let consumerName := messagesArg.ConsumerName
  let consumerGroup := [messagesArg.ConsumerGroup]
  if consumerName = "" then ⟨([], some (.new "Error: empty ConsumerName")), []⟩
  else
    match getConsumerGroup cs consumerGroup with
    | (_, some err) => ⟨([], some err), []⟩
    | (cg, none) =>
      match URLJoin env cs.Kafka.URL
          ["consumers", cg, "instances", consumerName, "topics", topicName] with
      | (_, some err) => ⟨([], some err), []⟩
      | (url, none) =>
        match NewRequest env "GET" url .none with
        | .error err => ⟨([], some err), []⟩
        | .ok req =>
          let req := req.setHeader "Accept" cs.Kafka.Accept
          let req := if maxBytes ≠ 0 then req.addQuery "max_bytes" (toString maxBytes) else req
          match env.Do req with
          | .error err => ⟨([], some err), [req]⟩
          | .ok res =>
            match validateStatusCode env res [] with
            | some err => ⟨([], some err), [req]⟩
            | none =>
              let (m, err) := Decode env env.unmarshalMessages false res.Body []
              if err ≠ none ∧ err ≠ some .EOF then ⟨([], err), [req]⟩
              else ⟨(m, none), [req]⟩

/-! ## Producing (`topic.go`, `partition.go`) -/

/-- The loop over `pr.Offsets` at the end of both `Produce` methods: starting from
`cause, hasError := …, false`, every offset with a non-zero error code sets `hasError` and wraps
`cause` with the offset's `Error`. -/
def produceErrors (cause : Error) (offsets : List ProducerOffsets) : Error × Bool :=
  offsets.foldl
    (fun acc offset => if offset.ErrorCode ≠ 0 then (Error.wrap acc.1 offset.Error, true) else acc)
    (cause, false)

/-- The method `(*Topics).Produce`: post message to the Topic with provided topicName. -/
def Topics.Produce (env : Env) (ts : KafkaRest.Topics) (topicName : String) (message : ProducerMessage) :
    Call (Option ProducerResponse × Option Error) :=
  if ts.Kafka.Format = Avro ∧ message.ValueSchema = "" ∧ message.ValueSchemaID = 0 then
    ⟨(none, some (.new "Must provide a value schema or value schema id for Avro format")), []⟩
  else
    match URLJoin env ts.Kafka.URL ["topics", topicName] with
    | (_, some err) => ⟨(none, some err), []⟩
    | (url, none) =>
      match NewRequest env "POST" url (.producerMessage message) with
      | .error err => ⟨(none, some err), []⟩
      | .ok req =>
        let req := (req.setHeader "Accept" ts.Kafka.Accept).setHeader "Content-Type"
          ts.Kafka.ContentType
        match env.Do req with
        | .error err => ⟨(none, some err), [req]⟩
        | .ok res =>
          match validateStatusCode env res [] with
          | some err => ⟨(none, some err), [req]⟩
          | none =>
            let (pr, err) := Decode env env.unmarshalProducerResponse true res.Body {}
            if err ≠ none ∧ err ≠ some .EOF then ⟨(none, err), [req]⟩
            else
              let (cause, hasError) :=
                produceErrors (.new ("Error: produce messages to topic " ++ topicName)) pr.Offsets
              if hasError then ⟨(some pr, some cause), [req]⟩
              else ⟨(some pr, none), [req]⟩

/-- The method `(*Partitions).Produce`: post message to the Partition with provided id. -/
def Partitions.Produce (env : Env) (ps : KafkaRest.Partitions) (id : Int) (message : ProducerMessage)
    (topicName : Slice String) : Call (Option ProducerResponse × Option Error) :=
  if ps.Kafka.Format = Avro ∧ message.ValueSchema = "" ∧ message.ValueSchemaID = 0 then
    ⟨(none, some (.new "Must provide a value schema or value schema id for Avro format")), []⟩
  else
    match getTopicName ps.Topic topicName with
    | (_, some err) => ⟨(none, some err), []⟩
    | (tn, none) =>
      match URLJoin env ps.Kafka.URL ["topics", tn, "partitions", toString id] with
      | (_, some err) => ⟨(none, some err), []⟩
      | (url, none) =>
        match NewRequest env "POST" url (.producerMessage message) with
        | .error err => ⟨(none, some err), []⟩
        | .ok req =>
          let req := (req.setHeader "Accept" ps.Kafka.Accept).setHeader "Content-Type"
            ps.Kafka.ContentType
          match env.Do req with
          | .error err => ⟨(none, some err), [req]⟩
          | .ok res =>
            match validateStatusCode env res [] with
            | some err => ⟨(none, some err), [req]⟩
            | none =>
              let (pr, err) := Decode env env.unmarshalProducerResponse true res.Body {}
              if err ≠ none then ⟨(none, err), [req]⟩
              else
                let (cause, hasError) :=
                  produceErrors
                    (.new ("Error: produce messages to partition " ++ toString id ++ "of topic" ++ tn))
                    pr.Offsets
                if hasError then ⟨(some pr, some cause), [req]⟩
                else ⟨(some pr, none), [req]⟩

/-! ## The polling loop (`(*Consumers).Poll`)

`Poll` makes the channel `timedout`, starts a goroutine with `go` and returns at once the
function that closes the channel. The goroutine makes a ticker and loops: `select` between
`timedout` and the ticker channel `t.C`, then one fetch, then the handler.

The loop is embedded as a transition system. Every step of the goroutine and everything that
happens around it is an event: the goroutine makes its ticker, the goroutine evaluates the
`select` it has arrived at, the fetch in flight returns, the ticker delivers a tick, the caller
invokes the cancellation handle. Events may come in any order, so the caller can invoke the
handle, and the ticker can deliver a tick, before the goroutine has reached a `select`. The
state says where the goroutine is and what the two channels hold, and keeps the trace of what
was done. A `select` that finds both channels ready may take either case (Go chooses at
random); the event of the evaluation carries the choice. -/

/-- Where the goroutine of `Poll` is:
* `starting`: started with `go`, it has not made its ticker yet;
* `selecting`: it has arrived at the `select` and has not evaluated it yet;
* `waiting`: it is blocked in the `select`, which found neither channel ready;
* `fetching`: it is inside `cs.Messages` or `cs.Records`;
* `returned`: it has returned. -/
inductive LoopState where
  | starting : LoopState
  | selecting : LoopState
  | waiting : LoopState
  | fetching : LoopState
  | returned : LoopState
  deriving DecidableEq, Repr

/-- What the trace of a polling loop records: the caller invoked the cancellation handle; the
loop started a fetch (a call of `cs.Messages` or `cs.Records`); the loop invoked the handler
`onMessage(err, messages)`. -/
inductive PollAction where
  | cancel : PollAction
  | fetch : PollAction
  | onMessage (err : Option Error) (messages : List Message) : PollAction
  deriving DecidableEq, Repr

/-- The events of a polling loop.
* `started`: the goroutine runs `time.NewTicker` and arrives at the `select`;
* `tick`: the ticker delivers a tick on `t.C`;
* `cancel`: the caller invokes the cancellation handle;
* `select pickTick`: the goroutine evaluates the `select` it has arrived at; `pickTick` is the
  case it takes if both are ready;
* `fetched env`: the fetch in flight returns what the proxy `env` answers, and the handler is
  invoked. -/
inductive PollEvent where
  | started : PollEvent
  | tick : PollEvent
  | cancel : PollEvent
  | select (pickTick : Bool) : PollEvent
  | fetched (env : Env) : PollEvent

/-- The state of one `Poll`:
* `period`: the argument of `time.NewTicker`, in nanoseconds;
* `loop`: where the goroutine is;
* `closed`: `timedout` has been closed;
* `pending`: a tick sits in `t.C` (a channel with room for one tick);
* `stopped`: `t.Stop()` has been called;
* `panicked`: the program has panicked (`NewTicker` with a period that is not positive, or
  `close` of a closed channel);
* `log`: the trace so far, oldest first. -/
structure PollState where
  period : Int
  loop : LoopState
  closed : Bool
  pending : Bool
  stopped : Bool
  panicked : Bool
  log : List PollAction
  deriving DecidableEq, Repr

/-- The two states of the state machine of the specification: `Running` until the caller
invokes the cancellation handle, `Cancelled` afterwards. -/
inductive PollPhase where
  | Running : PollPhase
  | Cancelled : PollPhase
  deriving DecidableEq, Repr

/-- The state of the specification's state machine that a state of the loop stands for: the
loop is cancelled once the channel `timedout` is closed. -/
def PollState.phase (s : PollState) : PollPhase :=
  if s.closed then .Cancelled else .Running

/-- Wrap-around of an `int64` product. -/
def wrapInt64 (x : Int) : Int := (x + 2 ^ 63) % 2 ^ 64 - 2 ^ 63

/-- The constant `time.Millisecond`, in nanoseconds. -/
def Millisecond : Int := 1000000

/-- The expression `time.Duration(interval) * time.Millisecond` given to `time.NewTicker`. -/
def tickerPeriod (interval : Int) : Int := wrapInt64 (interval * Millisecond)

/-- The method `(*Consumers).Poll`, at the moment it returns the cancellation handle: the
channel is open and the goroutine has been started; it has not run yet. -/
def Consumers.Poll (interval : Int) : PollState :=
  { period := tickerPeriod interval
    loop := .starting
    closed := false
    pending := false
    stopped := false
    panicked := false
    log := [] }

/-- The `select` of the loop, evaluated: with both channels ready either case may be taken;
the cancellation case stops the ticker and returns; the tick case goes on to the fetch; with
neither ready the goroutine blocks. -/
def PollState.select (s : PollState) (pickTick : Bool) : PollState :=
  if s.closed ∧ s.pending then
    if pickTick then { s with pending := false, loop := .fetching, log := s.log ++ [.fetch] }
    else { s with loop := .returned, stopped := true }
  else if s.closed then { s with loop := .returned, stopped := true }
  else if s.pending then { s with pending := false, loop := .fetching, log := s.log ++ [.fetch] }
  else { s with loop := .waiting }

/-- The fetch of one iteration of the loop: `cs.Messages` for API v1, `cs.Records` otherwise. -/
def Consumers.pollFetch (env : Env) (cs : Consumers) (messagesArg : Argument) :
    Slice Message × Option Error :=
  if cs.Kafka.Version = V1 then (cs.Messages env messagesArg).ret
  else (cs.Records env messagesArg).ret

/-- One event. Nothing happens any more once the program has panicked.
* `started`: `time.NewTicker` panics when the period is not positive; otherwise the goroutine
  is at its first `select`.
* `tick`: there is no tick before the ticker is made nor after it is stopped; a goroutine
  blocked in the `select` takes the tick and starts a fetch; otherwise the tick is kept in
  `t.C`.
* `cancel`: `close(timedout)`; it panics on a closed channel; a goroutine blocked in the
  `select` stops the ticker and returns.
* `select`: the goroutine, arrived at the `select`, evaluates it.
* `fetched`: the fetch in flight returns; on an error the handler gets `(err, nil)` and the
  goroutine returns; otherwise the handler gets `(nil, messages)` and the goroutine arrives at
  the `select` again. -/
def PollState.step (cs : Consumers) (messagesArg : Argument) (s : PollState) :
    PollEvent → PollState
  | .started =>
    if s.panicked ∨ s.loop ≠ .starting then s
    else if s.period ≤ 0 then { s with panicked := true, loop := .returned }
    else { s with loop := .selecting }
  | .tick =>
    if s.panicked ∨ s.stopped ∨ s.loop = .starting then s
    else if s.loop = .waiting then { s with loop := .fetching, log := s.log ++ [.fetch] }
    else { s with pending := true }
  | .cancel =>
    if s.panicked then s
    else if s.closed then { s with panicked := true, log := s.log ++ [.cancel] }
    else if s.loop = .waiting then
      { s with closed := true, loop := .returned, stopped := true, log := s.log ++ [.cancel] }
    else { s with closed := true, log := s.log ++ [.cancel] }
  | .select pickTick =>
    if s.panicked ∨ s.loop ≠ .selecting then s
    else s.select pickTick
  | .fetched env =>
    if s.panicked ∨ s.loop ≠ .fetching then s
    else
      match cs.pollFetch env messagesArg with
      | (_, some err) => { s with loop := .returned, log := s.log ++ [.onMessage (some err) []] }
      | (messages, none) =>
        { s with loop := .selecting, log := s.log ++ [.onMessage none messages] }

/-- The state after a sequence of events. -/
def PollState.run (cs : Consumers) (messagesArg : Argument) (s : PollState)
    (events : List PollEvent) : PollState :=
  events.foldl (PollState.step cs messagesArg) s

/-! ## The standard library: `net/url`

`URLJoin` hands the base URL to `url.Parse`, replaces the path of the result and renders it
with `(*url.URL).String`. The part of these two functions that a plain URL exercises is
embedded here, statement by statement, from the file `url.go` of the package `net/url` of the
Go standard library: `Parse`, `parse`, `getScheme`, `parseAuthority`, `parseHost`,
`validOptionalPort`, `unescape`, `setPath`, `shouldEscape`, `escape`, `EscapedPath`, `String`
and the `Error` method of `url.Error`.

A Go string is a sequence of bytes, a `String` a sequence of characters; the two agree on
ASCII. The embedding covers `url.Parse` on the texts made of printable ASCII bytes other than
`%`, `#`, `?`, `@`, `[` and `]` (no percent escape, fragment, query, user information or
bracketed address), and `String` on the URLs that have only a scheme, an opaque part, a host
and a path, all ASCII. Elsewhere it has no result (`none`) and says nothing about Go. The field
`OmitHost` of recent Go versions is not carried: a text such as `http:/path`, which sets it, has
no result. -/

/-- The two modes of `shouldEscape` that are exercised. -/
inductive encoding where
  | encodePath : encoding
  | encodeHost : encoding
  deriving DecidableEq, Repr

/-- The test `'a' <= c && c <= 'z' || 'A' <= c && c <= 'Z'`. -/
def isLetter (c : Char) : Bool := ('a' ≤ c && c ≤ 'z') || ('A' ≤ c && c ≤ 'Z')

/-- The test `'0' <= c && c <= '9'`. -/
def isDigit (c : Char) : Bool := '0' ≤ c && c ≤ '9'

/-- A byte of the texts on which `url.Parse` is embedded: printable ASCII other than `%`, `#`,
`?`, `@`, `[` and `]`. -/
def plainByte (c : Char) : Bool :=
  ' ' ≤ c && c ≤ '~' &&
    !(c = '%' || c = '#' || c = '?' || c = '@' || c = '[' || c = ']')

/-- The function `shouldEscape` of `net/url`, in the modes `encodePath` and `encodeHost`. The
bytes 39 and 34 are the single and the double quote. -/
def shouldEscape (c : Char) (mode : encoding) : Bool :=
  if isLetter c || isDigit c then false
  else if mode = .encodeHost &&
      (c = '!' || c = '$' || c = '&' || c = Char.ofNat 39 || c = '(' || c = ')' || c = '*' ||
        c = '+' || c = ',' || c = ';' || c = '=' || c = ':' || c = '[' || c = ']' ||
        c = '<' || c = '>' || c = Char.ofNat 34) then false
  else if c = '-' || c = '_' || c = '.' || c = '~' then false
  else if c = '$' || c = '&' || c = '+' || c = ',' || c = '/' || c = ':' || c = ';' ||
      c = '=' || c = '?' || c = '@' then
    match mode with
    | .encodePath => c = '?'
    | .encodeHost => true
  else true

/-- The constant `upperhex`. -/
def upperhex : List Char := "0123456789ABCDEF".data

/-- The function `escape` of `net/url` on ASCII bytes, in the modes `encodePath` and
`encodeHost`: a byte that `shouldEscape` names becomes `%` and its two hexadecimal digits. -/
def escape : List Char → encoding → List Char
  | [], _ => []
  | c :: cs, mode =>
    if shouldEscape c mode then
      '%' :: upperhex.getD (c.toNat / 16) '0' :: upperhex.getD (c.toNat % 16) '0' ::
        escape cs mode
    else c :: escape cs mode

/-- The function `strconv.Quote` on printable ASCII: the text between double quotes, with a
backslash (byte 92) before every double quote (byte 34) and backslash. -/
def quote (s : List Char) : List Char :=
  Char.ofNat 34 ::
    (s.foldr (fun c acc =>
      if c = Char.ofNat 34 ∨ c = Char.ofNat 92 then Char.ofNat 92 :: c :: acc else c :: acc)
      [Char.ofNat 34])

/-- The loop of `getScheme`, at index `seen.length` of `rawURL`: `seen` is the text before the
index, the third argument the text from the index on. -/
def getSchemeFrom (rawURL : List Char) :
    List Char → List Char → Except Error (List Char × List Char)
  | _, [] => .ok ([], rawURL)
  | seen, c :: rest =>
    if isLetter c then getSchemeFrom rawURL (seen ++ [c]) rest
    else if isDigit c || c = '+' || c = '-' || c = '.' then
      if seen = [] then .ok ([], rawURL) else getSchemeFrom rawURL (seen ++ [c]) rest
    else if c = ':' then
      if seen = [] then .error (.lib "missing protocol scheme") else .ok (seen, rest)
    else .ok ([], rawURL)

/-- The function `getScheme`: the scheme and the text after its colon, or no scheme and the
whole text. -/
def getScheme (rawURL : List Char) : Except Error (List Char × List Char) :=
  getSchemeFrom rawURL [] rawURL

/-- The text from the last colon on (`host[strings.LastIndex(host, ":"):]`), if there is a
colon. -/
def colonPort : List Char → Option (List Char)
  | [] => none
  | c :: rest =>
    match colonPort rest with
    | some port => some port
    | none => if c = ':' then some (c :: rest) else none

/-- The function `validOptionalPort`: empty, or a colon and decimal digits. -/
def validOptionalPort : List Char → Bool
  | [] => true
  | c :: digits => c = ':' && digits.all isDigit

/-- The function `unescape` in mode `encodeHost` on a text without `%`: the first ASCII byte
that a host name must escape is an `InvalidHostError`. -/
def unescapeHost (host : List Char) : Except Error (List Char) :=
  match host.find? (fun c => c.toNat < 128 && shouldEscape c .encodeHost) with
  | some c => .error (.lib (String.mk ("invalid character ".data ++ quote [c] ++
      " in host name".data)))
  | none => .ok host

/-- The function `parseHost` on a text that does not start with a bracket. -/
def parseHost (host : List Char) : Except Error (List Char) :=
  match colonPort host with
  | some port =>
    if validOptionalPort port then unescapeHost host
    else .error (.lib (String.mk ("invalid port ".data ++ quote port ++ " after host".data)))
  | none => unescapeHost host

/-- The method `setPath` on a text without `%`: the path is the text; `RawPath` keeps the text
when the default encoding of the path differs from it. -/
def URL.setPath (u : URL) (p : List Char) : URL :=
  { u with Path := String.mk p
           RawPath := if escape p .encodePath = p then "" else String.mk p }

/-- The function `parse(rawURL, false)` of `net/url` on a text of plain bytes: such a text has
no control byte and no query, and its authority has no user information and no bracketed
address. The last but one case is the text with a scheme and a rooted path but no authority,
for which recent Go versions set `OmitHost`. -/
def parse (rawURL : List Char) : Option (Except Error URL) :=
  if rawURL = ['*'] then some (.ok { Path := "*" })
  else
    match getScheme rawURL with
    | .error err => some (.error err)
    | .ok (scheme, rest) =>
      let scheme := scheme.map Char.toLower
      if rest.head? ≠ some '/' then
        if scheme ≠ [] then some (.ok { Scheme := String.mk scheme, Opaque := String.mk rest })
        else if ':' ∈ rest.takeWhile (fun c => c ≠ '/') then
          some (.error (.lib "first path segment in URL cannot contain colon"))
        else some (.ok (URL.setPath {} rest))
      else if (scheme ≠ [] ∨ ¬ "///".data.isPrefixOf rest) ∧ "//".data.isPrefixOf rest then
        let authority := (rest.drop 2).takeWhile (fun c => c ≠ '/')
        let rest := (rest.drop 2).dropWhile (fun c => c ≠ '/')
        match parseHost authority with
        | .error err => some (.error err)
        | .ok host =>
          some (.ok (URL.setPath { Scheme := String.mk scheme, Host := String.mk host } rest))
      else if scheme ≠ [] then none
      else some (.ok (URL.setPath {} rest))

/-- The function `url.Parse` on a text of plain bytes, which has no `#`: an error of `parse`
comes back wrapped in a `url.Error`, whose text is `parse`, the quoted URL (quoted since
Go 1.14), a colon and the text of the error. -/
def urlParse (rawURL : String) : Option (Except Error URL) :=
  if rawURL.data.all plainByte then
    match parse rawURL.data with
    | none => none
    | some (.ok u) => some (.ok u)
    | some (.error err) =>
      some (.error (.lib (String.mk ("parse ".data ++ quote rawURL.data ++ ": ".data) ++
        err.text)))
  else none

/-- The method `EscapedPath` of a URL without `RawPath`. -/
def URL.EscapedPath (u : URL) : List Char :=
  if u.Path = "*" then ['*'] else escape u.Path.data .encodePath

/-- The method `String` of a URL that has only a scheme, an opaque part, a host and a path, all
ASCII: the scheme and a colon; then either the opaque part, or two slashes and the escaped host
when there is a scheme or a host (the slashes only with a host or a path), a slash when there
is a host and the path is relative, `./` when nothing was written and the first segment of the
path has a colon, and the escaped path. -/
def urlString (u : URL) : Option String :=
  if u.User ≠ "" ∨ u.RawPath ≠ "" ∨ u.RawQuery ≠ "" ∨ u.Fragment ≠ "" ∨
      ¬ (u.Host.data.all (fun c => c.toNat < 128) ∧ u.Path.data.all (fun c => c.toNat < 128))
  then none
  else
    let buf : List Char := if u.Scheme ≠ "" then u.Scheme.data ++ [':'] else []
    if u.Opaque ≠ "" then some (String.mk (buf ++ u.Opaque.data))
    else
      let buf :=
        if u.Scheme ≠ "" ∨ u.Host ≠ "" then
          (if u.Host ≠ "" ∨ u.Path ≠ "" then buf ++ ['/', '/'] else buf) ++
            escape u.Host.data .encodeHost
        else buf
      let path := u.EscapedPath
      let buf := if path ≠ [] ∧ path.head? ≠ some '/' ∧ u.Host ≠ "" then buf ++ ['/'] else buf
      let buf :=
        if buf = [] ∧ ':' ∈ path.takeWhile (fun c => c ≠ '/') then buf ++ ['.', '/'] else buf
      some (String.mk (buf ++ path))

/-- An environment whose `url.Parse` and `String` are those of Go wherever the embedding of
`net/url` has a result. -/
def netURL (env : Env) : Prop :=
  (∀ rawURL r, urlParse rawURL = some r → env.urlParse rawURL = r) ∧
  (∀ u s, urlString u = some s → env.urlString u = s)

/-! ## A concrete environment for the worked examples -/

/-- A stand-in for `url.Parse` on URLs of the shape `http://host/path`. -/
def exampleParse (s : String) : Except Error URL :=
  if "http://".data.isPrefixOf s.data then
    let rest := s.data.drop 7
    .ok { Scheme := "http"
          Host := String.mk (rest.takeWhile (fun c => c ≠ '/'))
          Path := String.mk (rest.dropWhile (fun c => c ≠ '/')) }
  else .error (.lib "parse: first path segment in URL cannot contain colon")

/-- A stand-in for `(*url.URL).String` on such URLs: a path that does not start with a slash
gets one when there is a host. -/
def exampleString (u : URL) : String :=
  u.Scheme ++ "://" ++ u.Host ++
    (if u.Path ≠ "" ∧ u.Path.data.head? ≠ some '/' then "/" else "") ++ u.Path

/-- An environment whose proxy is `reply`, which takes every non-blank body for one JSON value
and which decodes nothing; the examples override the decoder they need. -/
def exampleEnv (reply : Request → Except Error Response) : Env where
  urlParse := exampleParse
  urlString := exampleString
  Do := reply
  readValue := fun body => .ok body
  unread := fun _ => ""
  unmarshalErrorMessage := fun _ _ => .error "json: cannot unmarshal"
  unmarshalBroker := fun _ _ => .error "json: cannot unmarshal"
  unmarshalTopicNames := fun _ _ => .error "json: cannot unmarshal"
  unmarshalTopic := fun _ _ => .error "json: cannot unmarshal"
  unmarshalPartitions := fun _ _ => .error "json: cannot unmarshal"
  unmarshalPartition := fun _ _ => .error "json: cannot unmarshal"
  unmarshalProducerResponse := fun _ _ => .error "json: cannot unmarshal"
  unmarshalConsumerInstance := fun _ _ => .error "json: cannot unmarshal"
  unmarshalConsumerOffsets := fun _ _ => .error "json: cannot unmarshal"
  unmarshalTopicsSubscription := fun _ _ => .error "json: cannot unmarshal"
  unmarshalConsumerOffsetsPartitions := fun _ _ => .error "json: cannot unmarshal"
  unmarshalMessages := fun _ _ => .error "json: cannot unmarshal"

/-- A produce response in which the second of two records failed. -/
def exampleProducerResponse : ProducerResponse :=
  { Offsets := [{ Partition := 0, Offset := 7 },
                { Partition := 1, Offset := -1, ErrorCode := 2, Error := "record too large" }] }

/-- The body of the proxy's answer that carries `exampleProducerResponse`. -/
def exampleProducerBody : String :=
  "\x7b\"offsets\":[\x7b\"partition\":0,\"offset\":7\x7d,\x7b\"partition\":1,\"offset\":-1," ++
    "\"error_code\":2,\"error\":\"record too large\"\x7d]\x7d"

/-- The proxy answers every request with status 200 and `exampleProducerBody`, which the
decoder turns into `exampleProducerResponse`. -/
def exampleProduceEnv : Env :=
  { exampleEnv (fun _ => .ok { StatusCode := 200, Status := "200 OK", Body := exampleProducerBody })
    with
    unmarshalProducerResponse := fun text _ =>
      if text = exampleProducerBody then .ok exampleProducerResponse
      else .error "json: cannot unmarshal" }

/-- The package's default configuration, pointed at nothing in particular. -/
def exampleTopics : Topics := { Kafka := Defaults, List := [] }

def examplePartitions : Partitions := { Kafka := Defaults, Topic := none, List := none }

/-- A Consumers collection with the default group "group-a" and one without a default. -/
def exampleConsumers : Consumers := Defaults.NewConsumers ["group-a"]

def exampleConsumersNoGroup : Consumers := Defaults.NewConsumers []

/-- The proxy answers every request with status 200 and an empty body. -/
def exampleEmptyEnv : Env :=
  exampleEnv (fun _ => .ok { StatusCode := 200, Status := "200 OK", Body := "" })

/-- The argument bundle of the polling examples. -/
def exampleArgument : Argument :=
  { TopicName := "events", ConsumerName := "c1", ConsumerGroup := "group-a" }

/-- The proxy answers every request with status 500 and an empty body. -/
def exampleFailingEnv : Env :=
  exampleEnv (fun _ => .ok { StatusCode := 500, Status := "500 Internal Server Error", Body := "" })

/-- One message, and the body of the proxy's answer that carries it in a JSON array. -/
def exampleMessage : Message :=
  { Topic := "events", Key := "\"a2V5\"", Value := "\"dmFsdWU=\"", Partition := 0, Offset := 41 }

def exampleMessagesBody : String :=
  "[\x7b\"topic\":\"events\",\"key\":\"a2V5\",\"value\":\"dmFsdWU=\",\"partition\":0," ++
    "\"offset\":41\x7d]"

/-- The proxy answers every request with status 200 and `reply`; the decoder would turn
`exampleMessagesBody` into the list of `exampleMessage` and "[]" into the empty list, if it
were handed a pointer. -/
def exampleMessagesEnv (reply : String) : Env :=
  { exampleEnv (fun _ => .ok { StatusCode := 200, Status := "200 OK", Body := reply })
    with
    unmarshalMessages := fun text _ =>
      if text = exampleMessagesBody then .ok [exampleMessage]
      else if text = "[]" then .ok []
      else .error "json: cannot unmarshal" }

/-- A Consumers collection for API v2, where `Poll` fetches with `Records`. -/
def exampleConsumersV2 : Consumers := (V2Version Defaults).1.NewConsumers ["group-a"]

/-- The proxy answers every request with status 204 and an empty body. -/
def exampleNoContentEnv : Env :=
  exampleEnv (fun _ => .ok { StatusCode := 204, Status := "204 No Content", Body := "" })

/-- A produce response in which every record was written; the second offset carries an error
text although its error code is 0. -/
def exampleProducerOkResponse : ProducerResponse :=
  { Offsets := [{ Partition := 0, Offset := 7 },
                { Partition := 1, Offset := 3, ErrorCode := 0, Error := "none" }] }

/-- The body of the proxy's answer that carries `exampleProducerOkResponse`. -/
def exampleProducerOkBody : String :=
  "\x7b\"offsets\":[\x7b\"partition\":0,\"offset\":7\x7d,\x7b\"partition\":1,\"offset\":3," ++
    "\"error_code\":0,\"error\":\"none\"\x7d]\x7d"

/-- The proxy answers every request with status 200 and `exampleProducerOkBody`, which the
decoder turns into `exampleProducerOkResponse`. -/
def exampleProduceOkEnv : Env :=
  { exampleEnv (fun _ => .ok { StatusCode := 200, Status := "200 OK", Body := exampleProducerOkBody })
    with
    unmarshalProducerResponse := fun text _ =>
      if text = exampleProducerOkBody then .ok exampleProducerOkResponse
      else .error "json: cannot unmarshal" }

/-- The proxy answers every request with status 404 and the plain text "Not Found". The body
is not JSON, so the decoder reports a syntax error; its first read takes up to 512 bytes of the
body, so of a body that short nothing is left to read afterwards. -/
def exampleNotFoundEnv : Env :=
  { exampleEnv (fun _ => .ok { StatusCode := 404, Status := "404 Not Found", Body := "Not Found" })
    with
    readValue := fun _ => .error "invalid character looking for beginning of value"
    unread := fun body => String.mk (body.data.drop 512) }

/-- The JSON error object of the proxy for an unknown consumer instance. -/
def exampleErrorBody : String :=
  "\x7b\"error_code\":40403,\"message\":\"Consumer instance not found.\"\x7d"

/-- The proxy answers every request with status 404 and `exampleErrorBody`, which the decoder
turns into the `ErrorMessage` it encodes. -/
def exampleApiErrorEnv : Env :=
  { exampleEnv (fun _ => .ok { StatusCode := 404, Status := "404 Not Found", Body := exampleErrorBody })
    with
    unread := fun body => String.mk (body.data.drop 512)
    unmarshalErrorMessage := fun text _ =>
      if text = exampleErrorBody then
        .ok { ErrorCode := 40403, Message := "Consumer instance not found." }
      else .error "json: cannot unmarshal" }

/-! ## The provided setters, as data -/

/-- The option functions the package provides, one constructor for each. -/
inductive Setter where
  | SetURL (url : String) : Setter
  | SetTimeout (timeout : Int) : Setter
  | SetAccept (accept : String) : Setter
  | SetContentType (contentType : String) : Setter
  | EarliestOffset : Setter
  | LatestOffset : Setter
  | SmallestOffset : Setter
  | LargestOffset : Setter
  | BinaryFormat : Setter
  | JSONFormat : Setter
  | AvroFormat : Setter
  | V1Version : Setter
  | V2Version : Setter
  deriving DecidableEq, Repr

/-- The option function of the package that a `Setter` names. -/
def Setter.option : Setter → KafkaOption
  | .SetURL url => KafkaRest.SetURL url
  | .SetTimeout timeout => KafkaRest.SetTimeout timeout
  | .SetAccept accept => KafkaRest.SetAccept accept
  | .SetContentType contentType => KafkaRest.SetContentType contentType
  | .EarliestOffset => KafkaRest.EarliestOffset
  | .LatestOffset => KafkaRest.LatestOffset
  | .SmallestOffset => KafkaRest.SmallestOffset
  | .LargestOffset => KafkaRest.LargestOffset
  | .BinaryFormat => KafkaRest.BinaryFormat
  | .JSONFormat => KafkaRest.JSONFormat
  | .AvroFormat => KafkaRest.AvroFormat
  | .V1Version => KafkaRest.V1Version
  | .V2Version => KafkaRest.V2Version

/-- The URL a setter sets, if it sets the URL. -/
def Setter.url : Setter → Option String
  | .SetURL url => some url
  | _ => none

/-- The timeout a setter sets, if it sets the timeout. -/
def Setter.timeout : Setter → Option Int
  | .SetTimeout timeout => some timeout
  | _ => none

/-- The Accept header a setter sets, if it sets one. -/
def Setter.accept : Setter → Option String
  | .SetAccept accept => some accept
  | _ => none

/-- The Content-Type header a setter sets, if it sets one. -/
def Setter.contentType : Setter → Option String
  | .SetContentType contentType => some contentType
  | _ => none

/-- The format a setter sets, if it is a format setter. -/
def Setter.format : Setter → Option Format
  | .BinaryFormat => some Binary
  | .JSONFormat => some JSON
  | .AvroFormat => some Avro
  | _ => none

/-- The offset a setter sets, if it is an offset setter. -/
def Setter.offset : Setter → Option Offset
  | .EarliestOffset => some Earliest
  | .LatestOffset => some Latest
  | .SmallestOffset => some Smallest
  | .LargestOffset => some Largest
  | _ => none

/-- The version a setter sets, if it is a version setter. -/
def Setter.version : Setter → Option Version
  | .V1Version => some V1
  | .V2Version => some V2
  | _ => none

/-- The value a field has after a sequence of setters, in the words of the specification: the
value of the last setter that sets the field, and the default when no setter does. -/
def lastSet {α : Type} (field : Setter → Option α) (dflt : α) (setters : List Setter) : α :=
  (setters.reverse.findSome? field).getD dflt

/-- The offset reset policy of `k` is valid for its API version: earliest or latest for v2,
smallest or largest for v1. -/
def validOffset (k : Kafka) : Prop :=
  (k.Version = V2 → k.Offset = Earliest ∨ k.Offset = Latest) ∧
  (k.Version = V1 → k.Offset = Smallest ∨ k.Offset = Largest)

instance (k : Kafka) : Decidable (validOffset k) := by
  unfold validOffset; infer_instance

/-- Two topics of the example cluster, and the bodies of the proxy's answers that carry their
names and each of them. -/
def exampleTopicEvents : Topic :=
  { Name := "events", Configs := "\x7b\x7d",
    Partitions := [{ Partition := 0, Leader := 1, Replicas := [{ Broker := 1, Leader := true, InSync := true }] }] }

def exampleTopicLogs : Topic := { Name := "logs", Configs := "\x7b\x7d", Partitions := [] }

def exampleNamesBody : String := "[\"events\",\"logs\"]"

def exampleTopicEventsBody : String :=
  "\x7b\"name\":\"events\",\"configs\":\x7b\x7d,\"partitions\":[\x7b\"partition\":0,\"leader\":1," ++
    "\"replicas\":[\x7b\"broker\":1,\"leader\":true,\"in_sync\":true\x7d]\x7d]\x7d"

def exampleTopicLogsBody : String :=
  "\x7b\"name\":\"logs\",\"configs\":\x7b\x7d,\"partitions\":[]\x7d"

/-- A proxy whose cluster has the topics "events" and "logs" and never changes: it answers
`GET /topics` with the two names and `GET /topics/name` with the topic, both with status 200,
and anything else with status 404. The decoder turns the three bodies into the values they
encode. -/
def exampleClusterEnv : Env :=
  { exampleEnv (fun req =>
      if req.Method = "GET" ∧ req.URL = "http://localhost:8082/topics" then
        .ok { StatusCode := 200, Status := "200 OK", Body := exampleNamesBody }
      else if req.Method = "GET" ∧ req.URL = "http://localhost:8082/topics/events" then
        .ok { StatusCode := 200, Status := "200 OK", Body := exampleTopicEventsBody }
      else if req.Method = "GET" ∧ req.URL = "http://localhost:8082/topics/logs" then
        .ok { StatusCode := 200, Status := "200 OK", Body := exampleTopicLogsBody }
      else .ok { StatusCode := 404, Status := "404 Not Found", Body := "" })
    with
    unmarshalTopicNames := fun text _ =>
      if text = exampleNamesBody then .ok ["events", "logs"]
      else .error "json: cannot unmarshal"
    unmarshalTopic := fun text _ =>
      if text = exampleTopicEventsBody then .ok exampleTopicEvents
      else if text = exampleTopicLogsBody then .ok exampleTopicLogs
      else .error "json: cannot unmarshal" }

/-- A path segment that `path.Clean` leaves alone: not empty, without a slash, neither "." nor
"..". -/
def cleanSegment (s : String) : Prop :=
  s ≠ "" ∧ '/' ∉ s.data ∧ s ≠ "." ∧ s ≠ ".."

instance (s : String) : Decidable (cleanSegment s) := by
  unfold cleanSegment; infer_instance

/-- An environment with the embedded `net/url` and no proxy. -/
def netURLEnv : Env :=
  { exampleEnv (fun _ => .error (.lib "no proxy")) with
    urlParse := fun rawURL =>
      match urlParse rawURL with
      | some r => r
      | none => .error (.lib "net/url: not embedded")
    urlString := fun u =>
      match urlString u with
      | some s => s
      | none => "" }

/-- A scheme: a letter, then letters, digits, `+`, `-` and `.`. -/
def schemeText (s : String) : Prop :=
  match s.data with
  | [] => False
  | c :: cs => isLetter c = true ∧
    ∀ d ∈ cs, isLetter d = true ∨ isDigit d = true ∨ d = '+' ∨ d = '-' ∨ d = '.'

instance (s : String) : Decidable (schemeText s) := by
  unfold schemeText; split <;> infer_instance

/-- A host name that `url.Parse` takes as it is: not empty, of plain bytes that a host name
need not escape, without a colon. -/
def hostText (s : String) : Prop :=
  s ≠ "" ∧ ∀ c ∈ s.data, plainByte c = true ∧ shouldEscape c .encodeHost = false ∧ c ≠ ':'

instance (s : String) : Decidable (hostText s) := by
  unfold hostText; infer_instance

/-- A port, with its colon, or nothing: `:` and decimal digits. -/
def portText (s : String) : Prop :=
  match s.data with
  | [] => True
  | c :: digits => c = ':' ∧ ∀ d ∈ digits, isDigit d = true

instance (s : String) : Decidable (portText s) := by
  unfold portText; split <;> infer_instance

/-- A path segment that needs no escaping: ASCII bytes that `shouldEscape` does not name in a
path. -/
def plainSegment (s : String) : Prop :=
  ∀ c ∈ s.data, c.toNat < 128 ∧ shouldEscape c .encodePath = false

instance (s : String) : Decidable (plainSegment s) := by
  unfold plainSegment; infer_instance

/-- The text in lower case (`strings.ToLower` on ASCII). -/
def toLower (s : String) : String := String.mk (s.data.map Char.toLower)

/-! ## Theorems -/

theorem contains_wrap_message (cause : Error) (message : String) :
    contains (Error.wrap cause message).text message := by
  unfold contains
  simp only [Error.text, String.data_append, List.append_assoc]
  exact List.infix_append' [] message.data _

theorem contains_wrap_cause (cause : Error) (message part : String)
    (h : contains cause.text part) : contains (Error.wrap cause message).text part := by
  unfold contains at *
  simp only [Error.text, String.data_append]
  exact List.IsInfix.trans h (List.suffix_append _ _).isInfix

/-- The loop of `Produce` only ever wraps: whatever the starting cause contains stays, the flag
never goes back to false, and every offset with a non-zero code leaves its `Error` in the text
and raises the flag. -/
theorem produceErrors_foldl (offsets : List ProducerOffsets) (acc : Error × Bool) :
    let r := offsets.foldl
      (fun acc offset =>
        if offset.ErrorCode ≠ 0 then (Error.wrap acc.1 offset.Error, true) else acc) acc
    (∀ part, contains acc.1.text part → contains r.1.text part) ∧
    (acc.2 = true → r.2 = true) ∧
    (∀ o ∈ offsets, o.ErrorCode ≠ 0 → contains r.1.text o.Error ∧ r.2 = true) ∧
    (r.2 = true → acc.2 = true ∨ ∃ o ∈ offsets, o.ErrorCode ≠ 0) := by
  induction offsets generalizing acc with
  | nil => simp
  | cons x xs ih =>
    simp only [List.foldl_cons]
    by_cases hx : x.ErrorCode = 0
    · have := ih acc
      simp only [hx, ne_eq, not_true_eq_false, if_false] at this ⊢
      obtain ⟨h1, h2, h3, h4⟩ := this
      refine ⟨h1, h2, ?_, ?_⟩
      · intro o ho hne
        rcases List.mem_cons.mp ho with rfl | ho
        · exact absurd hx hne
        · exact h3 o ho hne
      · intro hr
        rcases h4 hr with h | ⟨o, ho, hne⟩
        · exact Or.inl h
        · exact Or.inr ⟨o, List.mem_cons_of_mem _ ho, hne⟩
    · have := ih (Error.wrap acc.1 x.Error, true)
      simp only [hx, ne_eq, not_false_eq_true, if_true] at this ⊢
      obtain ⟨h1, h2, h3, h4⟩ := this
      refine ⟨?_, ?_, ?_, ?_⟩
      · intro part hp
        exact h1 part (contains_wrap_cause _ _ _ hp)
      · intro _
        exact h2 trivial
      · intro o ho hne
        rcases List.mem_cons.mp ho with rfl | ho
        · exact ⟨h1 _ (contains_wrap_message _ _), h2 trivial⟩
        · exact h3 o ho hne
      · intro _
        exact Or.inr ⟨x, List.mem_cons_self _ _, hx⟩

theorem produceErrors_of_failed (cause : Error) (offsets : List ProducerOffsets)
    (o : ProducerOffsets) (hmem : o ∈ offsets) (hne : o.ErrorCode ≠ 0) :
    (produceErrors cause offsets).2 = true ∧
      contains (produceErrors cause offsets).1.text o.Error := by
  have h := (produceErrors_foldl offsets (cause, false)).2.2.1 o hmem hne
  exact ⟨h.2, h.1⟩

theorem validateStatusCode_eq_none (env : Env) (res : Response) (codes : List Int) :
    validateStatusCode env res codes = none ↔
      res.StatusCode = (match codes with | [] => StatusOK | c :: _ => c) := by
  unfold validateStatusCode
  cases codes <;> simp only []
  · by_cases h : res.StatusCode = StatusOK
    · simp [h]
    · simp only [ne_eq, h, not_false_eq_true, if_true, iff_false]
      split <;> simp
  · rename_i c cs
    by_cases h : res.StatusCode = c
    · simp [h]
    · simp only [ne_eq, h, not_false_eq_true, if_true, iff_false]
      split <;> simp

theorem Topics_Produce_response (env : Env) (ts : Topics) (topicName : String)
    (message : ProducerMessage) (req : Request) (res : Response) (pr : ProducerResponse)
    (hsent : (Topics.Produce env ts topicName message).sent = [req])
    (hdo : env.Do req = .ok res) (hs : res.StatusCode = StatusOK)
    (hdec : Decode env env.unmarshalProducerResponse true res.Body {} = (pr, none)) :
    (Topics.Produce env ts topicName message).ret =
      (some pr,
        if (produceErrors (.new ("Error: produce messages to topic " ++ topicName)) pr.Offsets).2
        then some (produceErrors (.new ("Error: produce messages to topic " ++ topicName))
          pr.Offsets).1
        else none) := by
  have hv : validateStatusCode env res [] = none := (validateStatusCode_eq_none env res []).2 hs
  simp only [Topics.Produce] at hsent ⊢
  repeat' (split at hsent)
  all_goals simp_all
  all_goals rw [if_neg (by tauto)]

theorem Partitions_Produce_response (env : Env) (ps : Partitions) (id : Int)
    (message : ProducerMessage) (topicName : List String) (req : Request) (res : Response)
    (pr : ProducerResponse)
    (hsent : (Partitions.Produce env ps id message topicName).sent = [req])
    (hdo : env.Do req = .ok res) (hs : res.StatusCode = StatusOK)
    (hdec : Decode env env.unmarshalProducerResponse true res.Body {} = (pr, none)) :
    ∃ cause, (Partitions.Produce env ps id message topicName).ret =
      (some pr,
        if (produceErrors cause pr.Offsets).2 then some (produceErrors cause pr.Offsets).1
        else none) := by
  have hv : validateStatusCode env res [] = none := (validateStatusCode_eq_none env res []).2 hs
  refine ⟨.new ("Error: produce messages to partition " ++ toString id ++ "of topic" ++
    (getTopicName ps.Topic topicName).1), ?_⟩
  simp only [Partitions.Produce] at hsent ⊢
  repeat' (split at hsent)
  all_goals simp_all
  all_goals rw [if_neg (by tauto)]

/-- C1. `Topics.Produce` and `Partitions.Produce`: when the proxy answers the request with
status 200 and a body that decodes to `pr`, then for every offset of `pr` with a non-zero error
code the call returns a non-nil error whose text contains that offset's `Error`, together with
the whole of `pr`. -/
theorem Produce_reports_failed_offset (env : Env) (res : Response) (pr : ProducerResponse)
    (o : ProducerOffsets) (hs : res.StatusCode = StatusOK)
    (hdec : Decode env env.unmarshalProducerResponse true res.Body {} = (pr, none))
    (hmem : o ∈ pr.Offsets) (hne : o.ErrorCode ≠ 0) :
    (∀ (ts : Topics) (topicName : String) (message : ProducerMessage) (req : Request),
      (Topics.Produce env ts topicName message).sent = [req] → env.Do req = .ok res →
      ∃ e, (Topics.Produce env ts topicName message).ret = (some pr, some e) ∧
        contains e.text o.Error) ∧
    (∀ (ps : Partitions) (id : Int) (message : ProducerMessage) (topicName : List String)
      (req : Request),
      (Partitions.Produce env ps id message topicName).sent = [req] → env.Do req = .ok res →
      ∃ e, (Partitions.Produce env ps id message topicName).ret = (some pr, some e) ∧
        contains e.text o.Error) := by
  constructor
  · intro ts topicName message req hsent hdo
    have h := Topics_Produce_response env ts topicName message req res pr hsent hdo hs hdec
    have hf := produceErrors_of_failed
      (.new ("Error: produce messages to topic " ++ topicName)) pr.Offsets o hmem hne
    rw [if_pos hf.1] at h
    exact ⟨_, h, hf.2⟩
  · intro ps id message topicName req hsent hdo
    obtain ⟨cause, h⟩ :=
      Partitions_Produce_response env ps id message topicName req res pr hsent hdo hs hdec
    have hf := produceErrors_of_failed cause pr.Offsets o hmem hne
    rw [if_pos hf.1] at h
    exact ⟨_, h, hf.2⟩

/-- Witness of C1: the second record of `exampleProducerResponse` failed with "record too
large"; both `Produce` methods return the whole response and an error that says so. -/
theorem Produce_reports_failed_offset_witness :
    (∃ e, (Topics.Produce exampleProduceEnv exampleTopics "events" {}).ret =
        (some exampleProducerResponse, some e) ∧ contains e.text "record too large") ∧
    (∃ e, (Partitions.Produce exampleProduceEnv examplePartitions 3 {} ["events"]).ret =
        (some exampleProducerResponse, some e) ∧ contains e.text "record too large") :=
  have h := Produce_reports_failed_offset exampleProduceEnv
    { StatusCode := 200, Status := "200 OK", Body := exampleProducerBody }
    exampleProducerResponse
    { Partition := 1, Offset := -1, ErrorCode := 2, Error := "record too large" }
    (by decide) (by decide) (by decide) (by decide)
  ⟨h.1 exampleTopics "events" {} _ (by rfl) (by rfl),
   h.2 examplePartitions 3 {} ["events"] _ (by rfl) (by rfl)⟩

/-- C2. `Topics.Produce` and `Partitions.Produce`: with the Avro format and a message that has
neither a value schema nor a value schema id, the call returns a nil response and the
schema-required error and hands no request to the HTTP client, whatever the topic name, the
partition id and the records. -/
theorem Produce_avro_requires_schema (env : Env) (message : ProducerMessage)
    (hschema : message.ValueSchema = "") (hid : message.ValueSchemaID = 0) :
    (∀ (ts : Topics) (topicName : String), ts.Kafka.Format = Avro →
      Topics.Produce env ts topicName message =
        ⟨(none, some (.new "Must provide a value schema or value schema id for Avro format")),
          []⟩) ∧
    (∀ (ps : Partitions) (id : Int) (topicName : List String), ps.Kafka.Format = Avro →
      Partitions.Produce env ps id message topicName =
        ⟨(none, some (.new "Must provide a value schema or value schema id for Avro format")),
          []⟩) := by
  constructor
  · intro ts topicName hfmt
    simp [Topics.Produce, hfmt, hschema, hid]
  · intro ps id topicName hfmt
    simp [Partitions.Produce, hfmt, hschema, hid]

/-- Witness of C2: an Avro client producing records without any schema. -/
theorem Produce_avro_requires_schema_witness :
    Topics.Produce exampleProduceEnv { exampleTopics with Kafka := (AvroFormat Defaults).1 }
        "events" { Records := [{ Value := "\"Z28=\"" }] } =
      ⟨(none, some (.new "Must provide a value schema or value schema id for Avro format")), []⟩ ∧
    Partitions.Produce exampleProduceEnv { examplePartitions with Kafka := (AvroFormat Defaults).1 }
        0 { Records := [{ Value := "\"Z28=\"" }] } ["events"] =
      ⟨(none, some (.new "Must provide a value schema or value schema id for Avro format")), []⟩ :=
  have h := Produce_avro_requires_schema exampleProduceEnv
    { Records := [{ Value := "\"Z28=\"" }] } (by decide) (by decide)
  ⟨h.1 _ "events" (by decide), h.2 _ 0 ["events"] (by decide)⟩

/-- C3. Consumer group resolution: a passed group wins whatever the collection's default is;
with none passed the collection's non-empty default is used; with none passed and no default the
result is the error "Error: empty consumerGroup", and every method with a variadic
`consumerGroup` then returns that error without handing a request to the HTTP client. -/
theorem getConsumerGroup_precedence (cs : Consumers) :
    (∀ (g : String) (rest : List String), getConsumerGroup cs (g :: rest) = (g, none)) ∧
    (cs.ConsumerGroup ≠ "" → getConsumerGroup cs [] = (cs.ConsumerGroup, none)) ∧
    (cs.ConsumerGroup = "" →
      getConsumerGroup cs [] = ("", some (.new "Error: empty consumerGroup")) ∧
      ∀ (env : Env) (name : String) (cr : ConsumerRequest) (co : ConsumerOffsets)
        (cop : ConsumerOffsetsPartitions) (sub : TopicSubscription) (pat : Bool),
        cs.NewConsumer env cr [] = ⟨(none, some (.new "Error: empty consumerGroup")), []⟩ ∧
        cs.DeleteConsumer env name [] = ⟨some (.new "Error: empty consumerGroup"), []⟩ ∧
        cs.CommitOffsets env co name [] = ⟨some (.new "Error: empty consumerGroup"), []⟩ ∧
        cs.Offsets env cop name [] = ⟨(none, some (.new "Error: empty consumerGroup")), []⟩ ∧
        cs.Subscribe env sub pat name [] = ⟨some (.new "Error: empty consumerGroup"), []⟩ ∧
        cs.Subscriptions env name [] = ⟨(none, some (.new "Error: empty consumerGroup")), []⟩ ∧
        cs.Unsubscribe env name [] = ⟨some (.new "Error: empty consumerGroup"), []⟩ ∧
        cs.Assign env cop name [] = ⟨some (.new "Error: empty consumerGroup"), []⟩ ∧
        cs.Assignments env name [] = ⟨(none, some (.new "Error: empty consumerGroup")), []⟩ ∧
        cs.Seek env co name [] = ⟨some (.new "Error: empty consumerGroup"), []⟩ ∧
        cs.SeekToBeginning env cop name [] = ⟨some (.new "Error: empty consumerGroup"), []⟩ ∧
        cs.SeekToEnd env cop name [] = ⟨some (.new "Error: empty consumerGroup"), []⟩) := by
  refine ⟨fun g rest => rfl, fun h => ?_, fun h => ⟨?_, ?_⟩⟩
  · simp [getConsumerGroup, h]
  · simp [getConsumerGroup, h]
  · intro env name cr co cop sub pat
    have hg : getConsumerGroup cs [] = ("", some (.new "Error: empty consumerGroup")) := by
      simp [getConsumerGroup, h]
    simp only [Consumers.NewConsumer, Consumers.DeleteConsumer, Consumers.CommitOffsets,
      Consumers.Offsets, Consumers.Subscribe, Consumers.Subscriptions, Consumers.Unsubscribe,
      Consumers.Assign, Consumers.Assignments, Consumers.Seek, Consumers.SeekToBeginning,
      Consumers.SeekToEnd, hg, and_self]

/-- Witness of C3: a collection made with the default "group-a" and one made without. -/
theorem getConsumerGroup_precedence_witness :
    getConsumerGroup exampleConsumers ["group-b"] = ("group-b", none) ∧
    getConsumerGroup exampleConsumers [] = ("group-a", none) ∧
    getConsumerGroup exampleConsumersNoGroup [] = ("", some (.new "Error: empty consumerGroup")) ∧
    exampleConsumersNoGroup.DeleteConsumer exampleEmptyEnv "c1" [] =
      ⟨some (.new "Error: empty consumerGroup"), []⟩ :=
  ⟨(getConsumerGroup_precedence exampleConsumers).1 "group-b" [],
   (getConsumerGroup_precedence exampleConsumers).2.1 (by decide),
   ((getConsumerGroup_precedence exampleConsumersNoGroup).2.2 (by decide)).1,
   (((getConsumerGroup_precedence exampleConsumersNoGroup).2.2 (by decide)).2 exampleEmptyEnv "c1"
      {} {} {} {} false).2.1⟩

/-- `Records` and `Messages` never look at the default group of the collection: they hand
`getConsumerGroup` a one-element list, so its first case always applies. -/
theorem Records_Messages_group (cs : Consumers) (group : String) :
    getConsumerGroup cs [group] = (group, none) := rfl

/-- C4, the code at the failing inputs. With the default group "group-a" and an `Argument`
whose `ConsumerGroup` is empty, `Records` and `Messages` send their request to a path built with
the empty group (the double slash is cleaned away), not with "group-a"; with no default group
either, they still send a request instead of failing with the missing-group error. The result of
both methods does not depend on the default group at all. -/
theorem Records_Messages_ignore_default_group :
    (∀ (env : Env) (cs : Consumers) (arg : Argument) (g : String),
      Consumers.Records env { cs with ConsumerGroup := g } arg = Consumers.Records env cs arg ∧
      Consumers.Messages env { cs with ConsumerGroup := g } arg = Consumers.Messages env cs arg) ∧
    (exampleConsumers.Records exampleEmptyEnv { ConsumerName := "c1" }).sent =
      [{ Method := "GET", URL := "http://localhost:8082/consumers/instances/c1/records",
         Header := [("Accept", "application/vnd.kafka+json, application/json")] }] ∧
    (exampleConsumers.Messages exampleEmptyEnv { ConsumerName := "c1", TopicName := "t" }).sent =
      [{ Method := "GET", URL := "http://localhost:8082/consumers/instances/c1/topics/t",
         Header := [("Accept", "application/vnd.kafka+json, application/json")] }] ∧
    exampleConsumersNoGroup.Records exampleEmptyEnv { ConsumerName := "c1" } =
      ⟨([], none),
       [{ Method := "GET", URL := "http://localhost:8082/consumers/instances/c1/records",
          Header := [("Accept", "application/vnd.kafka+json, application/json")] }]⟩ ∧
    exampleConsumersNoGroup.Messages exampleEmptyEnv { ConsumerName := "c1", TopicName := "t" } =
      ⟨([], none),
       [{ Method := "GET", URL := "http://localhost:8082/consumers/instances/c1/topics/t",
          Header := [("Accept", "application/vnd.kafka+json, application/json")] }]⟩ := by
  refine ⟨fun env cs arg g => ⟨rfl, rfl⟩, ?_, ?_, ?_, ?_⟩
  · decide
  · decide
  · rfl
  · rfl

/-! ### The polling loop -/

theorem PollState.run_append (cs : Consumers) (arg : Argument) (s : PollState)
    (xs ys : List PollEvent) :
    s.run cs arg (xs ++ ys) = (s.run cs arg xs).run cs arg ys := by
  simp [PollState.run, List.foldl_append]

theorem PollState.run_cons (cs : Consumers) (arg : Argument) (s : PollState)
    (x : PollEvent) (xs : List PollEvent) :
    s.run cs arg (x :: xs) = (s.step cs arg x).run cs arg xs := rfl

/-- Once the goroutine has returned or the program has panicked, an event at most adds an
invocation of the cancellation handle to the trace, and the goroutine stays where it is. -/
theorem PollState.step_returned (cs : Consumers) (arg : Argument) (s : PollState)
    (e : PollEvent) (hs : s.panicked = true ∨ s.loop = .returned) :
    ((s.step cs arg e).panicked = true ∨ (s.step cs arg e).loop = .returned) ∧
    ((s.step cs arg e).loop = s.loop) ∧
    ((s.step cs arg e).log = s.log ∨ (s.step cs arg e).log = s.log ++ [PollAction.cancel]) := by
  cases e with
  | started =>
    simp only [PollState.step]
    split_ifs <;> simp_all
  | tick =>
    simp only [PollState.step]
    split_ifs <;> simp_all
  | cancel =>
    simp only [PollState.step]
    split_ifs <;> simp_all
  | select pick =>
    simp only [PollState.step]
    split_ifs <;> simp_all
  | fetched env =>
    simp only [PollState.step]
    split_ifs <;> simp_all

/-- Once the goroutine has returned or the program has panicked, events only add invocations of
the cancellation handle to the trace, and the goroutine stays where it is. -/
theorem PollState.run_returned (cs : Consumers) (arg : Argument) (events : List PollEvent) :
    ∀ s : PollState, (s.panicked = true ∨ s.loop = .returned) →
      (s.run cs arg events).loop = s.loop ∧
      ∃ extra, (s.run cs arg events).log = s.log ++ extra ∧ ∀ a ∈ extra, a = PollAction.cancel := by
  induction events with
  | nil => intro s _; exact ⟨rfl, [], by simp [PollState.run], by simp⟩
  | cons x xs ih =>
    intro s hs
    rw [PollState.run_cons]
    obtain ⟨hl, hloop, hlog⟩ := PollState.step_returned cs arg s x hs
    obtain ⟨hloop2, extra, hx, hall⟩ := ih _ hl
    refine ⟨hloop2.trans hloop, ?_⟩
    rcases hlog with h | h
    · exact ⟨extra, by rw [hx, h], hall⟩
    · refine ⟨PollAction.cancel :: extra, by rw [hx, h]; simp, ?_⟩
      intro a ha
      rcases List.mem_cons.mp ha with rfl | ha
      · rfl
      · exact hall a ha

/-- C5. In every execution of the polling loop, when the fetch in flight returns an error `e`
the handler is invoked once with `(e, nil)`, and whatever happens afterwards adds no fetch and no
handler invocation to the trace (only invocations of the cancellation handle). -/
theorem Poll_fetch_error_is_final (cs : Consumers) (arg : Argument) (interval : Int)
    (before after : List PollEvent) (env : Env) (msgs : List Message)
    (e : Error)
    (hfetching : ((Consumers.Poll interval).run cs arg before).loop = .fetching)
    (hrunning : ((Consumers.Poll interval).run cs arg before).panicked = false)
    (herr : cs.pollFetch env arg = (msgs, some e)) :
    ∃ extra,
      ((Consumers.Poll interval).run cs arg (before ++ PollEvent.fetched env :: after)).log =
        ((Consumers.Poll interval).run cs arg before).log ++
          PollAction.onMessage (some e) [] :: extra ∧
      ∀ a ∈ extra, a = PollAction.cancel := by
  rw [PollState.run_append, PollState.run_cons]
  generalize (Consumers.Poll interval).run cs arg before = s at hfetching hrunning
  have hstep : s.step cs arg (PollEvent.fetched env) =
      { s with loop := .returned, log := s.log ++ [PollAction.onMessage (some e) []] } := by
    simp only [PollState.step, hfetching, hrunning, herr]
    simp
  rw [hstep]
  obtain ⟨_, extra, hx, hall⟩ := PollState.run_returned cs arg after
    { s with loop := .returned, log := s.log ++ [PollAction.onMessage (some e) []] } (Or.inr rfl)
  exact ⟨extra, by rw [hx]; simp, hall⟩

/-- Witness of C5: the first fetch of a loop is answered with status 500; a later tick, a
cancellation, a stray completion and a stray evaluation of the `select` add nothing but the
cancellation to the trace. -/
theorem Poll_fetch_error_is_final_witness :
    ∃ extra,
      ((Consumers.Poll 3000).run exampleConsumers exampleArgument
        ([PollEvent.started, PollEvent.select true, PollEvent.tick] ++
          PollEvent.fetched exampleFailingEnv ::
          [PollEvent.tick, PollEvent.cancel, PollEvent.fetched exampleEmptyEnv,
            PollEvent.select true])).log =
        ((Consumers.Poll 3000).run exampleConsumers exampleArgument
          [PollEvent.started, PollEvent.select true, PollEvent.tick]).log ++
          PollAction.onMessage
            (some (.wrap (.new "API Error")
              "StatusCode 500 500 Internal Server Error ErrorCode 0 ")) [] :: extra ∧
      ∀ a ∈ extra, a = PollAction.cancel :=
  Poll_fetch_error_is_final exampleConsumers exampleArgument 3000
    [PollEvent.started, PollEvent.select true, PollEvent.tick]
    [PollEvent.tick, PollEvent.cancel, PollEvent.fetched exampleEmptyEnv, PollEvent.select true]
    exampleFailingEnv [] _ (by decide) (by decide) (by rfl)

/-- Counterexample to C6. The caller invokes the handle as soon as `Poll` has returned it. The
goroutine then makes its ticker, and the first tick is delivered before the goroutine evaluates
its first `select`: both channels are ready, the `select` takes the tick, a fetch is made and
the handler is invoked. -/
theorem Poll_cancel_before_first_tick_fetches :
    ((Consumers.Poll 3000).run exampleConsumers exampleArgument
      [PollEvent.cancel, PollEvent.started, PollEvent.tick, PollEvent.select true,
        PollEvent.fetched exampleEmptyEnv]).log =
      [PollAction.cancel, PollAction.fetch, PollAction.onMessage none []] ∧
    ((Consumers.Poll 3000).run exampleConsumers exampleArgument
      [PollEvent.started, PollEvent.cancel, PollEvent.tick, PollEvent.select true,
        PollEvent.fetched exampleEmptyEnv]).log =
      [PollAction.cancel, PollAction.fetch, PollAction.onMessage none []] := by
  constructor <;> decide

/-- As long as no tick is delivered: no tick is pending, no fetch is in flight, the trace holds
nothing but invocations of the handle, and a closed channel means the goroutine is not blocked
in its `select`. Moreover the goroutine stays past the making of the ticker once it is, and
stays blocked or returned once it has evaluated a `select`. -/
theorem PollState.step_idle (cs : Consumers) (arg : Argument) (s : PollState) (e : PollEvent)
    (hne : e ≠ PollEvent.tick) (hpending : s.pending = false) (hloop : s.loop ≠ .fetching)
    (hlog : ∀ a ∈ s.log, a = PollAction.cancel)
    (hclosed : s.closed = true → s.loop ≠ .waiting) :
    ((s.step cs arg e).pending = false ∧ (s.step cs arg e).loop ≠ .fetching ∧
      (∀ a ∈ (s.step cs arg e).log, a = PollAction.cancel) ∧
      ((s.step cs arg e).closed = true → (s.step cs arg e).loop ≠ .waiting)) ∧
    ((s.panicked = true ∨ s.loop ≠ .starting) ∨ e = PollEvent.started →
      (s.step cs arg e).panicked = true ∨ (s.step cs arg e).loop ≠ .starting) ∧
    ((s.panicked = true ∨ s.loop = .waiting ∨ s.loop = .returned) ∨
        ((s.panicked = true ∨ s.loop ≠ .starting) ∧ ∃ pick, e = PollEvent.select pick) →
      (s.step cs arg e).panicked = true ∨ (s.step cs arg e).loop = .waiting ∨
        (s.step cs arg e).loop = .returned) := by
  cases e with
  | tick => exact absurd rfl hne
  | started =>
    simp only [PollState.step]
    split_ifs <;> simp_all
    all_goals exact hlog
  | cancel =>
    simp only [PollState.step]
    split_ifs with h1 h2 h3 <;> simp_all
    all_goals
      first
        | exact hlog
        | (rintro a (ha | ha); exacts [hlog a ha, ha])
  | select pick =>
    simp only [PollState.step, PollState.select]
    split_ifs <;> simp_all
    all_goals
      cases hl : s.loop <;> simp_all
    all_goals exact hlog
  | fetched env =>
    simp only [PollState.step]
    rw [if_pos (Or.inr hloop)]
    simp_all
    exact hlog

theorem PollState.run_idle (cs : Consumers) (arg : Argument) (events : List PollEvent) :
    ∀ s : PollState, (∀ e ∈ events, e ≠ PollEvent.tick) → s.pending = false →
      s.loop ≠ .fetching → (∀ a ∈ s.log, a = PollAction.cancel) →
      (s.closed = true → s.loop ≠ .waiting) →
      ((s.run cs arg events).pending = false ∧ (s.run cs arg events).loop ≠ .fetching ∧
        (∀ a ∈ (s.run cs arg events).log, a = PollAction.cancel) ∧
        ((s.run cs arg events).closed = true → (s.run cs arg events).loop ≠ .waiting)) ∧
      (s.panicked = true ∨ s.loop ≠ .starting →
        (s.run cs arg events).panicked = true ∨ (s.run cs arg events).loop ≠ .starting) ∧
      (s.panicked = true ∨ s.loop = .waiting ∨ s.loop = .returned →
        (s.run cs arg events).panicked = true ∨ (s.run cs arg events).loop = .waiting ∨
          (s.run cs arg events).loop = .returned) := by
  induction events with
  | nil => intro s _ h1 h2 h3 h4; exact ⟨⟨h1, h2, h3, h4⟩, id, id⟩
  | cons x xs ih =>
    intro s hne h1 h2 h3 h4
    rw [PollState.run_cons]
    obtain ⟨⟨k1, k2, k3, k4⟩, k5, k6⟩ :=
      PollState.step_idle cs arg s x (hne x (List.mem_cons_self _ _)) h1 h2 h3 h4
    obtain ⟨r, r5, r6⟩ := ih _ (fun e he => hne e (List.mem_cons_of_mem _ he)) k1 k2 k3 k4
    exact ⟨r, fun h => r5 (k5 (Or.inl h)), fun h => r6 (k6 (Or.inl h))⟩

/-- An invocation of the handle closes the channel or finds the program panicked, and so it
stays. -/
theorem PollState.step_cancelled (cs : Consumers) (arg : Argument) (s : PollState)
    (e : PollEvent) (h : (s.panicked = true ∨ s.closed = true) ∨ e = PollEvent.cancel) :
    (s.step cs arg e).panicked = true ∨ (s.step cs arg e).closed = true := by
  cases e with
  | started =>
    simp only [PollState.step]
    split_ifs <;> simp_all
  | tick =>
    simp only [PollState.step]
    split_ifs <;> simp_all
  | cancel =>
    simp only [PollState.step]
    split_ifs <;> simp_all
  | select pick =>
    simp only [PollState.step, PollState.select]
    split_ifs <;> simp_all
  | fetched env =>
    simp only [PollState.step]
    split_ifs
    · simp_all
    · split <;> simp_all

theorem PollState.run_cancelled (cs : Consumers) (arg : Argument) (events : List PollEvent) :
    ∀ s : PollState, (s.panicked = true ∨ s.closed = true) ∨ PollEvent.cancel ∈ events →
      (s.run cs arg events).panicked = true ∨ (s.run cs arg events).closed = true := by
  induction events with
  | nil =>
    intro s h
    rcases h with h | h
    · exact h
    · exact absurd h (List.not_mem_nil _)
  | cons x xs ih =>
    intro s h
    rw [PollState.run_cons]
    rcases h with h | h
    · exact ih _ (Or.inl (PollState.step_cancelled cs arg s x (Or.inl h)))
    · rcases List.mem_cons.mp h with h | h
      · exact ih _ (Or.inl (PollState.step_cancelled cs arg s x (Or.inr h.symm)))
      · exact ih _ (Or.inr h)

/-- C6, amended. For every poll interval, argument bundle and proxy: if, before the first tick
is delivered, the cancellation handle is invoked and the goroutine, having made its ticker,
evaluates its `select` (in either order), then, whatever happens afterwards, the trace holds no
fetch and no handler invocation (only invocations of the handle). -/
theorem Poll_cancel_and_select_before_first_tick (cs : Consumers) (arg : Argument)
    (interval : Int) (b1 b2 b3 after : List PollEvent) (pick : Bool)
    (hticks : ∀ e ∈ b1 ++ PollEvent.started :: (b2 ++ PollEvent.select pick :: b3),
      e ≠ PollEvent.tick)
    (hcancel : PollEvent.cancel ∈ b1 ++ PollEvent.started :: (b2 ++ PollEvent.select pick :: b3)) :
    ∀ a ∈ ((Consumers.Poll interval).run cs arg
        ((b1 ++ PollEvent.started :: (b2 ++ PollEvent.select pick :: b3)) ++ after)).log,
      a = PollAction.cancel := by
  have hc := PollState.run_cancelled cs arg _ (Consumers.Poll interval) (Or.inr hcancel)
  have ht1 : ∀ e ∈ b1, e ≠ PollEvent.tick := fun e he => hticks e (by simp [he])
  have ht2 : ∀ e ∈ b2, e ≠ PollEvent.tick := fun e he => hticks e (by simp [he])
  have ht3 : ∀ e ∈ b3, e ≠ PollEvent.tick := fun e he => hticks e (by simp [he])
  rw [PollState.run_append]
  rw [PollState.run_append, PollState.run_cons, PollState.run_append, PollState.run_cons] at hc ⊢
  obtain ⟨⟨p1, l1, g1, c1⟩, _, _⟩ := PollState.run_idle cs arg b1 (Consumers.Poll interval) ht1
    rfl (by simp [Consumers.Poll]) (by simp [Consumers.Poll]) (by simp [Consumers.Poll])
  generalize (Consumers.Poll interval).run cs arg b1 = s1 at hc p1 l1 g1 c1 ⊢
  obtain ⟨⟨p2, l2, g2, c2⟩, st2, _⟩ :=
    PollState.step_idle cs arg s1 PollEvent.started (by simp) p1 l1 g1 c1
  have st2 := st2 (Or.inr rfl)
  generalize s1.step cs arg PollEvent.started = s2 at hc p2 l2 g2 c2 st2 ⊢
  obtain ⟨⟨p3, l3, g3, c3⟩, st3, _⟩ := PollState.run_idle cs arg b2 s2 ht2 p2 l2 g2 c2
  have st3 := st3 st2
  generalize s2.run cs arg b2 = s3 at hc p3 l3 g3 c3 st3 ⊢
  obtain ⟨⟨p4, l4, g4, c4⟩, _, sel4⟩ :=
    PollState.step_idle cs arg s3 (PollEvent.select pick) (by simp) p3 l3 g3 c3
  have sel4 := sel4 (Or.inr ⟨st3, pick, rfl⟩)
  generalize s3.step cs arg (PollEvent.select pick) = s4 at hc p4 l4 g4 c4 sel4 ⊢
  obtain ⟨⟨p5, l5, g5, c5⟩, _, sel5⟩ := PollState.run_idle cs arg b3 s4 ht3 p4 l4 g4 c4
  have sel5 := sel5 sel4
  generalize s4.run cs arg b3 = s5 at hc p5 l5 g5 c5 sel5 ⊢
  have hq : s5.panicked = true ∨ s5.loop = .returned := by
    rcases hc with h | h
    · exact Or.inl h
    · rcases sel5 with h5 | h5 | h5
      · exact Or.inl h5
      · exact absurd h5 (c5 h)
      · exact Or.inr h5
  obtain ⟨_, extra, hx, hall⟩ := PollState.run_returned cs arg after s5 hq
  intro a ha
  rw [hx] at ha
  rcases List.mem_append.mp ha with ha | ha
  · exact g5 a ha
  · exact hall a ha

/-- Witness of the amended C6: the handle is invoked at once, the goroutine makes its ticker and
blocks in its `select`; two ticks and a stray completion follow, and the trace holds neither a
fetch nor a handler invocation. -/
theorem Poll_cancel_and_select_before_first_tick_witness :
    PollAction.fetch ∉ ((Consumers.Poll 3000).run exampleConsumers exampleArgument
        (([PollEvent.cancel] ++ PollEvent.started :: ([] ++ PollEvent.select true :: [])) ++
          [PollEvent.tick, PollEvent.fetched exampleEmptyEnv, PollEvent.tick,
            PollEvent.select true])).log ∧
    PollAction.onMessage none [] ∉ ((Consumers.Poll 3000).run exampleConsumers exampleArgument
        (([PollEvent.cancel] ++ PollEvent.started :: ([] ++ PollEvent.select true :: [])) ++
          [PollEvent.tick, PollEvent.fetched exampleEmptyEnv, PollEvent.tick,
            PollEvent.select true])).log :=
  have h := Poll_cancel_and_select_before_first_tick exampleConsumers exampleArgument 3000
    [PollEvent.cancel] [] []
    [PollEvent.tick, PollEvent.fetched exampleEmptyEnv, PollEvent.tick, PollEvent.select true]
    true (by simp) (by simp)
  ⟨fun hmem => absurd (h _ hmem) (by decide), fun hmem => absurd (h _ hmem) (by decide)⟩

/-- In every execution, a closed cancellation channel means the loop is not blocked in its
`select`. -/
theorem PollState.step_closed (cs : Consumers) (arg : Argument) (s : PollState) (e : PollEvent)
    (h : s.closed = true → s.loop ≠ .waiting) :
    (s.step cs arg e).closed = true → (s.step cs arg e).loop ≠ .waiting := by
  cases e with
  | started =>
    simp only [PollState.step]
    split_ifs <;> simp_all
  | tick =>
    simp only [PollState.step]
    split_ifs <;> simp_all
  | cancel =>
    simp only [PollState.step]
    split_ifs <;> simp_all
  | select pick =>
    simp only [PollState.step, PollState.select]
    split_ifs <;> simp_all
  | fetched env =>
    simp only [PollState.step]
    split_ifs <;> try simp_all
    all_goals (split <;> try simp_all)

theorem PollState.run_closed (cs : Consumers) (arg : Argument) (events : List PollEvent) :
    ∀ s : PollState, (s.closed = true → s.loop ≠ .waiting) →
      (s.run cs arg events).closed = true → (s.run cs arg events).loop ≠ .waiting := by
  induction events with
  | nil => intro s h; exact h
  | cons x xs ih =>
    intro s h
    rw [PollState.run_cons]
    exact ih _ (PollState.step_closed cs arg s x h)

/-- What the `select` does once the channel is closed: the goroutine, arrived at the `select`,
returns and stops the ticker when it takes the cancellation case, which it is free to do and is
bound to do with no tick pending; with a tick pending it may take the tick, and then starts a
fetch. -/
theorem PollState.step_select_closed (cs : Consumers) (arg : Argument) (s : PollState)
    (hclosed : s.closed = true) (hrunning : s.panicked = false) (hloop : s.loop = .selecting) :
    s.step cs arg (PollEvent.select false) = { s with loop := .returned, stopped := true } ∧
    (s.pending = false →
      s.step cs arg (PollEvent.select true) = { s with loop := .returned, stopped := true }) ∧
    (s.pending = true →
      s.step cs arg (PollEvent.select true) =
        { s with pending := false, loop := .fetching, log := s.log ++ [PollAction.fetch] }) := by
  refine ⟨?_, ?_, ?_⟩
  · simp only [PollState.step, PollState.select, hclosed, hrunning, hloop]
    by_cases hp : s.pending = true <;> simp [hp]
  · intro hp
    simp [PollState.step, PollState.select, hclosed, hrunning, hloop, hp]
  · intro hp
    simp [PollState.step, PollState.select, hclosed, hrunning, hloop, hp]

/-- Handed something that is not a pointer, the decoder stores nothing. -/
theorem Decode_nonpointer_fst {α : Type} (env : Env) (unmarshal : String → α → Except String α)
    (body : String) (target : α) : (Decode env unmarshal false body target).1 = target := by
  unfold Decode
  split
  · rfl
  · split <;> simp

/-- C8, the code at the failing inputs. The proxy answers 200 with a JSON array of one message:
`Records` and `Messages` return no message and the decoder's "non-pointer" error, because they
hand the decoder the slice `m` instead of `&m`; the same happens for the body "[]"; `Poll` then
gives the handler that error and returns. Whatever the proxy answers, the two methods never
return a message. -/
theorem Records_Messages_never_decode :
    (∀ (env : Env) (cs : Consumers) (arg : Argument),
      (cs.Records env arg).ret.1 = [] ∧ (cs.Messages env arg).ret.1 = []) ∧
    (exampleConsumers.Records (exampleMessagesEnv exampleMessagesBody) exampleArgument).ret =
      ([], some (.lib "json: Unmarshal(non-pointer)")) ∧
    (exampleConsumers.Messages (exampleMessagesEnv exampleMessagesBody) exampleArgument).ret =
      ([], some (.lib "json: Unmarshal(non-pointer)")) ∧
    (exampleConsumers.Records (exampleMessagesEnv "[]") exampleArgument).ret =
      ([], some (.lib "json: Unmarshal(non-pointer)")) ∧
    (exampleConsumers.Messages (exampleMessagesEnv "[]") exampleArgument).ret =
      ([], some (.lib "json: Unmarshal(non-pointer)")) ∧
    (Consumers.Poll 3000).run exampleConsumers exampleArgument
        [PollEvent.started, PollEvent.select true, PollEvent.tick,
          PollEvent.fetched (exampleMessagesEnv exampleMessagesBody)] =
      { period := 3000000000, loop := .returned, closed := false, pending := false,
        stopped := false, panicked := false,
        log := [PollAction.fetch,
          PollAction.onMessage (some (.lib "json: Unmarshal(non-pointer)")) []] } ∧
    (Consumers.Poll 3000).run exampleConsumersV2 exampleArgument
        [PollEvent.started, PollEvent.select true, PollEvent.tick,
          PollEvent.fetched (exampleMessagesEnv "[]")] =
      { period := 3000000000, loop := .returned, closed := false, pending := false,
        stopped := false, panicked := false,
        log := [PollAction.fetch,
          PollAction.onMessage (some (.lib "json: Unmarshal(non-pointer)")) []] } := by
  refine ⟨fun env cs arg => ⟨?_, ?_⟩, by decide, by decide, by decide, by decide, by decide,
    by decide⟩
  · simp only [Consumers.Records]
    repeat' split
    all_goals simp [Decode_nonpointer_fst]
  · simp only [Consumers.Messages]
    repeat' split
    all_goals simp [Decode_nonpointer_fst]

theorem Decode_blank {α : Type} (env : Env) (unmarshal : String → α → Except String α)
    (pointer : Bool) (body : String) (target : α) (h : body.data.all isSpace = true) :
    Decode env unmarshal pointer body target = (target, some Error.EOF) := by
  simp [Decode, h]

/-- What the list and get methods return when the proxy answers 200 with a body that holds no
JSON value: the zero value and no error, except for the two methods of `Partitions`, which
return `io.EOF`. -/
theorem list_get_empty_body (env : Env) (req : Request) (res : Response)
    (hdo : env.Do req = .ok res) (hs : res.StatusCode = 200)
    (hblank : res.Body.data.all isSpace = true) :
    (∀ (k : Kafka),
      (k.Broker env).sent = [req] → (k.Broker env).ret = (some {}, none)) ∧
    (∀ (ts : Topics),
      (ts.Names env).sent = [req] → (ts.Names env).ret = ([], none)) ∧
    (∀ (ts : Topics) (topicName : String),
      (ts.Topic env topicName).sent = [req] → (ts.Topic env topicName).ret = ({}, none)) ∧
    (∀ (cs : Consumers) (cop : ConsumerOffsetsPartitions) (name : String)
        (group : List String),
      (cs.Offsets env cop name group).sent = [req] → (cs.Offsets env cop name group).ret = (some {}, none)) ∧
    (∀ (cs : Consumers) (name : String) (group : List String),
      (cs.Subscriptions env name group).sent = [req] → (cs.Subscriptions env name group).ret = (some {}, none)) ∧
    (∀ (cs : Consumers) (name : String) (group : List String),
      (cs.Assignments env name group).sent = [req] → (cs.Assignments env name group).ret = (some {}, none)) ∧
    (∀ (cs : Consumers) (arg : Argument),
      (cs.Records env arg).sent = [req] → (cs.Records env arg).ret = ([], none)) ∧
    (∀ (cs : Consumers) (arg : Argument),
      (cs.Messages env arg).sent = [req] → (cs.Messages env arg).ret = ([], none)) ∧
    (∀ (ps : Partitions) (topicName : List String),
      (ps.Partitions env topicName).sent = [req] → (ps.Partitions env topicName).ret = (none, some Error.EOF)) ∧
    (∀ (ps : Partitions) (id : Int) (topicName : List String),
      (ps.Partition env id topicName).sent = [req] → (ps.Partition env id topicName).ret = (none, some Error.EOF)) := by
  have hv : validateStatusCode env res [] = none := (validateStatusCode_eq_none env res []).2 hs
  have hv2 : validateStatusCode env res [StatusOK] = none := hv
  refine ⟨?_, ?_, ?_, ?_, ?_, ?_, ?_, ?_, ?_, ?_⟩
  · intros
    rename_i hsent
    simp only [Kafka.Broker] at hsent ⊢
    repeat' (split at hsent)
    all_goals simp_all [Decode_blank]
  · intros
    rename_i hsent
    simp only [Topics.Names] at hsent ⊢
    repeat' (split at hsent)
    all_goals simp_all [Decode_blank]
  · intros
    rename_i hsent
    simp only [Topics.Topic] at hsent ⊢
    repeat' (split at hsent)
    all_goals simp_all [Decode_blank]
  · intros
    rename_i hsent
    simp only [Consumers.Offsets] at hsent ⊢
    repeat' (split at hsent)
    all_goals simp_all [Decode_blank]
  · intros
    rename_i hsent
    simp only [Consumers.Subscriptions] at hsent ⊢
    repeat' (split at hsent)
    all_goals simp_all [Decode_blank]
  · intros
    rename_i hsent
    simp only [Consumers.Assignments] at hsent ⊢
    repeat' (split at hsent)
    all_goals simp_all [Decode_blank]
  · intros
    rename_i hsent
    simp only [Consumers.Records] at hsent ⊢
    repeat' (split at hsent)
    all_goals simp_all [Decode_blank]
  · intros
    rename_i hsent
    simp only [Consumers.Messages] at hsent ⊢
    repeat' (split at hsent)
    all_goals simp_all [Decode_blank]
  · intros
    rename_i hsent
    simp only [Partitions.Partitions] at hsent ⊢
    repeat' (split at hsent)
    all_goals simp_all [Decode_blank]
  · intros
    rename_i hsent
    simp only [Partitions.Partition] at hsent ⊢
    repeat' (split at hsent)
    all_goals simp_all [Decode_blank]

/-- C9, the code at the failing inputs. The proxy answers 200 with an empty body:
`Partitions.Partitions` and `Partitions.Partition` return nil and `io.EOF`, since they test
`err != nil` where the other list and get methods test `err != nil && err != io.EOF`; the
other methods (here `Broker`, `Topic` and `Records`) return the zero value and no error. -/
theorem Partitions_empty_body_is_error :
    (examplePartitions.Partitions exampleEmptyEnv ["events"]).ret = (none, some Error.EOF) ∧
    (examplePartitions.Partition exampleEmptyEnv 0 ["events"]).ret = (none, some Error.EOF) ∧
    (Defaults.Broker exampleEmptyEnv).ret = (some {}, none) ∧
    (exampleTopics.Topic exampleEmptyEnv "events").ret = ({}, none) ∧
    (exampleConsumers.Records exampleEmptyEnv exampleArgument).ret = ([], none) := by
  refine ⟨by decide, by decide, by decide, by decide, by decide⟩

/-! ### Status codes -/

theorem validateStatusCode_default (env : Env) (res : Response) :
    validateStatusCode env res [] = validateStatusCode env res [200] := rfl

/-- C10. A response is accepted (`validateStatusCode` returns nil) exactly when its status code
is the expected one: 200 when no code is supplied, the first supplied code otherwise.
`DeleteConsumer`, `Subscribe`, `Unsubscribe`, `Assign`, `Seek`, `SeekToBeginning` and `SeekToEnd`
validate the proxy's answer against 204 and return what the validation returns; every other
method validates against 200: `CommitOffsets` returns what the validation returns, the methods
that go on to decode the body return the validation's error when there is one. -/
theorem status_code_expectations (env : Env) (req : Request) (res : Response)
    (hdo : env.Do req = .ok res) :
    (validateStatusCode env res [] = none ↔ res.StatusCode = 200) ∧
    (∀ (c : Int) (rest : List Int),
      validateStatusCode env res (c :: rest) = none ↔ res.StatusCode = c) ∧
    (∀ (cs : Consumers) (name : String) (group : List String),
      (cs.DeleteConsumer env name group).sent = [req] → (cs.DeleteConsumer env name group).ret = validateStatusCode env res [204]) ∧
    (∀ (cs : Consumers) (sub : TopicSubscription) (pat : Bool) (name : String)
        (group : List String),
      (cs.Subscribe env sub pat name group).sent = [req] → (cs.Subscribe env sub pat name group).ret = validateStatusCode env res [204]) ∧
    (∀ (cs : Consumers) (name : String) (group : List String),
      (cs.Unsubscribe env name group).sent = [req] → (cs.Unsubscribe env name group).ret = validateStatusCode env res [204]) ∧
    (∀ (cs : Consumers) (cop : ConsumerOffsetsPartitions) (name : String)
        (group : List String),
      (cs.Assign env cop name group).sent = [req] → (cs.Assign env cop name group).ret = validateStatusCode env res [204]) ∧
    (∀ (cs : Consumers) (co : ConsumerOffsets) (name : String) (group : List String),
      (cs.Seek env co name group).sent = [req] → (cs.Seek env co name group).ret = validateStatusCode env res [204]) ∧
    (∀ (cs : Consumers) (cop : ConsumerOffsetsPartitions) (name : String)
        (group : List String),
      (cs.SeekToBeginning env cop name group).sent = [req] → (cs.SeekToBeginning env cop name group).ret = validateStatusCode env res [204]) ∧
    (∀ (cs : Consumers) (cop : ConsumerOffsetsPartitions) (name : String)
        (group : List String),
      (cs.SeekToEnd env cop name group).sent = [req] → (cs.SeekToEnd env cop name group).ret = validateStatusCode env res [204]) ∧
    (∀ (cs : Consumers) (co : ConsumerOffsets) (name : String) (group : List String),
      (cs.CommitOffsets env co name group).sent = [req] → (cs.CommitOffsets env co name group).ret = validateStatusCode env res [200]) ∧
    (∀ (k : Kafka) (e : Error),
      (k.Broker env).sent = [req] → validateStatusCode env res [200] = some e →
      (k.Broker env).ret = (none, some e)) ∧
    (∀ (ts : Topics) (e : Error),
      (ts.Names env).sent = [req] → validateStatusCode env res [200] = some e →
      (ts.Names env).ret = ([], some e)) ∧
    (∀ (ts : Topics) (topicName : String) (e : Error),
      (ts.Topic env topicName).sent = [req] → validateStatusCode env res [200] = some e →
      (ts.Topic env topicName).ret = ({}, some e)) ∧
    (∀ (ts : Topics) (topicName : String) (message : ProducerMessage) (e : Error),
      (ts.Produce env topicName message).sent = [req] → validateStatusCode env res [200] = some e →
      (ts.Produce env topicName message).ret = (none, some e)) ∧
    (∀ (ps : Partitions) (topicName : List String) (e : Error),
      (ps.Partitions env topicName).sent = [req] → validateStatusCode env res [200] = some e →
      (ps.Partitions env topicName).ret = (none, some e)) ∧
    (∀ (ps : Partitions) (id : Int) (topicName : List String) (e : Error),
      (ps.Partition env id topicName).sent = [req] → validateStatusCode env res [200] = some e →
      (ps.Partition env id topicName).ret = (none, some e)) ∧
    (∀ (ps : Partitions) (id : Int) (message : ProducerMessage)
        (topicName : List String) (e : Error),
      (ps.Produce env id message topicName).sent = [req] → validateStatusCode env res [200] = some e →
      (ps.Produce env id message topicName).ret = (none, some e)) ∧
    (∀ (cs : Consumers) (cr : ConsumerRequest) (group : List String) (e : Error),
      (cs.NewConsumer env cr group).sent = [req] → validateStatusCode env res [200] = some e →
      (cs.NewConsumer env cr group).ret = (none, some e)) ∧
    (∀ (cs : Consumers) (cop : ConsumerOffsetsPartitions) (name : String)
        (group : List String) (e : Error),
      (cs.Offsets env cop name group).sent = [req] → validateStatusCode env res [200] = some e →
      (cs.Offsets env cop name group).ret = (none, some e)) ∧
    (∀ (cs : Consumers) (name : String) (group : List String) (e : Error),
      (cs.Subscriptions env name group).sent = [req] → validateStatusCode env res [200] = some e →
      (cs.Subscriptions env name group).ret = (none, some e)) ∧
    (∀ (cs : Consumers) (name : String) (group : List String) (e : Error),
      (cs.Assignments env name group).sent = [req] → validateStatusCode env res [200] = some e →
      (cs.Assignments env name group).ret = (none, some e)) ∧
    (∀ (cs : Consumers) (arg : Argument) (e : Error),
      (cs.Records env arg).sent = [req] → validateStatusCode env res [200] = some e →
      (cs.Records env arg).ret = ([], some e)) ∧
    (∀ (cs : Consumers) (arg : Argument) (e : Error),
      (cs.Messages env arg).sent = [req] → validateStatusCode env res [200] = some e →
      (cs.Messages env arg).ret = ([], some e)) := by
  have h200 := validateStatusCode_default env res
  refine ⟨validateStatusCode_eq_none env res [], fun c rest =>
    validateStatusCode_eq_none env res (c :: rest), ?_, ?_, ?_, ?_, ?_, ?_, ?_, ?_, ?_, ?_, ?_, ?_, ?_, ?_, ?_, ?_, ?_, ?_, ?_, ?_, ?_⟩
  · intros
    rename_i hsent
    simp only [Consumers.DeleteConsumer] at hsent ⊢
    repeat' (split at hsent)
    all_goals simp_all [StatusNoContent, StatusOK]
  · intros
    rename_i hsent
    simp only [Consumers.Subscribe] at hsent ⊢
    repeat' (split at hsent)
    all_goals simp_all [StatusNoContent, StatusOK]
  · intros
    rename_i hsent
    simp only [Consumers.Unsubscribe] at hsent ⊢
    repeat' (split at hsent)
    all_goals simp_all [StatusNoContent, StatusOK]
  · intros
    rename_i hsent
    simp only [Consumers.Assign] at hsent ⊢
    repeat' (split at hsent)
    all_goals simp_all [StatusNoContent, StatusOK]
  · intros
    rename_i hsent
    simp only [Consumers.Seek] at hsent ⊢
    repeat' (split at hsent)
    all_goals simp_all [StatusNoContent, StatusOK]
  · intros
    rename_i hsent
    simp only [Consumers.SeekToBeginning] at hsent ⊢
    repeat' (split at hsent)
    all_goals simp_all [StatusNoContent, StatusOK]
  · intros
    rename_i hsent
    simp only [Consumers.SeekToEnd] at hsent ⊢
    repeat' (split at hsent)
    all_goals simp_all [StatusNoContent, StatusOK]
  · intros
    rename_i hsent
    simp only [Consumers.CommitOffsets] at hsent ⊢
    repeat' (split at hsent)
    all_goals simp_all [StatusNoContent, StatusOK]
  · intros
    rename_i hsent hv
    simp only [Kafka.Broker] at hsent ⊢
    repeat' (split at hsent)
    all_goals simp_all [StatusNoContent, StatusOK]
  · intros
    rename_i hsent hv
    simp only [Topics.Names] at hsent ⊢
    repeat' (split at hsent)
    all_goals simp_all [StatusNoContent, StatusOK]
  · intros
    rename_i hsent hv
    simp only [Topics.Topic] at hsent ⊢
    repeat' (split at hsent)
    all_goals simp_all [StatusNoContent, StatusOK]
  · intros
    rename_i hsent hv
    simp only [Topics.Produce] at hsent ⊢
    repeat' (split at hsent)
    all_goals simp_all [StatusNoContent, StatusOK]
    all_goals try rw [if_neg (by tauto)]
  · intros
    rename_i hsent hv
    simp only [Partitions.Partitions] at hsent ⊢
    repeat' (split at hsent)
    all_goals simp_all [StatusNoContent, StatusOK]
  · intros
    rename_i hsent hv
    simp only [Partitions.Partition] at hsent ⊢
    repeat' (split at hsent)
    all_goals simp_all [StatusNoContent, StatusOK]
  · intros
    rename_i hsent hv
    simp only [Partitions.Produce] at hsent ⊢
    repeat' (split at hsent)
    all_goals simp_all [StatusNoContent, StatusOK]
    all_goals try rw [if_neg (by tauto)]
  · intros
    rename_i hsent hv
    simp only [Consumers.NewConsumer, doRequest] at hsent ⊢
    repeat' (split at hsent)
    all_goals simp_all [StatusNoContent, StatusOK]
  · intros
    rename_i hsent hv
    simp only [Consumers.Offsets] at hsent ⊢
    repeat' (split at hsent)
    all_goals simp_all [StatusNoContent, StatusOK]
  · intros
    rename_i hsent hv
    simp only [Consumers.Subscriptions] at hsent ⊢
    repeat' (split at hsent)
    all_goals simp_all [StatusNoContent, StatusOK]
  · intros
    rename_i hsent hv
    simp only [Consumers.Assignments] at hsent ⊢
    repeat' (split at hsent)
    all_goals simp_all [StatusNoContent, StatusOK]
  · intros
    rename_i hsent hv
    simp only [Consumers.Records] at hsent ⊢
    repeat' (split at hsent)
    all_goals simp_all [StatusNoContent, StatusOK]
  · intros
    rename_i hsent hv
    simp only [Consumers.Messages] at hsent ⊢
    repeat' (split at hsent)
    all_goals simp_all [StatusNoContent, StatusOK]

/-- Witness of C10: the proxy answers 204; `DeleteConsumer` accepts the answer, `Broker`, which
expects 200, returns the error of the validation. -/
theorem status_code_expectations_witness :
    ((exampleConsumers.DeleteConsumer exampleNoContentEnv "c1" []).ret =
        validateStatusCode exampleNoContentEnv
          { StatusCode := 204, Status := "204 No Content", Body := "" } [204] ∧
      (exampleConsumers.DeleteConsumer exampleNoContentEnv "c1" []).ret = none) ∧
    (Defaults.Broker exampleNoContentEnv).ret =
      (none, some (.wrap (.new "API Error") "StatusCode 204 204 No Content ErrorCode 0 ")) :=
  ⟨⟨(status_code_expectations exampleNoContentEnv
      { Method := "DELETE", URL := "http://localhost:8082/consumers/group-a/instances/c1",
        Header := [("Accept", "application/vnd.kafka+json, application/json"),
                   ("Content-Type", "application/vnd.kafka+json")] }
      { StatusCode := 204, Status := "204 No Content", Body := "" } (by rfl)).2.2.1
      exampleConsumers "c1" [] (by rfl), by decide⟩,
   (status_code_expectations exampleNoContentEnv
      { Method := "GET", URL := "http://localhost:8082/brokers",
        Header := [("Accept", "application/vnd.kafka+json, application/json")] }
      { StatusCode := 204, Status := "204 No Content", Body := "" }
      (by rfl)).2.2.2.2.2.2.2.2.2.2.1 Defaults _ (by rfl) (by rfl)⟩

/-! ### Produce: when the error is nil -/

theorem produceErrors_flag (cause : Error) (offsets : List ProducerOffsets) :
    (produceErrors cause offsets).2 = false ↔ ∀ o ∈ offsets, o.ErrorCode = 0 := by
  obtain ⟨_, _, h3, h4⟩ := produceErrors_foldl offsets (cause, false)
  constructor
  · intro hflag o ho
    by_contra hne
    have := (h3 o ho hne).2
    simp only [produceErrors] at hflag
    rw [hflag] at this
    exact Bool.noConfusion this
  · intro hall
    cases hb : (produceErrors cause offsets).2 with
    | false => rfl
    | true =>
      rcases h4 hb with h | ⟨o, ho, hne⟩
      · exact Bool.noConfusion h
      · exact absurd (hall o ho) hne

/-- C17. `Topics.Produce` and `Partitions.Produce`: when the proxy answers the request with
status 200 and a body that decodes to `pr`, the returned error is nil if and only if every
offset of `pr` has `ErrorCode` 0. The `Error` strings play no part, and an empty `Offsets`
gives a nil error. -/
theorem Produce_error_nil_iff (env : Env) (res : Response) (pr : ProducerResponse)
    (hs : res.StatusCode = StatusOK)
    (hdec : Decode env env.unmarshalProducerResponse true res.Body {} = (pr, none)) :
    (∀ (ts : Topics) (topicName : String) (message : ProducerMessage) (req : Request),
      (Topics.Produce env ts topicName message).sent = [req] → env.Do req = .ok res →
      ((Topics.Produce env ts topicName message).ret.2 = none ↔
        ∀ o ∈ pr.Offsets, o.ErrorCode = 0)) ∧
    (∀ (ps : Partitions) (id : Int) (message : ProducerMessage) (topicName : List String)
      (req : Request),
      (Partitions.Produce env ps id message topicName).sent = [req] → env.Do req = .ok res →
      ((Partitions.Produce env ps id message topicName).ret.2 = none ↔
        ∀ o ∈ pr.Offsets, o.ErrorCode = 0)) := by
  constructor
  · intro ts topicName message req hsent hdo
    rw [Topics_Produce_response env ts topicName message req res pr hsent hdo hs hdec,
      ← produceErrors_flag (.new ("Error: produce messages to topic " ++ topicName))]
    cases (produceErrors (.new ("Error: produce messages to topic " ++ topicName))
      pr.Offsets).2 <;> simp
  · intro ps id message topicName req hsent hdo
    obtain ⟨cause, h⟩ :=
      Partitions_Produce_response env ps id message topicName req res pr hsent hdo hs hdec
    rw [h, ← produceErrors_flag cause]
    cases (produceErrors cause pr.Offsets).2 <;> simp

/-- Witness of C17: every offset of `exampleProducerOkResponse` has error code 0, one of them
with a non-empty `Error`; both `Produce` methods return a nil error. -/
theorem Produce_error_nil_iff_witness :
    ((Topics.Produce exampleProduceOkEnv exampleTopics "events" {}).ret.2 = none ↔
      ∀ o ∈ exampleProducerOkResponse.Offsets, o.ErrorCode = 0) ∧
    ((Partitions.Produce exampleProduceOkEnv examplePartitions 3 {} ["events"]).ret.2 = none ↔
      ∀ o ∈ exampleProducerOkResponse.Offsets, o.ErrorCode = 0) ∧
    (Topics.Produce exampleProduceOkEnv exampleTopics "events" {}).ret =
      (some exampleProducerOkResponse, none) :=
  have h := Produce_error_nil_iff exampleProduceOkEnv
    { StatusCode := 200, Status := "200 OK", Body := exampleProducerOkBody }
    exampleProducerOkResponse (by decide) (by decide)
  ⟨h.1 exampleTopics "events" {} _ (by rfl) (by rfl),
   h.2 examplePartitions 3 {} ["events"] _ (by rfl) (by rfl), by decide⟩

/-! ### The error of `validateStatusCode` -/

theorem contains_append_left (a b part : String) (h : contains a part) :
    contains (a ++ b) part := by
  unfold contains at *
  rw [String.data_append]
  exact List.IsInfix.trans h (List.prefix_append _ _).isInfix

theorem contains_append_right (a b part : String) (h : contains b part) :
    contains (a ++ b) part := by
  unfold contains at *
  rw [String.data_append]
  exact List.IsInfix.trans h (List.suffix_append _ _).isInfix

theorem contains_self (a : String) : contains a a := List.infix_refl _

/-- When the status is not the expected one and the body decodes to the error object `em`, the
error wraps "API Error" and its text holds the status code, the error code and the message. -/
theorem validateStatusCode_decoded (env : Env) (res : Response) (codes : List Int)
    (em : ErrorMessage)
    (hne : res.StatusCode ≠ (match codes with | [] => StatusOK | c :: _ => c))
    (hdec : Decode env env.unmarshalErrorMessage true res.Body {} = (em, none)) :
    ∃ e, validateStatusCode env res codes = some (.wrap (.new "API Error") e) ∧
      contains (Error.wrap (.new "API Error") e).text (toString res.StatusCode) ∧
      contains (Error.wrap (.new "API Error") e).text (toString em.ErrorCode) ∧
      contains (Error.wrap (.new "API Error") e).text em.Message := by
  refine ⟨"StatusCode " ++ toString res.StatusCode ++ " " ++ res.Status ++
    " ErrorCode " ++ toString em.ErrorCode ++ " " ++ em.Message, ?_, ?_, ?_, ?_⟩
  · unfold validateStatusCode
    cases codes <;> simp only [] at hne ⊢ <;> simp [hne, hdec]
  · simp only [Error.text]
    iterate 8 apply contains_append_left
    exact contains_append_right _ _ _ (contains_self _)
  · simp only [Error.text]
    iterate 4 apply contains_append_left
    exact contains_append_right _ _ _ (contains_self _)
  · simp only [Error.text]
    iterate 2 apply contains_append_left
    exact contains_append_right _ _ _ (contains_self _)

/-- When the status is not the expected one and the decoder fails on the body, the error wraps
"API Error" with what is left to read of the body after the decoder, not with the body. -/
theorem validateStatusCode_undecodable (env : Env) (res : Response) (codes : List Int)
    (em : ErrorMessage) (e : Error)
    (hne : res.StatusCode ≠ (match codes with | [] => StatusOK | c :: _ => c))
    (hdec : Decode env env.unmarshalErrorMessage true res.Body {} = (em, some e))
    (he : e ≠ Error.EOF) :
    validateStatusCode env res codes =
      some (.wrap (.new "API Error") (env.unread res.Body)) := by
  unfold validateStatusCode
  cases codes <;> simp only [] at hne ⊢ <;> simp [hne, hdec, he]

/-- C11, the code at the failing input. Whatever the response, `validateStatusCode` returns nil
or an error that wraps "API Error". For a 404 whose body is the proxy's error object the text
holds the status code, the error code and the message. For a 404 whose body is the plain text
"Not Found" the decoder has read the body before `ioutil.ReadAll` is called on it, nothing is
left to read, and the text is ": API Error": it does not contain the body. -/
theorem validateStatusCode_loses_raw_body :
    (∀ (env : Env) (res : Response) (codes : List Int),
      validateStatusCode env res codes = none ∨
      ∃ m, validateStatusCode env res codes = some (.wrap (.new "API Error") m)) ∧
    validateStatusCode exampleApiErrorEnv
        { StatusCode := 404, Status := "404 Not Found", Body := exampleErrorBody } [] =
      some (.wrap (.new "API Error")
        "StatusCode 404 404 Not Found ErrorCode 40403 Consumer instance not found.") ∧
    validateStatusCode exampleNotFoundEnv
        { StatusCode := 404, Status := "404 Not Found", Body := "Not Found" } [] =
      some (.wrap (.new "API Error") "") ∧
    (Error.wrap (.new "API Error") "").text = ": API Error" ∧
    ¬ contains (Error.wrap (.new "API Error") "").text "Not Found" ∧
    (exampleConsumers.DeleteConsumer exampleNotFoundEnv "c1" []).ret =
      some (.wrap (.new "API Error") "") := by
  refine ⟨fun env res codes => ?_, by decide, by decide, by decide, by decide, by decide⟩
  unfold validateStatusCode
  cases codes <;> simp only [] <;> split <;> first
    | (right; split <;> exact ⟨_, rfl⟩)
    | (left; rfl)

/-! ### The empty consumer name -/

/-- Counterexample to C12. With the consumer name "" each of the eleven methods that take the
name as a parameter of its own builds its URL without the name (the empty segment is cleaned
away) and sends the request; where the proxy answers with the expected status the call returns
a nil error. -/
theorem Consumers_empty_name_is_sent :
    (exampleConsumers.DeleteConsumer exampleNoContentEnv "" []).sent.map (fun r => (r.Method, r.URL)) =
      [("DELETE", "http://localhost:8082/consumers/group-a/instances")] ∧
    (exampleConsumers.CommitOffsets exampleEmptyEnv {} "" []).sent.map (fun r => (r.Method, r.URL)) =
      [("POST", "http://localhost:8082/consumers/group-a/instances/offsets")] ∧
    (exampleConsumers.Offsets exampleEmptyEnv {} "" []).sent.map (fun r => (r.Method, r.URL)) =
      [("GET", "http://localhost:8082/consumers/group-a/instances/offsets")] ∧
    (exampleConsumers.Subscribe exampleNoContentEnv {} false "" []).sent.map (fun r => (r.Method, r.URL)) =
      [("POST", "http://localhost:8082/consumers/group-a/instances/subscription")] ∧
    (exampleConsumers.Subscriptions exampleEmptyEnv "" []).sent.map (fun r => (r.Method, r.URL)) =
      [("GET", "http://localhost:8082/consumers/group-a/instances/subscription")] ∧
    (exampleConsumers.Unsubscribe exampleNoContentEnv "" []).sent.map (fun r => (r.Method, r.URL)) =
      [("DELETE", "http://localhost:8082/consumers/group-a/instances/subscription")] ∧
    (exampleConsumers.Assign exampleNoContentEnv {} "" []).sent.map (fun r => (r.Method, r.URL)) =
      [("POST", "http://localhost:8082/consumers/group-a/instances/assignments")] ∧
    (exampleConsumers.Assignments exampleEmptyEnv "" []).sent.map (fun r => (r.Method, r.URL)) =
      [("GET", "http://localhost:8082/consumers/group-a/instances/assignments")] ∧
    (exampleConsumers.Seek exampleNoContentEnv {} "" []).sent.map (fun r => (r.Method, r.URL)) =
      [("POST", "http://localhost:8082/consumers/group-a/instances/positions")] ∧
    (exampleConsumers.SeekToBeginning exampleNoContentEnv {} "" []).sent.map (fun r => (r.Method, r.URL)) =
      [("POST", "http://localhost:8082/consumers/group-a/instances/positions/beginning")] ∧
    (exampleConsumers.SeekToEnd exampleNoContentEnv {} "" []).sent.map (fun r => (r.Method, r.URL)) =
      [("POST", "http://localhost:8082/consumers/group-a/instances/positions/end")] ∧
    (exampleConsumers.DeleteConsumer exampleNoContentEnv "" []).ret = none ∧
    (exampleConsumers.CommitOffsets exampleEmptyEnv {} "" []).ret = none ∧
    (exampleConsumers.Subscriptions exampleEmptyEnv "" []).ret = (some {}, none) := by
  refine ⟨by decide, by decide, by decide, by decide, by decide, by decide, by decide, by decide, by decide, by decide, by decide, by decide, by decide, by decide⟩

/-- C12, amended. `Records` and `Messages` return the error "Error: empty ConsumerName" and
hand no request to the HTTP client when the `ConsumerName` of their argument is the empty
string. -/
theorem Records_Messages_empty_name (env : Env) (cs : Consumers) (arg : Argument)
    (hname : arg.ConsumerName = "") :
    cs.Records env arg = ⟨([], some (.new "Error: empty ConsumerName")), []⟩ ∧
    cs.Messages env arg = ⟨([], some (.new "Error: empty ConsumerName")), []⟩ := by
  constructor
  · simp [Consumers.Records, hname]
  · simp [Consumers.Messages, hname]

/-- Witness of the amended C12: an argument that names a group and a topic but no consumer. -/
theorem Records_Messages_empty_name_witness :
    exampleConsumers.Records exampleEmptyEnv { TopicName := "events", ConsumerGroup := "group-a" } =
      ⟨([], some (.new "Error: empty ConsumerName")), []⟩ ∧
    exampleConsumers.Messages exampleEmptyEnv { TopicName := "events", ConsumerGroup := "group-a" } =
      ⟨([], some (.new "Error: empty ConsumerName")), []⟩ :=
  Records_Messages_empty_name exampleEmptyEnv exampleConsumers
    { TopicName := "events", ConsumerGroup := "group-a" } (by decide)

/-! ### Configuration -/

/-- Every provided setter succeeds. -/
theorem Setter.option_ok (s : Setter) (k : Kafka) : (s.option k).2 = none := by
  cases s <;> rfl

/-- The method `SetOption` on provided setters applies them all, left to right. -/
theorem SetOption_setters (setters : List Setter) :
    ∀ k : Kafka, k.SetOption (setters.map Setter.option) =
      (setters.foldl (fun k s => (s.option k).1) k, none) := by
  induction setters with
  | nil => intro k; rfl
  | cons s rest ih =>
    intro k
    simp only [List.map_cons, Kafka.SetOption, List.foldl_cons]
    have h := Setter.option_ok s k
    rcases hs : s.option k with ⟨k1, e⟩
    rw [hs] at h
    simp only at h
    subst h
    simp only []
    exact ih k1

theorem lastSet_nil {α : Type} (field : Setter → Option α) (dflt : α) :
    lastSet field dflt [] = dflt := rfl

theorem lastSet_concat {α : Type} (field : Setter → Option α) (dflt : α)
    (setters : List Setter) (s : Setter) :
    lastSet field dflt (setters ++ [s]) = (field s).getD (lastSet field dflt setters) := by
  unfold lastSet
  rw [List.reverse_append]
  simp only [List.reverse_cons, List.reverse_nil, List.nil_append, List.singleton_append,
    List.findSome?_cons]
  cases field s <;> rfl

/-- After a sequence of provided setters every field holds the value of the last setter that
sets it, or the value it had when no setter does. -/
theorem foldl_setters (setters : List Setter) (k : Kafka) :
    setters.foldl (fun k s => (s.option k).1) k =
      { URL := lastSet Setter.url k.URL setters
        Timeout := lastSet Setter.timeout k.Timeout setters
        Accept := lastSet Setter.accept k.Accept setters
        ContentType := lastSet Setter.contentType k.ContentType setters
        Format := lastSet Setter.format k.Format setters
        Offset := lastSet Setter.offset k.Offset setters
        Version := lastSet Setter.version k.Version setters } := by
  induction setters using List.reverseRecOn with
  | nil => simp [lastSet_nil]
  | append_singleton xs x ih =>
    rw [List.foldl_append, List.foldl_cons, List.foldl_nil, ih]
    simp only [lastSet_concat]
    cases x <;> rfl

theorem New_setters (setters : List Setter) :
    New (setters.map Setter.option) =
      (some { URL := lastSet Setter.url Defaults.URL setters
              Timeout := lastSet Setter.timeout Defaults.Timeout setters
              Accept := lastSet Setter.accept Defaults.Accept setters
              ContentType := lastSet Setter.contentType Defaults.ContentType setters
              Format := lastSet Setter.format Defaults.Format setters
              Offset := lastSet Setter.offset Defaults.Offset setters
              Version := lastSet Setter.version Defaults.Version setters }, none) := by
  unfold New
  simp only [SetOption_setters, foldl_setters]
  rfl

/-- C13. For every sequence of the provided setters `New` returns a nil error and the Kafka
whose every field holds the value of the last setter that sets it, and the value of `Defaults`
when no setter does; `Defaults` is as documented, and `New(SetURL(u))` differs from `Defaults`
only in its URL. -/
theorem New_applies_setters (setters : List Setter) :
    New (setters.map Setter.option) =
      (some { URL := lastSet Setter.url "http://localhost:8082" setters
              Timeout := lastSet Setter.timeout (60 * 1000000000) setters
              Accept :=
                lastSet Setter.accept "application/vnd.kafka+json, application/json" setters
              ContentType := lastSet Setter.contentType "application/vnd.kafka+json" setters
              Format := lastSet Setter.format "binary" setters
              Offset := lastSet Setter.offset "largest" setters
              Version := lastSet Setter.version "v1" setters }, none) ∧
    Defaults =
      { URL := "http://localhost:8082", Timeout := 60 * 1000000000,
        Accept := "application/vnd.kafka+json, application/json",
        ContentType := "application/vnd.kafka+json", Format := "binary", Offset := "largest",
        Version := "v1" } ∧
    (∀ u : String, New [SetURL u] = (some { Defaults with URL := u }, none)) ∧
    New [] = (some Defaults, none) := by
  refine ⟨New_setters setters, rfl, fun u => rfl, rfl⟩

theorem lastSet_of_none {α : Type} (field : Setter → Option α) (dflt : α)
    (setters : List Setter) (h : ∀ s ∈ setters, field s = none) :
    lastSet field dflt setters = dflt := by
  induction setters using List.reverseRecOn with
  | nil => rfl
  | append_singleton xs x ih =>
    rw [lastSet_concat, h x (by simp), ih (fun s hs => h s (by simp [hs]))]
    rfl

theorem lastSet_offset_mem (dflt : Offset) (setters : List Setter) :
    lastSet Setter.offset dflt setters = dflt ∨
      lastSet Setter.offset dflt setters ∈ [Earliest, Latest, Smallest, Largest] := by
  induction setters using List.reverseRecOn with
  | nil => exact Or.inl rfl
  | append_singleton xs x ih =>
    rw [lastSet_concat]
    cases x <;> first
      | exact ih
      | (right; simp [Setter.offset])

theorem lastSet_version_mem (dflt : Version) (setters : List Setter) :
    lastSet Setter.version dflt setters = dflt ∨
      lastSet Setter.version dflt setters ∈ [V1, V2] := by
  induction setters using List.reverseRecOn with
  | nil => exact Or.inl rfl
  | append_singleton xs x ih =>
    rw [lastSet_concat]
    cases x <;> first
      | exact ih
      | (right; simp [Setter.version])

/-- Counterexample to C14. `New(V2Version)` has version v2 and keeps the default offset
largest, which is a policy of v1; `New(EarliestOffset)` has the default version v1 with the
offset earliest, a policy of v2. -/
theorem New_offset_not_valid :
    New [V2Version] = (some { Defaults with Version := "v2" }, none) ∧
    ¬ validOffset { Defaults with Version := "v2" } ∧
    New [EarliestOffset] = (some { Defaults with Offset := "earliest" }, none) ∧
    ¬ validOffset { Defaults with Offset := "earliest" } := by
  refine ⟨rfl, by decide, rfl, by decide⟩

/-- C14, amended. For every sequence of the provided setters the Kafka that `New` returns has
its offset among earliest, latest, smallest and largest and its version among v1 and v2, each
fixed on its own by the last setter of its kind (largest and v1 when there is none); the offset
policy is valid for the version when the sequence holds no offset setter and no version setter.
`New` does not check that the two match. -/
theorem New_offset_and_version (setters : List Setter) :
    ∃ k, New (setters.map Setter.option) = (some k, none) ∧
      k.Offset = lastSet Setter.offset Largest setters ∧
      k.Version = lastSet Setter.version V1 setters ∧
      k.Offset ∈ [Earliest, Latest, Smallest, Largest] ∧
      k.Version ∈ [V1, V2] ∧
      ((∀ s ∈ setters, s.offset = none ∧ s.version = none) → validOffset k) := by
  refine ⟨_, New_setters setters, rfl, rfl, ?_, ?_, ?_⟩
  · rcases lastSet_offset_mem Defaults.Offset setters with h | h
    · simp only [h]; decide
    · exact h
  · rcases lastSet_version_mem Defaults.Version setters with h | h
    · simp only [h]; decide
    · exact h
  · intro hnone
    simp only [lastSet_of_none Setter.offset _ setters (fun s hs => (hnone s hs).1),
      lastSet_of_none Setter.version _ setters (fun s hs => (hnone s hs).2)]
    refine ⟨fun h => ?_, fun _ => Or.inr rfl⟩
    have hv : Defaults.Version ≠ V2 := by decide
    exact absurd h hv

/-- Witness of the amended C14: a URL and a format are set, offset and version are left alone. -/
theorem New_offset_and_version_witness :
    ∃ k, New ([Setter.SetURL "http://example.com:8082", Setter.JSONFormat].map Setter.option) =
        (some k, none) ∧ validOffset k :=
  match New_offset_and_version [Setter.SetURL "http://example.com:8082", Setter.JSONFormat] with
  | ⟨k, h, _, _, _, _, hvalid⟩ => ⟨k, h, hvalid (by decide)⟩

/-! ### The ticker period -/

/-- Counterexample to C15. The interval 9 223 372 036 855 is a positive `int64`, but its product
with `time.Millisecond` is beyond the largest `int64` and wraps around to a negative period,
with which `time.NewTicker` panics. -/
theorem tickerPeriod_wraps :
    (0 : Int) < 9223372036855 ∧ (9223372036855 : Int) < 2 ^ 63 ∧
    tickerPeriod 9223372036855 = -9223372036854551616 ∧
    tickerPeriod 9223372036855 ≠ 9223372036855 * 1000000 ∧
    ¬ (0 < tickerPeriod 9223372036855) ∧
    ((Consumers.Poll 9223372036855).step exampleConsumers exampleArgument
      PollEvent.started).panicked = true := by
  refine ⟨by decide, by decide, by decide, by decide, by decide, by decide⟩

/-- C15, amended. For every positive interval `n` passed to `Poll`: up to
`n = 9 223 372 036 854` the ticker period is exactly `n` milliseconds, that is `n * 1 000 000`
nanoseconds, and positive, and the ticker is made; beyond that the 64-bit product wraps around
and the period is not `n` milliseconds. -/
theorem tickerPeriod_exact (n : Int) (hpos : 0 < n) :
    (n ≤ 9223372036854 →
      tickerPeriod n = n * 1000000 ∧ 0 < tickerPeriod n ∧
      (Consumers.Poll n).period = n * 1000000 ∧ (Consumers.Poll n).panicked = false ∧
      ∀ (cs : Consumers) (arg : Argument),
        ((Consumers.Poll n).step cs arg PollEvent.started).panicked = false ∧
        ((Consumers.Poll n).step cs arg PollEvent.started).loop = .selecting) ∧
    (9223372036854 < n → tickerPeriod n ≠ n * 1000000) := by
  have hwrap : tickerPeriod n = (n * 1000000 + 9223372036854775808) % 18446744073709551616 -
      9223372036854775808 := by
    simp only [tickerPeriod, wrapInt64, Millisecond]
    norm_num
  constructor
  · intro hmax
    have hp : tickerPeriod n = n * 1000000 := by
      rw [hwrap]
      omega
    refine ⟨hp, by rw [hp]; omega, ?_, rfl, ?_⟩
    · simp only [Consumers.Poll]
      exact hp
    · intro cs arg
      have hnot : ¬ (n * 1000000 ≤ 0) := by omega
      simp [PollState.step, Consumers.Poll, hp, hnot]
  · intro hbig
    rw [hwrap]
    omega

/-- Witness of C15, amended: the interval of the example program, 3000 ms, and an interval
beyond the bound. -/
theorem tickerPeriod_exact_witness :
    (tickerPeriod 3000 = 3000 * 1000000 ∧ 0 < tickerPeriod 3000 ∧
      (Consumers.Poll 3000).period = 3000 * 1000000 ∧ (Consumers.Poll 3000).panicked = false ∧
      ∀ (cs : Consumers) (arg : Argument),
        ((Consumers.Poll 3000).step cs arg PollEvent.started).panicked = false ∧
        ((Consumers.Poll 3000).step cs arg PollEvent.started).loop = .selecting) ∧
    tickerPeriod 9223372036855 ≠ 9223372036855 * 1000000 :=
  ⟨(tickerPeriod_exact 3000 (by decide)).1 (by decide),
   (tickerPeriod_exact 9223372036855 (by decide)).2 (by decide)⟩

/-! ### The cancellation handle -/

/-- Only an invocation of the cancellation handle closes the channel, and only it or the making
of the ticker makes the program panic. -/
theorem PollState.step_not_cancel (cs : Consumers) (arg : Argument) (s : PollState)
    (e : PollEvent) (hne : e ≠ PollEvent.cancel) (hpos : 0 < s.period) :
    (s.step cs arg e).closed = s.closed ∧ (s.step cs arg e).panicked = s.panicked ∧
    (s.step cs arg e).period = s.period := by
  cases e with
  | cancel => exact absurd rfl hne
  | started =>
    simp only [PollState.step]
    split_ifs with h1 h2
    · exact ⟨rfl, rfl, rfl⟩
    · exact absurd hpos (not_lt.mpr h2)
    · exact ⟨rfl, rfl, rfl⟩
  | tick =>
    simp only [PollState.step]
    split_ifs <;> exact ⟨rfl, rfl, rfl⟩
  | select pick =>
    simp only [PollState.step, PollState.select]
    split_ifs <;> exact ⟨rfl, rfl, rfl⟩
  | fetched env =>
    simp only [PollState.step]
    split_ifs
    · exact ⟨rfl, rfl, rfl⟩
    · split <;> exact ⟨rfl, rfl, rfl⟩

theorem PollState.run_not_cancel (cs : Consumers) (arg : Argument) (events : List PollEvent) :
    ∀ s : PollState, (∀ e ∈ events, e ≠ PollEvent.cancel) → 0 < s.period →
      (s.run cs arg events).closed = s.closed ∧ (s.run cs arg events).panicked = s.panicked ∧
      (s.run cs arg events).period = s.period := by
  induction events with
  | nil => intro s _ _; exact ⟨rfl, rfl, rfl⟩
  | cons x xs ih =>
    intro s h hpos
    rw [PollState.run_cons]
    obtain ⟨h1, h2, h3⟩ :=
      PollState.step_not_cancel cs arg s x (h x (List.mem_cons_self _ _)) hpos
    obtain ⟨k1, k2, k3⟩ := ih (s.step cs arg x) (fun e he => h e (List.mem_cons_of_mem _ he))
      (by rw [h3]; exact hpos)
    exact ⟨k1.trans h1, k2.trans h2, k3.trans h3⟩

/-- A closed channel stays closed. -/
theorem PollState.step_keeps_closed (cs : Consumers) (arg : Argument) (s : PollState)
    (e : PollEvent) (h : s.closed = true) : (s.step cs arg e).closed = true := by
  cases e with
  | started =>
    simp only [PollState.step]
    split_ifs <;> simp_all
  | tick =>
    simp only [PollState.step]
    split_ifs <;> simp_all
  | cancel =>
    simp only [PollState.step]
    split_ifs <;> simp_all
  | select pick =>
    simp only [PollState.step, PollState.select]
    split_ifs <;> simp_all
  | fetched env =>
    simp only [PollState.step]
    split_ifs
    · exact h
    · split <;> exact h

theorem PollState.run_keeps_closed (cs : Consumers) (arg : Argument) (events : List PollEvent) :
    ∀ s : PollState, s.closed = true → (s.run cs arg events).closed = true := by
  induction events with
  | nil => intro s h; exact h
  | cons x xs ih =>
    intro s h
    rw [PollState.run_cons]
    exact ih _ (PollState.step_keeps_closed cs arg s x h)

/-- Once the program has panicked nothing happens any more. -/
theorem PollState.step_panicked (cs : Consumers) (arg : Argument) (s : PollState)
    (e : PollEvent) (h : s.panicked = true) : s.step cs arg e = s := by
  cases e <;> simp [PollState.step, h]

/-- C16. The cancellation handle is single-use. In every execution in which the ticker can be
made (a positive period), with `s0` the state before the first invocation, `s1` the state after
it and `s2` a later state before any second invocation:
* before the first invocation the channel is open and nothing has panicked;
* the first invocation closes the channel without a panic and is recorded; a goroutine blocked
  in its `select` stops the ticker and returns at once, otherwise the goroutine is where it
  was;
* the closed channel is final: whatever happens afterwards the channel stays closed, the
  goroutine is never again blocked in its `select`, every `select` it evaluates is free to take
  the cancellation case, and is bound to with no tick pending, and then the goroutine stops the
  ticker and returns; once returned it stays returned;
* a second invocation panics (close of a closed channel) instead of doing nothing: the state
  changes, and nothing happens afterwards. -/
theorem Poll_cancel_single_use (cs : Consumers) (arg : Argument) (interval : Int)
    (before between : List PollEvent) (s0 s1 s2 : PollState)
    (hpos : 0 < tickerPeriod interval)
    (hbefore : ∀ e ∈ before, e ≠ PollEvent.cancel)
    (hbetween : ∀ e ∈ between, e ≠ PollEvent.cancel)
    (h0 : s0 = (Consumers.Poll interval).run cs arg before)
    (h1 : s1 = s0.step cs arg PollEvent.cancel)
    (h2 : s2 = s1.run cs arg between) :
    (s0.closed = false ∧ s0.panicked = false) ∧
    (s1.closed = true ∧ s1.panicked = false ∧
      (s0.loop = .waiting →
        s1 = { s0 with closed := true, loop := .returned, stopped := true,
                       log := s0.log ++ [PollAction.cancel] }) ∧
      (s0.loop ≠ .waiting →
        s1 = { s0 with closed := true, log := s0.log ++ [PollAction.cancel] })) ∧
    (∀ later : List PollEvent,
      (s1.run cs arg later).closed = true ∧
      (s1.run cs arg later).loop ≠ .waiting ∧
      ((s1.run cs arg later).panicked = false → (s1.run cs arg later).loop = .selecting →
        (s1.run cs arg later).step cs arg (PollEvent.select false) =
          { s1.run cs arg later with loop := .returned, stopped := true } ∧
        ((s1.run cs arg later).pending = false →
          (s1.run cs arg later).step cs arg (PollEvent.select true) =
            { s1.run cs arg later with loop := .returned, stopped := true })) ∧
      ((s1.run cs arg later).loop = .returned → ∀ more : List PollEvent,
        ((s1.run cs arg later).run cs arg more).loop = .returned)) ∧
    (s2.closed = true ∧ s2.panicked = false ∧
      (s2.step cs arg PollEvent.cancel).panicked = true ∧
      (s2.step cs arg PollEvent.cancel).log = s2.log ++ [PollAction.cancel] ∧
      s2.step cs arg PollEvent.cancel ≠ s2 ∧
      ∀ e : PollEvent, (s2.step cs arg PollEvent.cancel).step cs arg e =
        s2.step cs arg PollEvent.cancel) := by
  obtain ⟨hc0, hp0, hper0⟩ := PollState.run_not_cancel cs arg before (Consumers.Poll interval)
    hbefore hpos
  rw [← h0] at hc0 hp0 hper0
  have hc0 : s0.closed = false := hc0
  have hp0 : s0.panicked = false := hp0
  have hper0 : s0.period = tickerPeriod interval := hper0
  have hw0 : s0.closed = true → s0.loop ≠ .waiting := by
    intro h
    rw [hc0] at h
    exact absurd h (by decide)
  have hs1w : s0.loop = .waiting →
      s1 = { s0 with closed := true, loop := .returned, stopped := true,
                     log := s0.log ++ [PollAction.cancel] } := by
    intro hl
    rw [h1]
    simp [PollState.step, hc0, hp0, hl]
  have hs1n : s0.loop ≠ .waiting →
      s1 = { s0 with closed := true, log := s0.log ++ [PollAction.cancel] } := by
    intro hl
    rw [h1]
    simp [PollState.step, hc0, hp0, hl]
  have hc1 : s1.closed = true := by
    by_cases hl : s0.loop = .waiting
    · rw [hs1w hl]
    · rw [hs1n hl]
  have hp1 : s1.panicked = false := by
    by_cases hl : s0.loop = .waiting
    · rw [hs1w hl]; exact hp0
    · rw [hs1n hl]; exact hp0
  have hper1 : s1.period = tickerPeriod interval := by
    by_cases hl : s0.loop = .waiting
    · rw [hs1w hl]; exact hper0
    · rw [hs1n hl]; exact hper0
  have hw1 : s1.closed = true → s1.loop ≠ .waiting := by
    intro _
    by_cases hl : s0.loop = .waiting
    · rw [hs1w hl]; simp
    · rw [hs1n hl]; exact hl
  obtain ⟨hc2, hp2, _⟩ := PollState.run_not_cancel cs arg between s1 hbetween
    (by rw [hper1]; exact hpos)
  rw [← h2] at hc2 hp2
  rw [hc1] at hc2
  rw [hp1] at hp2
  refine ⟨⟨hc0, hp0⟩, ⟨hc1, hp1, hs1w, hs1n⟩, ?_, ?_⟩
  · intro later
    have hcl := PollState.run_keeps_closed cs arg later s1 hc1
    refine ⟨hcl, PollState.run_closed cs arg later s1 hw1 hcl, ?_, ?_⟩
    · intro hrun hloop
      obtain ⟨k1, k2, _⟩ := PollState.step_select_closed cs arg _ hcl hrun hloop
      exact ⟨k1, k2⟩
    · intro hret more
      exact (PollState.run_returned cs arg more _ (Or.inr hret)).1.trans hret
  · have hstep : s2.step cs arg PollEvent.cancel =
        { s2 with panicked := true, log := s2.log ++ [PollAction.cancel] } := by
      simp [PollState.step, hc2, hp2]
    refine ⟨hc2, hp2, ?_, ?_, ?_, ?_⟩
    · rw [hstep]
    · rw [hstep]
    · intro h
      have hpan : (s2.step cs arg PollEvent.cancel).panicked = true := by rw [hstep]
      rw [h, hp2] at hpan
      exact absurd hpan (by decide)
    · intro e
      exact PollState.step_panicked cs arg _ e (by rw [hstep])

/-- Witness of C16: the goroutine blocks in its `select`, a tick starts a fetch, which returns;
the first invocation finds the goroutine arrived at its `select`; another tick, the second
invocation. -/
theorem Poll_cancel_single_use_witness :
    ((Consumers.Poll 3000).run exampleConsumers exampleArgument
      [PollEvent.started, PollEvent.select true, PollEvent.tick,
        PollEvent.fetched exampleEmptyEnv]).closed = false ∧
    ((Consumers.Poll 3000).run exampleConsumers exampleArgument
      [PollEvent.started, PollEvent.select true, PollEvent.tick,
        PollEvent.fetched exampleEmptyEnv, PollEvent.cancel]).closed = true ∧
    (((Consumers.Poll 3000).run exampleConsumers exampleArgument
      [PollEvent.started, PollEvent.select true, PollEvent.tick,
        PollEvent.fetched exampleEmptyEnv, PollEvent.cancel]).run exampleConsumers
        exampleArgument []).step exampleConsumers exampleArgument (PollEvent.select true) =
      { period := 3000000000, loop := .returned, closed := true, pending := false,
        stopped := true, panicked := false,
        log := [PollAction.fetch, PollAction.onMessage none [], PollAction.cancel] } ∧
    (((Consumers.Poll 3000).run exampleConsumers exampleArgument
      [PollEvent.started, PollEvent.select true, PollEvent.tick,
        PollEvent.fetched exampleEmptyEnv, PollEvent.cancel, PollEvent.tick]).step
        exampleConsumers exampleArgument PollEvent.cancel).panicked = true :=
  have h := Poll_cancel_single_use exampleConsumers exampleArgument 3000
    [PollEvent.started, PollEvent.select true, PollEvent.tick, PollEvent.fetched exampleEmptyEnv]
    [PollEvent.tick] _ _ _ (by decide) (by simp) (by simp) rfl rfl rfl
  ⟨h.1.1, h.2.1.1,
    (((h.2.2.1 []).2.2.1 (by decide) (by decide)).2 (by decide)).trans (by decide),
    h.2.2.2.2.2.1⟩

/-! ### `Topics.Topics` -/

/-- The method `Topic` does not look at the `List` of its receiver. -/
theorem Topics_Topic_list (env : Env) (ts : Topics) (list : List Topic) (n : String) :
    Topics.Topic env { ts with List := list } n = Topics.Topic env ts n := rfl

/-- When the loop of `Topics.Topics` ends without an error, the list it returns is the `List`
the receiver had before, followed by the Topic fetched for each name, in order; the receiver
holds the same list afterwards. -/
theorem Topics_topicsLoop_success (env : Env) (ns : List String) :
    ∀ ts : Topics, (Topics.topicsLoop env ts ns).ret.1.2 = none →
      (Topics.topicsLoop env ts ns).ret.1.1 =
        ts.List ++ ns.map (fun n => (Topics.Topic env ts n).ret.1) ∧
      (Topics.topicsLoop env ts ns).ret.2.List = (Topics.topicsLoop env ts ns).ret.1.1 ∧
      (Topics.topicsLoop env ts ns).ret.2.Kafka = ts.Kafka := by
  induction ns with
  | nil => intro ts _; simp [Topics.topicsLoop]
  | cons n rest ih =>
    intro ts h
    simp only [Topics.topicsLoop] at h ⊢
    rcases hc : (Topics.Topic env ts n).ret with ⟨t, _ | err⟩
    · simp only [hc] at h ⊢
      obtain ⟨h1, h2, h3⟩ := ih { ts with List := ts.List ++ [t] } h
      refine ⟨?_, h2, h3⟩
      rw [h1]
      simp only [List.map_cons, hc, List.append_assoc, List.singleton_append]
      rfl
    · simp only [hc] at h
      exact absurd h (by simp)

/-- C19, the code at the failing input. Against a cluster with the topics "events" and "logs"
the first call on a fresh `Topics` returns the two topics. The method appends to the `List` of
its receiver and returns that list, so a second call on the same receiver returns four entries,
each topic twice, and a receiver whose `List` already holds a topic returns it in front of the
fetched ones. -/
theorem Topics_Topics_accumulates :
    (exampleTopics.Topics exampleClusterEnv).ret.1 =
      ([exampleTopicEvents, exampleTopicLogs], none) ∧
    (exampleTopics.Topics exampleClusterEnv).ret.2.List =
      [exampleTopicEvents, exampleTopicLogs] ∧
    (exampleTopics.Names exampleClusterEnv).ret = (["events", "logs"], none) ∧
    (((exampleTopics.Topics exampleClusterEnv).ret.2).Topics exampleClusterEnv).ret.1 =
      ([exampleTopicEvents, exampleTopicLogs, exampleTopicEvents, exampleTopicLogs], none) ∧
    (Topics.Topics exampleClusterEnv { exampleTopics with List := [exampleTopicLogs] }).ret.1 =
      ([exampleTopicLogs, exampleTopicEvents, exampleTopicLogs], none) := by
  refine ⟨by decide, by decide, by decide, by decide, by decide⟩

/-! ### `URLJoin` -/

theorem intercalate_go_data (as : List String) : ∀ acc : String,
    (String.intercalate.go acc "/" as).data =
      acc.data ++ as.foldr (fun s r => '/' :: (s.data ++ r)) [] := by
  induction as with
  | nil => intro acc; simp [String.intercalate.go]
  | cons a as ih =>
    intro acc
    simp only [String.intercalate.go, ih, String.data_append, List.foldr_cons]
    simp

theorem splitSlash_ne_nil (l : List Char) : splitSlash l ≠ [] := by
  cases l with
  | nil => simp [splitSlash]
  | cons c cs =>
    simp only [splitSlash]
    split
    · simp
    · split <;> simp

theorem splitSlash_slash (r : List Char) : splitSlash ('/' :: r) = [] :: splitSlash r := by
  simp only [splitSlash]
  split
  · rename_i h; exact absurd h (splitSlash_ne_nil r)
  · rename_i seg rest h; simp [h]

theorem splitSlash_segment (seg : List Char) (hseg : '/' ∉ seg) :
    splitSlash seg = [seg] ∧ ∀ r, splitSlash (seg ++ '/' :: r) = seg :: splitSlash r := by
  induction seg with
  | nil => exact ⟨rfl, fun r => splitSlash_slash r⟩
  | cons c cs ih =>
    have hc : c ≠ '/' := fun h => hseg (by simp [h])
    have hcs : '/' ∉ cs := fun h => hseg (List.mem_cons_of_mem _ h)
    obtain ⟨h1, h2⟩ := ih hcs
    constructor
    · simp [splitSlash, h1, hc]
    · intro r
      simp [splitSlash, h2 r, hc]

theorem splitSlash_joined (as : List String) (has : ∀ s ∈ as, '/' ∉ s.data) :
    ∀ seg : List Char, '/' ∉ seg →
      splitSlash (seg ++ as.foldr (fun s r => '/' :: (s.data ++ r)) []) =
        seg :: as.map String.data := by
  induction as with
  | nil => intro seg hseg; simpa using (splitSlash_segment seg hseg).1
  | cons a as ih =>
    intro seg hseg
    simp only [List.foldr_cons, List.map_cons]
    rw [(splitSlash_segment seg hseg).2,
      ih (fun s hs => has s (List.mem_cons_of_mem _ hs)) a.data (has a (List.mem_cons_self _ _))]

theorem foldl_cleanStep (rooted : Bool) (segs : List (List Char))
    (h : ∀ s ∈ segs, s ≠ [] ∧ s ≠ ['.'] ∧ s ≠ ['.', '.']) :
    ∀ kept, segs.foldl (cleanStep rooted) kept = segs.reverse ++ kept := by
  induction segs with
  | nil => intro kept; rfl
  | cons s rest ih =>
    intro kept
    obtain ⟨h1, h2, h3⟩ := h s (List.mem_cons_self _ _)
    simp only [List.foldl_cons, cleanStep, h1, h2, h3, or_self, if_false]
    rw [ih (fun t ht => h t (List.mem_cons_of_mem _ ht))]
    simp

theorem pathClean_segments (a : String) (as : List String)
    (h : ∀ s ∈ a :: as, cleanSegment s) :
    pathClean (String.intercalate "/" (a :: as)) = String.intercalate "/" (a :: as) := by
  have hdata : (String.intercalate "/" (a :: as)).data =
      a.data ++ as.foldr (fun s r => '/' :: (s.data ++ r)) [] := by
    simp only [String.intercalate, intercalate_go_data]
  have ha := h a (List.mem_cons_self _ _)
  have hsplit : splitSlash (String.intercalate "/" (a :: as)).data = (a :: as).map String.data := by
    rw [hdata, splitSlash_joined as (fun s hs => (h s (List.mem_cons_of_mem _ hs)).2.1) a.data
      ha.2.1]
    rfl
  have hrooted : ((String.intercalate "/" (a :: as)).data.head? = some '/') = False := by
    rw [hdata]
    rcases hd : a.data with _ | ⟨c, cs⟩
    · exact absurd (String.ext hd) ha.1
    · simp only [List.cons_append, List.head?_cons, Option.some.injEq, eq_iff_iff, iff_false]
      intro hc
      exact ha.2.1 (by rw [hd, hc]; exact List.mem_cons_self _ _)
  have hsegs : ∀ s ∈ (a :: as).map String.data, s ≠ [] ∧ s ≠ ['.'] ∧ s ≠ ['.', '.'] := by
    intro s hs
    obtain ⟨t, ht, rfl⟩ := List.mem_map.mp hs
    obtain ⟨h1, _, h3, h4⟩ := h t ht
    exact ⟨fun hd => h1 (String.ext hd), fun hd => h3 (String.ext hd),
      fun hd => h4 (String.ext hd)⟩
  have hmk : ((a :: as).map String.data).map String.mk = a :: as := by
    rw [List.map_map]
    exact List.map_id _
  have hbody : String.intercalate "/" (a :: as) ≠ "" := by
    intro hb
    have hd := congrArg String.data hb
    rw [hdata] at hd
    rcases hda : a.data with _ | ⟨c, cs⟩
    · exact absurd (String.ext hda) ha.1
    · rw [hda] at hd
      exact absurd hd (by simp)
  unfold pathClean
  simp only [hsplit, foldl_cleanStep _ _ hsegs, List.append_nil, List.reverse_reverse, hmk,
    hrooted, if_false, hbody]

theorem char_le_iff (a b : Char) : a ≤ b ↔ a.toNat ≤ b.toNat := by
  rw [Char.le_def]
  exact Iff.rfl

theorem char_eq_iff (a b : Char) : a = b ↔ a.toNat = b.toNat := by
  constructor
  · intro h; rw [h]
  · intro h
    apply Char.ext
    apply UInt32.ext
    exact h

/-- A byte of a scheme is a plain byte. -/
theorem plainByte_of_scheme (c : Char)
    (h : isLetter c = true ∨ isDigit c = true ∨ c = '+' ∨ c = '-' ∨ c = '.') :
    plainByte c = true := by
  simp only [isLetter, isDigit, plainByte, Bool.or_eq_true, Bool.and_eq_true, decide_eq_true_eq,
    Bool.not_eq_true', Bool.or_eq_false_iff, decide_eq_false_iff_not, char_le_iff,
    char_eq_iff] at h ⊢
  simp at h ⊢
  omega

/-- A decimal digit is a plain byte that a host name need not escape, and neither a colon nor
a slash. -/
theorem isDigit_host (c : Char) (h : isDigit c = true) :
    plainByte c = true ∧ shouldEscape c .encodeHost = false ∧ c ≠ ':' ∧ c ≠ '/' := by
  refine ⟨plainByte_of_scheme c (Or.inr (Or.inl h)), by simp [shouldEscape, h], ?_, ?_⟩
  · intro hc; subst hc; exact absurd h (by decide)
  · intro hc; subst hc; exact absurd h (by decide)

theorem plainByte_ascii (c : Char) (h : plainByte c = true) : c.toNat < 128 := by
  simp only [plainByte, Bool.and_eq_true, decide_eq_true_eq, char_le_iff] at h
  simp at h
  omega

/-- The loop of `getScheme` runs through the bytes of a scheme up to the colon. -/
theorem getSchemeFrom_scheme (rawURL rest : List Char) (cs : List Char)
    (hcs : ∀ d ∈ cs, isLetter d = true ∨ isDigit d = true ∨ d = '+' ∨ d = '-' ∨ d = '.') :
    ∀ seen : List Char, seen ≠ [] →
      getSchemeFrom rawURL seen (cs ++ ':' :: rest) = .ok (seen ++ cs, rest) := by
  induction cs with
  | nil =>
    intro seen hseen
    have h1 : isLetter ':' = false := by decide
    have h2 : isDigit ':' = false := by decide
    simp [getSchemeFrom, h1, h2, hseen]
  | cons d ds ih =>
    intro seen hseen
    have hd := hcs d (List.mem_cons_self _ _)
    have hds := fun e he => hcs e (List.mem_cons_of_mem _ he)
    have hnext := ih hds (seen ++ [d]) (by simp)
    simp only [List.cons_append, getSchemeFrom, List.append_eq]
    by_cases hl : isLetter d = true
    · simp only [hl, if_true]
      rw [hnext]
      simp
    · have hother : (isDigit d || d = '+' || d = '-' || d = '.') = true := by
        rcases hd with h | h | h | h | h
        · exact absurd h hl
        · simp [h]
        · simp [h]
        · simp [h]
        · simp [h]
      simp only [hl, hother, hseen, if_true, if_false]
      rw [hnext]
      simp

theorem getScheme_scheme (c : Char) (cs rest : List Char) (hc : isLetter c = true)
    (hcs : ∀ d ∈ cs, isLetter d = true ∨ isDigit d = true ∨ d = '+' ∨ d = '-' ∨ d = '.') :
    getScheme (c :: cs ++ ':' :: rest) = .ok (c :: cs, rest) := by
  simp only [getScheme, List.cons_append, getSchemeFrom, hc, if_true, List.nil_append,
    List.append_eq]
  rw [getSchemeFrom_scheme _ rest cs hcs [c] (by simp)]
  simp

theorem colonPort_none (l : List Char) (h : ∀ c ∈ l, c ≠ ':') : colonPort l = none := by
  induction l with
  | nil => rfl
  | cons c cs ih =>
    simp only [colonPort, ih (fun d hd => h d (List.mem_cons_of_mem _ hd))]
    simp [h c (List.mem_cons_self _ _)]

theorem colonPort_port (host digits : List Char) (hdigits : ∀ c ∈ digits, c ≠ ':') :
    colonPort (host ++ ':' :: digits) = some (':' :: digits) := by
  induction host with
  | nil => simp [colonPort, colonPort_none digits hdigits]
  | cons c cs ih => simp [colonPort, ih]

theorem takeWhile_no_slash (l : List Char) (h : ∀ c ∈ l, c ≠ '/') :
    l.takeWhile (fun c => c ≠ '/') = l ∧ l.dropWhile (fun c => c ≠ '/') = [] := by
  induction l with
  | nil => exact ⟨rfl, rfl⟩
  | cons c cs ih =>
    obtain ⟨h1, h2⟩ := ih (fun d hd => h d (List.mem_cons_of_mem _ hd))
    have hc := h c (List.mem_cons_self _ _)
    have h1x : List.takeWhile (fun c => decide (c ≠ '/')) cs = cs := h1
    have h2x : List.dropWhile (fun c => decide (c ≠ '/')) cs = [] := h2
    simp only [List.takeWhile, List.dropWhile, hc, ne_eq, not_false_eq_true, decide_True, h1x, h2x,
      and_self]

/-- A text without a byte that `shouldEscape` names is its own escaped form. -/
theorem escape_plain (mode : encoding) (l : List Char)
    (h : ∀ c ∈ l, shouldEscape c mode = false) : escape l mode = l := by
  induction l with
  | nil => rfl
  | cons c cs ih =>
    simp [escape, h c (List.mem_cons_self _ _), ih (fun d hd => h d (List.mem_cons_of_mem _ hd))]

theorem unescapeHost_plain (l : List Char)
    (h : ∀ c ∈ l, shouldEscape c .encodeHost = false) : unescapeHost l = .ok l := by
  have hfind : l.find? (fun c => c.toNat < 128 && shouldEscape c .encodeHost) = none := by
    rw [List.find?_eq_none]
    intro c hc
    simp [h c hc]
  simp [unescapeHost, hfind]

theorem portText_cases (port : String) (hport : portText port) :
    port = "" ∨ ∃ digits : List Char, port.data = ':' :: digits ∧
      ∀ d ∈ digits, isDigit d = true := by
  unfold portText at hport
  rcases hp : port.data with _ | ⟨c, digits⟩
  · exact Or.inl (String.ext hp)
  · rw [hp] at hport
    exact Or.inr ⟨digits, by rw [hport.1], hport.2⟩

/-- The host and port of a plain base URL pass `parseHost` unchanged. -/
theorem parseHost_host_port (host port : String) (hhost : hostText host)
    (hport : portText port) :
    parseHost (host.data ++ port.data) = .ok (host.data ++ port.data) := by
  have hesc : ∀ c ∈ host.data ++ port.data, shouldEscape c .encodeHost = false := by
    intro c hc
    rcases List.mem_append.mp hc with hc | hc
    · exact (hhost.2 c hc).2.1
    · rcases portText_cases port hport with hp | ⟨digits, hp, hd⟩
      · rw [hp] at hc
        exact absurd hc (List.not_mem_nil _)
      · rw [hp] at hc
        rcases List.mem_cons.mp hc with hc | hc
        · rw [hc]; decide
        · exact (isDigit_host c (hd c hc)).2.1
  rcases portText_cases port hport with hp | ⟨digits, hp, hd⟩
  · have hnone : colonPort (host.data ++ port.data) = none := by
      apply colonPort_none
      intro c hc
      rw [hp] at hc
      have hnil : ("" : String).data = [] := rfl
      rw [hnil, List.append_nil] at hc
      exact (hhost.2 c hc).2.2
    simp only [parseHost, hnone]
    exact unescapeHost_plain _ hesc
  · have hsome : colonPort (host.data ++ port.data) = some (':' :: digits) := by
      rw [hp]
      exact colonPort_port _ _ (fun c hc => (isDigit_host c (hd c hc)).2.2.1)
    have hvalid : validOptionalPort (':' :: digits) = true := by
      simp only [validOptionalPort, decide_True, Bool.true_and, List.all_eq_true]
      exact hd
    simp only [parseHost, hsome, hvalid, if_true]
    exact unescapeHost_plain _ hesc

/-- The function `url.Parse` on a base URL scheme://host[:port]: the scheme in lower case, the
host with its port, an empty path. -/
theorem urlParse_base (scheme host port : String) (hscheme : schemeText scheme)
    (hhost : hostText host) (hport : portText port) :
    urlParse (scheme ++ "://" ++ host ++ port) =
      some (.ok { Scheme := toLower scheme, Host := host ++ port }) := by
  have hdata : (scheme ++ "://" ++ host ++ port).data =
      scheme.data ++ ':' :: '/' :: '/' :: (host.data ++ port.data) := by
    simp only [String.data_append, List.append_assoc]
    rfl
  unfold schemeText at hscheme
  rcases hs : scheme.data with _ | ⟨c, cs⟩
  · rw [hs] at hscheme
    exact absurd hscheme id
  rw [hs] at hscheme hdata
  obtain ⟨hc, hcs⟩ := hscheme
  have hportbytes : ∀ d ∈ port.data, plainByte d = true ∧ d ≠ '/' := by
    intro d hd
    rcases portText_cases port hport with hp | ⟨digits, hp, hdig⟩
    · rw [hp] at hd
      exact absurd hd (List.not_mem_nil _)
    · rw [hp] at hd
      rcases List.mem_cons.mp hd with hd | hd
      · rw [hd]; decide
      · exact ⟨(isDigit_host d (hdig d hd)).1, (isDigit_host d (hdig d hd)).2.2.2⟩
  have hhostslash : ∀ d ∈ host.data, d ≠ '/' := by
    intro d hd heq
    have := (hhost.2 d hd).2.1
    rw [heq] at this
    exact absurd this (by decide)
  have hplain : (scheme ++ "://" ++ host ++ port).data.all plainByte = true := by
    rw [hdata, List.all_eq_true]
    intro d hd
    rcases List.mem_append.mp hd with hd | hd
    · rcases List.mem_cons.mp hd with hd | hd
      · rw [hd]; exact plainByte_of_scheme c (Or.inl hc)
      · exact plainByte_of_scheme d (hcs d hd)
    · rcases List.mem_cons.mp hd with hd | hd
      · rw [hd]; decide
      rcases List.mem_cons.mp hd with hd | hd
      · rw [hd]; decide
      rcases List.mem_cons.mp hd with hd | hd
      · rw [hd]; decide
      rcases List.mem_append.mp hd with hd | hd
      · exact (hhost.2 d hd).1
      · exact (hportbytes d hd).1
  rw [hdata] at hplain
  have hstar : c :: cs ++ ':' :: '/' :: '/' :: (host.data ++ port.data) ≠ ['*'] := by
    intro h
    have := congrArg List.length h
    simp at this
  have hauth := takeWhile_no_slash (host.data ++ port.data) (by
    intro d hd
    rcases List.mem_append.mp hd with hd | hd
    · exact hhostslash d hd
    · exact (hportbytes d hd).2)
  have hprefix : "//".data.isPrefixOf ('/' :: '/' :: (host.data ++ port.data)) = true := by
    show List.isPrefixOf ['/', '/'] ('/' :: '/' :: (host.data ++ port.data)) = true
    simp [List.isPrefixOf]
  have hlower : toLower scheme = String.mk ((c :: cs).map Char.toLower) := by
    simp only [toLower, hs]
  simp only [urlParse, hplain, if_true, hdata, parse, hstar, if_false,
    getScheme_scheme c cs _ hc hcs]
  simp only [List.head?_cons, ne_eq, not_true_eq_false, if_false, List.map_cons, reduceCtorEq,
    not_false_eq_true, true_or, hprefix, and_self, if_true, List.drop_succ_cons, List.drop_zero,
    hauth.1, hauth.2, parseHost_host_port host port hhost hport]
  simp only [URL.setPath, escape, if_true, hlower, List.map_cons]
  rfl

/-- What the embedded `url.Parse` and `String` give on some texts outside the claims: a text
with no scheme, an opaque URL, the four errors, and a path that needs escaping. -/
theorem urlParse_examples :
    urlParse "//h/p" = some (.ok { Host := "h", Path := "/p" }) ∧
    urlParse "mailto:x" = some (.ok { Scheme := "mailto", Opaque := "x" }) ∧
    urlParse ":x" = some (.error (.lib "parse \":x\": missing protocol scheme")) ∧
    urlParse "1a:b/c" = some (.error
      (.lib "parse \"1a:b/c\": first path segment in URL cannot contain colon")) ∧
    urlParse "http://local host" = some (.error
      (.lib "parse \"http://local host\": invalid character \" \" in host name")) ∧
    urlParse "http://h:8x" = some (.error
      (.lib "parse \"http://h:8x\": invalid port \":8x\" after host")) ∧
    urlParse "http://h/a b" =
      some (.ok { Scheme := "http", Host := "h", Path := "/a b", RawPath := "/a b" }) ∧
    urlString { Scheme := "http", Host := "h", Path := "/a b" } = some "http://h/a%20b" ∧
    urlString { Path := "a:b/c" } = some "./a:b/c" ∧
    urlParse "http://h/p?q" = none ∧
    urlString { Scheme := "http", Host := "h", Path := "/p", RawQuery := "q" } = none :=
  ⟨rfl, rfl, rfl, rfl, rfl, rfl, rfl, rfl, rfl, rfl, rfl⟩

/-- The example environment has the embedded `net/url`. -/
theorem netURLEnv_netURL : netURL netURLEnv :=
  ⟨fun rawURL r h => by simp [netURLEnv, h], fun u s h => by simp [netURLEnv, h]⟩

/-- Counterexample to C18. The base URL HTTP://localhost:8082 has the form scheme://host:port
and an empty path, and the segment "brokers" needs no escaping; `url.Parse` puts the scheme in
lower case, so `URLJoin` returns http://localhost:8082/brokers, which is not the base, a slash
and the segment. -/
theorem URLJoin_upper_case_scheme :
    schemeText "HTTP" ∧ hostText "localhost" ∧ portText ":8082" ∧
    cleanSegment "brokers" ∧ plainSegment "brokers" ∧
    urlParse "HTTP://localhost:8082" =
      some (.ok { Scheme := "http", Host := "localhost:8082" }) ∧
    urlString { Scheme := "http", Host := "localhost:8082", Path := "brokers" } =
      some "http://localhost:8082/brokers" ∧
    URLJoin netURLEnv "HTTP://localhost:8082" ["brokers"] =
      ("http://localhost:8082/brokers", none) ∧
    URLJoin netURLEnv "HTTP://localhost:8082" ["brokers"] ≠
      ("HTTP://localhost:8082" ++ "/" ++ String.intercalate "/" ["brokers"], none) := by
  refine ⟨by decide, by decide, by decide, by decide, by decide, rfl, rfl, rfl, by decide⟩

theorem joined_data (a : String) (as : List String) :
    (String.intercalate "/" (a :: as)).data =
      a.data ++ as.foldr (fun s r => '/' :: (s.data ++ r)) [] := by
  simp only [String.intercalate, intercalate_go_data]

theorem mem_joined (as : List String) (c : Char)
    (h : c ∈ as.foldr (fun s r => '/' :: (s.data ++ r)) []) :
    c = '/' ∨ ∃ s ∈ as, c ∈ s.data := by
  induction as with
  | nil => exact absurd h (List.not_mem_nil _)
  | cons b bs ih =>
    simp only [List.foldr_cons, List.mem_cons, List.mem_append] at h
    rcases h with h | h | h
    · exact Or.inl h
    · exact Or.inr ⟨b, List.mem_cons_self _ _, h⟩
    · rcases ih h with h | ⟨s, hs, hc⟩
      · exact Or.inl h
      · exact Or.inr ⟨s, List.mem_cons_of_mem _ hs, hc⟩

/-- The method `String` on a URL with a scheme, a host and a relative path of plain segments:
the scheme, `://`, the host, a slash and the path. -/
theorem urlString_base (scheme hostport a : String) (as : List String)
    (hscheme : scheme ≠ "") (hhp : hostport ≠ "")
    (hesc : ∀ c ∈ hostport.data, c.toNat < 128 ∧ shouldEscape c .encodeHost = false)
    (hclean : ∀ s ∈ a :: as, cleanSegment s) (hplain : ∀ s ∈ a :: as, plainSegment s) :
    urlString { Scheme := scheme, Host := hostport, Path := String.intercalate "/" (a :: as) } =
      some (scheme ++ "://" ++ hostport ++ "/" ++ String.intercalate "/" (a :: as)) := by
  have hdata := joined_data a as
  have ha := hclean a (List.mem_cons_self _ _)
  obtain ⟨c0, cs0, hc0⟩ : ∃ c cs, a.data = c :: cs := by
    rcases hd : a.data with _ | ⟨c, cs⟩
    · exact absurd (String.ext hd) ha.1
    · exact ⟨c, cs, rfl⟩
  have hc0s : c0 ≠ '/' := by
    intro h
    exact ha.2.1 (by rw [hc0, h]; exact List.mem_cons_self _ _)
  have hbytes : ∀ c ∈ (String.intercalate "/" (a :: as)).data,
      c.toNat < 128 ∧ shouldEscape c .encodePath = false := by
    intro c hc
    rw [hdata] at hc
    rcases List.mem_append.mp hc with hc | hc
    · exact hplain a (List.mem_cons_self _ _) c hc
    · rcases mem_joined as c hc with h | ⟨s, hs, hcs⟩
      · rw [h]; decide
      · exact hplain s (List.mem_cons_of_mem _ hs) c hcs
  have hpathne : String.intercalate "/" (a :: as) ≠ "" := by
    intro hb
    have hd := congrArg String.data hb
    rw [hdata, hc0] at hd
    exact absurd hd (by simp)
  have hescaped : URL.EscapedPath
      { Scheme := scheme, Host := hostport, Path := String.intercalate "/" (a :: as) } =
      (String.intercalate "/" (a :: as)).data := by
    simp only [URL.EscapedPath]
    split
    · rename_i hstar
      rw [hstar]
    · exact escape_plain _ _ (fun c hc => (hbytes c hc).2)
  have hhostesc : escape hostport.data .encodeHost = hostport.data :=
    escape_plain _ _ (fun c hc => (hesc c hc).2)
  have hascii1 : hostport.data.all (fun c => decide (c.toNat < 128)) = true := by
    rw [List.all_eq_true]
    intro c hc
    simp [(hesc c hc).1]
  have hascii2 : (String.intercalate "/" (a :: as)).data.all (fun c => decide (c.toNat < 128))
      = true := by
    rw [List.all_eq_true]
    intro c hc
    simp [(hbytes c hc).1]
  have hhead : (String.intercalate "/" (a :: as)).data.head? ≠ some '/' := by
    rw [hdata, hc0]
    simp [hc0s]
  have hdatane : (String.intercalate "/" (a :: as)).data ≠ [] := by
    rw [hdata, hc0]
    simp
  have hsch : scheme.data ++ [':'] ++ ['/', '/'] ++ hostport.data ++ ['/'] ≠ [] := by simp
  simp only [urlString, hescaped, hhostesc, hascii1, hascii2, hscheme, hhp, hpathne, hhead,
    hdatane, ne_eq, not_true_eq_false, not_false_eq_true, or_self, or_false, false_or, true_or,
    and_self, and_true, true_and, if_true, if_false, hsch, false_and, not_and, not_not,
    reduceCtorEq, imp_false]
  apply congrArg some
  apply String.ext
  simp only [String.data_append, List.append_assoc]
  rfl

/-- The port, with its colon, of a base URL is made of plain bytes. -/
theorem hostport_bytes (host port : String) (hhost : hostText host) (hport : portText port) :
    host ++ port ≠ "" ∧
    ∀ c ∈ (host ++ port).data, c.toNat < 128 ∧ shouldEscape c .encodeHost = false := by
  constructor
  · intro h
    have hd := congrArg String.data h
    simp only [String.data_append] at hd
    exact hhost.1 (String.ext (List.append_eq_nil.mp hd).1)
  · intro c hc
    simp only [String.data_append] at hc
    rcases List.mem_append.mp hc with hc | hc
    · exact ⟨plainByte_ascii c (hhost.2 c hc).1, (hhost.2 c hc).2.1⟩
    · rcases portText_cases port hport with hp | ⟨digits, hp, hd⟩
      · rw [hp] at hc
        exact absurd hc (List.not_mem_nil _)
      · rw [hp] at hc
        rcases List.mem_cons.mp hc with hc | hc
        · rw [hc]; decide
        · exact ⟨plainByte_ascii c (isDigit_host c (hd c hc)).1, (isDigit_host c (hd c hc)).2.1⟩

theorem toLower_ne_empty (scheme : String) (hscheme : schemeText scheme) :
    toLower scheme ≠ "" := by
  unfold schemeText at hscheme
  rcases hs : scheme.data with _ | ⟨c, cs⟩
  · rw [hs] at hscheme
    exact absurd hscheme id
  · intro h
    have hd := congrArg String.data h
    simp only [toLower, hs, List.map_cons] at hd
    exact absurd hd (by simp)

/-- C18, amended. Let `url.Parse` and `String` be those of Go. For every base URL
scheme://host[:port] (a scheme of a letter followed by letters, digits, `+`, `-` and `.`; a
non-empty host of plain bytes that a host name need not escape; a port of decimal digits) and
every non-empty list of segments, each of them non-empty, without a slash, neither "." nor ".."
and in no need of escaping, `URLJoin` returns a nil error and the base with its scheme in lower
case, a slash and the segments joined by slashes. That is the base, a slash and the joined
segments exactly when the scheme has no upper-case letter; for the five segments of the records
path it is then base/consumers/g/instances/n/records. -/
theorem URLJoin_lowers_scheme (env : Env) (scheme host port : String) (segs : List String)
    (henv : netURL env)
    (hscheme : schemeText scheme) (hhost : hostText host) (hport : portText port)
    (hne : segs ≠ []) (hclean : ∀ s ∈ segs, cleanSegment s)
    (hplain : ∀ s ∈ segs, plainSegment s) :
    URLJoin env (scheme ++ "://" ++ host ++ port) segs =
      (toLower scheme ++ "://" ++ host ++ port ++ "/" ++ String.intercalate "/" segs, none) ∧
    (URLJoin env (scheme ++ "://" ++ host ++ port) segs =
        (scheme ++ "://" ++ host ++ port ++ "/" ++ String.intercalate "/" segs, none) ↔
      toLower scheme = scheme) ∧
    (∀ g n : String, toLower scheme = scheme →
      segs = ["consumers", g, "instances", n, "records"] →
      URLJoin env (scheme ++ "://" ++ host ++ port) segs =
        (scheme ++ "://" ++ host ++ port ++ "/consumers/" ++ g ++ "/instances/" ++ n ++
          "/records", none)) := by
  have hjoin : URLJoin env (scheme ++ "://" ++ host ++ port) segs =
      (toLower scheme ++ "://" ++ host ++ port ++ "/" ++ String.intercalate "/" segs, none) := by
    obtain ⟨a, as, rfl⟩ := List.exists_cons_of_ne_nil hne
    have hparse := henv.1 _ _ (urlParse_base scheme host port hscheme hhost hport)
    have hclean2 := pathClean_segments a as hclean
    have hne2 : String.intercalate "/" (a :: as) ≠ "" := by
      intro hb
      rw [hb] at hclean2
      exact absurd hclean2 (by decide)
    obtain ⟨hhp, hesc⟩ := hostport_bytes host port hhost hport
    have hstring := henv.2 _ _ (urlString_base (toLower scheme) (host ++ port) a as
      (toLower_ne_empty scheme hscheme) hhp hesc hclean hplain)
    simp only [URLJoin, hparse, pathJoin, hne2, and_false, if_false, if_true, hclean2, hstring]
    simp only [String.append_assoc]
  refine ⟨hjoin, ?_, ?_⟩
  · rw [hjoin]
    constructor
    · intro h
      have h1 := congrArg (fun p => p.1.data) h
      simp only [String.data_append, List.append_assoc] at h1
      exact String.ext (List.append_cancel_right h1)
    · intro h
      rw [h]
  · intro g n hlow hsegs
    rw [hjoin, hsegs, hlow]
    simp only [String.intercalate, String.intercalate.go, String.append_assoc]
    rfl

/-- Witness of the amended C18: the records path of consumer "c1" in group "group-a" on the
default base URL. -/
theorem URLJoin_lowers_scheme_witness :
    URLJoin netURLEnv ("http" ++ "://" ++ "localhost" ++ ":8082")
        ["consumers", "group-a", "instances", "c1", "records"] =
      ("http://localhost:8082/consumers/group-a/instances/c1/records", none) :=
  (URLJoin_lowers_scheme netURLEnv "http" "localhost" ":8082"
    ["consumers", "group-a", "instances", "c1", "records"]
    ⟨fun rawURL r h => by simp [netURLEnv, h], fun u s h => by simp [netURLEnv, h]⟩
    (by decide) (by decide) (by decide) (by decide) (by decide) (by decide)).2.2
    "group-a" "c1" (by decide) rfl

end KafkaRest
